import Mathlib

/-!
Verification development for the geometric comparison pipeline of the
picture-comparison repository.  The Python sources are shallowly embedded:
numbers become real numbers, lists stay lists, dictionaries become
association lists in insertion order, and Python object identity for
elements of the two input slices is represented by the element's stable
index into its owning list (the design notes of the project prescribe
exactly this refinement).  Division is the total division of `ℝ`; every
theorem that depends on a quotient carries the positivity hypotheses under
which the Python code runs without raising `ZeroDivisionError`.
-/

namespace PC

open Real

noncomputable section

open Classical

/-- Python `math.atan2 y x`: the angle of the vector `(x, y)` in `(-π, π]`. -/
def atan2 (y x : ℝ) : ℝ :=
  if 0 < x then Real.arctan (y / x)
  else if x < 0 then
    (if 0 ≤ y then Real.arctan (y / x) + Real.pi
     else Real.arctan (y / x) - Real.pi)
  else
    (if 0 < y then Real.pi / 2
     else if y < 0 then -(Real.pi / 2)
     else 0)

/-- Two-dimensional point (`geometry/elements.py`, class `Point`). -/
structure Point where
  x : ℝ
  y : ℝ

/-- `Point.distance_to` from `geometry/elements.py`. -/
def Point.distance_to (p other : Point) : ℝ :=
  Real.sqrt ((p.x - other.x) ^ 2 + (p.y - other.y) ^ 2)

/-- `Point.midpoint_to` from `geometry/elements.py`. -/
def Point.midpoint_to (p other : Point) : Point :=
  ⟨(p.x + other.x) / 2, (p.y + other.y) / 2⟩

/-- Line segment (`geometry/elements.py`, class `Line`).
The source field `end` is spelled `endp` because `end` is a Lean keyword. -/
structure Line where
  start : Point
  endp : Point
  layer : String := ""
  color : String := "black"
  line_type : String := "solid"
  thickness : ℝ := 1.0

/-- `Line.length`. -/
def Line.length (l : Line) : ℝ := l.start.distance_to l.endp

/-- `Line.angle`: `math.atan2(end.y - start.y, end.x - start.x)`. -/
def Line.angle (l : Line) : ℝ := atan2 (l.endp.y - l.start.y) (l.endp.x - l.start.x)

/-- `Line.midpoint`. -/
def Line.midpoint (l : Line) : Point := l.start.midpoint_to l.endp

/-- Circle (`geometry/elements.py`, class `Circle`). -/
structure Circle where
  center : Point
  radius : ℝ
  layer : String := ""
  color : String := "black"
  fill : Bool := false

/-- `Circle.area`. -/
def Circle.area (c : Circle) : ℝ := Real.pi * c.radius ^ 2

/-- Arc (`geometry/elements.py`, class `Arc`). -/
structure Arc where
  center : Point
  radius : ℝ
  start_angle : ℝ
  end_angle : ℝ
  layer : String := ""
  color : String := "black"

/-- `Arc.arc_length`: radius times the angular difference, adding `2π` once
when the raw difference is negative. -/
def Arc.arc_length (a : Arc) : ℝ :=
  let angle_diff := a.end_angle - a.start_angle
  let angle_diff := if angle_diff < 0 then angle_diff + 2 * Real.pi else angle_diff
  a.radius * angle_diff

/-- Text run (`geometry/elements.py`, class `Text`). -/
structure Text where
  position : Point
  content : String
  height : ℝ
  rotation : ℝ := 0.0
  layer : String := ""
  color : String := "black"
  font : String := "Arial"
  bold : Bool := false
  italic : Bool := false

/-- `Text.width_estimate`: `len(content) * height * 0.6`. -/
def Text.width_estimate (t : Text) : ℝ :=
  (t.content.length : ℝ) * t.height * 0.6

/-- The tagged union `Element = Union[Line, Circle, Arc, Text]`. -/
inductive Elem where
  | line (l : Line)
  | circle (c : Circle)
  | arc (a : Arc)
  | text (t : Text)

/-- `type(element).__name__`. -/
def Elem.typeName : Elem → String
  | .line _ => "Line"
  | .circle _ => "Circle"
  | .arc _ => "Arc"
  | .text _ => "Text"

/-- Python `type(a) == type(b)` on elements. -/
def sameType : Elem → Elem → Prop
  | .line _, .line _ => True
  | .circle _, .circle _ => True
  | .arc _, .arc _ => True
  | .text _, .text _ => True
  | _, _ => False

instance : DecidablePred fun p : Elem × Elem => sameType p.1 p.2 := by
  intro p
  rcases p with ⟨a, b⟩
  cases a <;> cases b <;> simp [sameType] <;> infer_instance

instance (a b : Elem) : Decidable (sameType a b) := by
  cases a <;> cases b <;> simp [sameType] <;> infer_instance

/-- Data-model invariants of the spec (section 3): radii are non-negative,
text height is positive, and stored angles (arc start/end, text rotation)
lie in one period `[0, 2π]`. -/
def WfElem : Elem → Prop
  | .line _ => True
  | .circle c => 0 ≤ c.radius
  | .arc a => 0 ≤ a.radius ∧ a.start_angle ∈ Set.Icc 0 (2 * Real.pi) ∧
      a.end_angle ∈ Set.Icc 0 (2 * Real.pi)
  | .text t => 0 < t.height ∧ t.rotation ∈ Set.Icc 0 (2 * Real.pi)

/-- Bounding box `(xmin, ymin, xmax, ymax)`. -/
structure BBox where
  x0 : ℝ
  y0 : ℝ
  x1 : ℝ
  y1 : ℝ

/-- `SpatialIndex._get_bbox` from
`app/services/pdf_comparison/geometry/spatial_index.py` (the arc uses the
full circle's box; the text box uses the width estimate). -/
def getBbox : Elem → BBox
  | .line l => ⟨min l.start.x l.endp.x, min l.start.y l.endp.y,
      max l.start.x l.endp.x, max l.start.y l.endp.y⟩
  | .circle c => ⟨c.center.x - c.radius, c.center.y - c.radius,
      c.center.x + c.radius, c.center.y + c.radius⟩
  | .arc a => ⟨a.center.x - a.radius, a.center.y - a.radius,
      a.center.x + a.radius, a.center.y + a.radius⟩
  | .text t => ⟨t.position.x, t.position.y,
      t.position.x + t.width_estimate, t.position.y + t.height⟩

/-- Closed-box intersection test used by the R-tree on `(xmin, ymin, xmax, ymax)` boxes. -/
def boxIntersect (a b : BBox) : Prop :=
  a.x0 ≤ b.x1 ∧ b.x0 ≤ a.x1 ∧ a.y0 ≤ b.y1 ∧ b.y0 ≤ a.y1

/-- Expansion of a bounding box by `tolerance` in all four directions
(`SpatialIndex.query_nearby`). -/
def expandBbox (b : BBox) (tolerance : ℝ) : BBox :=
  ⟨b.x0 - tolerance, b.y0 - tolerance, b.x1 + tolerance, b.y1 + tolerance⟩

/-! ## Tolerance configuration
`app/services/pdf_comparison/matching/tolerance.py`. -/

/-- `ToleranceConfig` dataclass with its default field values. -/
structure ToleranceConfig where
  position : ℝ := 0.1
  length_ratio : ℝ := 0.01
  angle : ℝ := 0.017
  similarity_threshold : ℝ := 0.8
  text_position : ℝ := 1.0
  text_content_similarity : ℝ := 0.9
  radius_tolerance : ℝ := 0.1
  arc_angle_tolerance : ℝ := 0.087
  enable_fuzzy_matching : Bool := true
  max_search_radius : ℝ := 10.0
  max_candidates_per_element : ℕ := 50
  enable_early_termination : Bool := true

namespace ToleranceConfig

/-- `_validate_parameters`: the exact sequence of checks performed in
`__post_init__`; the first failing check raises `ValueError`. -/
def validate (c : ToleranceConfig) : Except String Unit :=
  if c.position < 0 then .error "position tolerance must be non-negative"
  else if ¬ (0 ≤ c.length_ratio ∧ c.length_ratio ≤ 1) then
    .error "length ratio tolerance must be between 0 and 1"
  else if c.angle < 0 then .error "angle tolerance must be non-negative"
  else if ¬ (0 ≤ c.similarity_threshold ∧ c.similarity_threshold ≤ 1) then
    .error "similarity threshold must be between 0 and 1"
  else if c.max_search_radius < c.position then
    .error "max search radius must be at least the position tolerance"
  else .ok ()

/-- Constructing a `ToleranceConfig` runs `__post_init__`, i.e. validation;
an invalid field set raises before the object is ever used. -/
def make (c : ToleranceConfig) : Except String ToleranceConfig :=
  match validate c with
  | .ok _ => .ok c
  | .error e => .error e

/-- Preset `standard()`. -/
def standard : ToleranceConfig :=
  { position := 0.1, length_ratio := 0.01, angle := 0.017,
    similarity_threshold := 0.85, text_position := 1.0,
    text_content_similarity := 0.9, radius_tolerance := 0.1,
    arc_angle_tolerance := 0.035, max_search_radius := 5.0,
    max_candidates_per_element := 30 }

/-- Preset `high_precision()`. -/
def high_precision : ToleranceConfig :=
  { position := 0.05, length_ratio := 0.005, angle := 0.009,
    similarity_threshold := 0.95, text_position := 0.5,
    text_content_similarity := 0.95, radius_tolerance := 0.05,
    arc_angle_tolerance := 0.017, max_search_radius := 2.0,
    max_candidates_per_element := 20 }

/-- Preset `relaxed()`. -/
def relaxed : ToleranceConfig :=
  { position := 0.5, length_ratio := 0.05, angle := 0.087,
    similarity_threshold := 0.7, text_position := 2.0,
    text_content_similarity := 0.8, radius_tolerance := 0.5,
    arc_angle_tolerance := 0.175, max_search_radius := 10.0,
    max_candidates_per_element := 50 }

/-- Preset `ultra_precise()`. -/
def ultra_precise : ToleranceConfig :=
  { position := 0.01, length_ratio := 0.001, angle := 0.0035,
    similarity_threshold := 0.98, text_position := 0.1,
    text_content_similarity := 0.98, radius_tolerance := 0.01,
    arc_angle_tolerance := 0.0087, max_search_radius := 0.5,
    max_candidates_per_element := 10 }

/-- `custom(**kwargs)`: start from `standard()`, apply the overrides, and
re-run `_validate_parameters`.  The override map is modeled as the function
updating the record. -/
def custom (overrides : ToleranceConfig → ToleranceConfig) :
    Except String ToleranceConfig :=
  match validate (overrides standard) with
  | .ok _ => .ok (overrides standard)
  | .error e => .error e

/-- `scale(factor)`: rejects non-positive factors, then builds a fresh config
(constructor validation included) in which the four distance-valued fields
are multiplied by `factor` and `similarity_threshold` is passed through
`max(0.1, min(1.0, ·))`. -/
def scale (c : ToleranceConfig) (factor : ℝ) : Except String ToleranceConfig :=
  if factor ≤ 0 then .error "scale factor must be positive"
  else make
    { position := c.position * factor
      length_ratio := c.length_ratio
      angle := c.angle
      similarity_threshold := max 0.1 (min 1.0 c.similarity_threshold)
      text_position := c.text_position * factor
      text_content_similarity := c.text_content_similarity
      radius_tolerance := c.radius_tolerance * factor
      arc_angle_tolerance := c.arc_angle_tolerance
      enable_fuzzy_matching := c.enable_fuzzy_matching
      max_search_radius := c.max_search_radius * factor
      max_candidates_per_element := c.max_candidates_per_element
      enable_early_termination := c.enable_early_termination }

end ToleranceConfig

/-! ## Levenshtein distance
`matching/similarity_calculator.py`, `_levenshtein_distance`: a two-row
dynamic program.  `levRec` is the textbook recursion, used only as a proof
device to reason about the dynamic program. -/

/-- Inner loop of the dynamic program: given the current character `c1` of
`s1`, the remaining characters of `s2`, the tail of the previous row starting
at index `j`, and the last value `current_row[j]`, produce the remaining
cells `current_row[j+1 ..]`.  Each cell is
`min(insertions, deletions, substitutions)` exactly as in the source. -/
def levCells (c1 : Char) : List Char → List ℕ → ℕ → List ℕ
  | [], _, _ => []
  | _ :: _, [], _ => []
  | c2 :: s2, pj :: prest, left =>
    let insertions := prest.headD 0 + 1
    let deletions := left + 1
    let substitutions := pj + (if c1 = c2 then 0 else 1)
    let cell := min insertions (min deletions substitutions)
    cell :: levCells c1 s2 prest cell

/-- One outer-loop iteration: `current_row = [i+1]` followed by the computed
cells. -/
def levRowStep (s2 : List Char) (previous_row : List ℕ) (i : ℕ) (c1 : Char) :
    List ℕ :=
  (i + 1) :: levCells c1 s2 previous_row (i + 1)

/-- The full dynamic program: start from `previous_row = range(len(s2)+1)`,
fold the rows over the enumerated characters of `s1`, and return the last
entry of the final row. -/
def levDP (s1 s2 : List Char) : ℕ :=
  (s1.enum.foldl (fun prev ic => levRowStep s2 prev ic.1 ic.2)
    (List.range (s2.length + 1))).getLastD 0

/-- Body of `_levenshtein_distance` after the argument swap: the
short-circuit for an empty `s2`, then the dynamic program. -/
def levBody (s1 s2 : List Char) : ℕ :=
  if s2.length = 0 then s1.length else levDP s1 s2

/-- `_levenshtein_distance(s1, s2)`: swap so that the first string is the
longer one, then run the dynamic program. -/
def levenshtein_distance (s1 s2 : List Char) : ℕ :=
  if s1.length < s2.length then levBody s2 s1 else levBody s1 s2

/-- Textbook recursive Levenshtein distance (proof device, not source code):
used to state what the dynamic program computes. -/
def levRec : List Char → List Char → ℕ
  | [], t => t.length
  | s, [] => s.length
  | a :: s, b :: t =>
    min (levRec s (b :: t) + 1)
      (min (levRec (a :: s) t + 1)
        (levRec s t + (if a = b then 0 else 1)))

/-- Proof device: the previous row of the dynamic program, written as
Levenshtein distances.  `levRows X Y t` lists the distances from `X` to
`Y`, `t₀ :: Y`, `t₁ :: t₀ :: Y`, … (`Y` is the reversed processed prefix of
`s2`, `t` the remaining characters). -/
def levRows (X : List Char) : List Char → List Char → List ℕ
  | Y, [] => [levRec X Y]
  | Y, c :: t => levRec X Y :: levRows X (c :: Y) t

/-! ## Similarity calculator
`matching/similarity_calculator.py`.  The calculator's result cache maps
`(id(a), id(b))` to the already-computed result and never changes a returned
value, so the embedding is the underlying pure function. -/

/-- Enumeration `SimilarityMethod`. -/
inductive SimilarityMethod where
  | euclidean
  | manhattan
  | cosine
  | jaccard
  | hausdorff
  | weighted
deriving DecidableEq

/-- Dataclass `SimilarityResult`; `detailed_scores` is an insertion-ordered
dictionary, modeled as an association list. -/
structure SimilarityResult where
  overall_similarity : ℝ
  geometric_similarity : ℝ
  attribute_similarity : ℝ
  contextual_similarity : ℝ
  method_used : SimilarityMethod
  detailed_scores : List (String × ℝ)
  confidence : ℝ

/-- Dataclass `SimilarityWeights` with its default field values. -/
structure SimilarityWeights where
  position : ℝ := 0.3
  shape : ℝ := 0.4
  size : ℝ := 0.2
  orientation : ℝ := 0.1

/-- `SimilarityWeights.normalize`. -/
def SimilarityWeights.normalize (w : SimilarityWeights) : SimilarityWeights :=
  let total := w.position + w.shape + w.size + w.orientation
  if 0 < total then
    ⟨w.position / total, w.shape / total, w.size / total, w.orientation / total⟩
  else w

/-- The weights held by the calculator: defaults, normalized in `__init__`. -/
def calcWeights : SimilarityWeights := SimilarityWeights.normalize {}

/-- `layer` attribute (present on every variant). -/
def Elem.layerAttr : Elem → String
  | .line l => l.layer
  | .circle c => c.layer
  | .arc a => a.layer
  | .text t => t.layer

/-- `color` attribute (present on every variant). -/
def Elem.colorAttr : Elem → String
  | .line l => l.color
  | .circle c => c.color
  | .arc a => a.color
  | .text t => t.color

/-- `line_type` attribute (`hasattr` is true only for lines). -/
def Elem.lineTypeAttr : Elem → Option String
  | .line l => some l.line_type
  | _ => none

/-- `font` attribute (`hasattr` is true only for texts). -/
def Elem.fontAttr : Elem → Option String
  | .text t => some t.font
  | _ => none

namespace SimilarityCalculator

/-- `_position_similarity`. -/
def position_similarity (cfg : ToleranceConfig) (pos_a pos_b : Point) : ℝ :=
  max 0 (1 - pos_a.distance_to pos_b / cfg.position)

/-- `_length_similarity`. -/
def length_similarity (cfg : ToleranceConfig) (length_a length_b : ℝ) : ℝ :=
  if length_a = 0 ∧ length_b = 0 then 1
  else if max length_a length_b = 0 then 1
  else max 0 (1 - |length_a - length_b| / max length_a length_b / cfg.length_ratio)

/-- `_angle_similarity`: the smaller of the two circular directions. -/
def angle_similarity (cfg : ToleranceConfig) (angle_a angle_b : ℝ) : ℝ :=
  let angle_diff := |angle_a - angle_b|
  let angle_diff := min angle_diff (2 * Real.pi - angle_diff)
  max 0 (1 - angle_diff / cfg.angle)

/-- `_radius_similarity`. -/
def radius_similarity (cfg : ToleranceConfig) (radius_a radius_b : ℝ) : ℝ :=
  max 0 (1 - |radius_a - radius_b| / cfg.radius_tolerance)

/-- `_area_similarity` (tolerance is twice the length ratio). -/
def area_similarity (cfg : ToleranceConfig) (area_a area_b : ℝ) : ℝ :=
  if area_a = 0 ∧ area_b = 0 then 1
  else if max area_a area_b = 0 then 1
  else max 0 (1 - |area_a - area_b| / max area_a area_b / (cfg.length_ratio * 2))

/-- `_endpoint_similarity`: best of the direct and the reversed pairing. -/
def endpoint_similarity (cfg : ToleranceConfig) (line_a line_b : Line) : ℝ :=
  let sim1 := (position_similarity cfg line_a.start line_b.start +
      position_similarity cfg line_a.endp line_b.endp) / 2
  let sim2 := (position_similarity cfg line_a.start line_b.endp +
      position_similarity cfg line_a.endp line_b.start) / 2
  max sim1 sim2

/-- `_arc_angle_similarity`. -/
def arc_angle_similarity (cfg : ToleranceConfig) (arc_a arc_b : Arc) : ℝ :=
  (angle_similarity cfg arc_a.start_angle arc_b.start_angle +
    angle_similarity cfg arc_a.end_angle arc_b.end_angle) / 2

/-- `_levenshtein_similarity`. -/
def levenshtein_similarity (s1 s2 : List Char) : ℝ :=
  if s1.length = 0 then (if 0 < s2.length then 0 else 1)
  else if s2.length = 0 then 0
  else 1 - (levenshtein_distance s1 s2 : ℝ) / ((max s1.length s2.length : ℕ) : ℝ)

/-- `_text_content_similarity`. -/
def text_content_similarity (content_a content_b : String) : ℝ :=
  if content_a = content_b then 1
  else if content_a = "" ∨ content_b = "" then 0
  else levenshtein_similarity content_a.data content_b.data

/-- `_get_element_center` of the calculator. -/
def element_center : Elem → Point
  | .line l => l.midpoint
  | .circle c => c.center
  | .arc a => a.center
  | .text t => t.position

/-- `_calculate_line_geometric_similarity` (sub-scores weighted by the
normalized `SimilarityWeights`). -/
def line_geometric_similarity (cfg : ToleranceConfig) (line_a line_b : Line) : ℝ :=
  position_similarity cfg line_a.midpoint line_b.midpoint * calcWeights.position +
  length_similarity cfg line_a.length line_b.length * calcWeights.size +
  angle_similarity cfg line_a.angle line_b.angle * calcWeights.orientation +
  endpoint_similarity cfg line_a line_b * calcWeights.shape

/-- `_calculate_circle_geometric_similarity`. -/
def circle_geometric_similarity (cfg : ToleranceConfig) (circle_a circle_b : Circle) : ℝ :=
  position_similarity cfg circle_a.center circle_b.center * calcWeights.position +
  radius_similarity cfg circle_a.radius circle_b.radius * calcWeights.size +
  1.0 * calcWeights.shape +
  1.0 * calcWeights.orientation

/-- `_calculate_arc_geometric_similarity`. -/
def arc_geometric_similarity (cfg : ToleranceConfig) (arc_a arc_b : Arc) : ℝ :=
  position_similarity cfg arc_a.center arc_b.center * calcWeights.position +
  radius_similarity cfg arc_a.radius arc_b.radius * calcWeights.size +
  length_similarity cfg arc_a.arc_length arc_b.arc_length * calcWeights.shape +
  arc_angle_similarity cfg arc_a arc_b * calcWeights.orientation

/-- `_calculate_text_geometric_similarity`. -/
def text_geometric_similarity (cfg : ToleranceConfig) (text_a text_b : Text) : ℝ :=
  position_similarity cfg text_a.position text_b.position * calcWeights.position +
  length_similarity cfg text_a.height text_b.height * calcWeights.size +
  text_content_similarity text_a.content text_b.content * calcWeights.shape +
  angle_similarity cfg text_a.rotation text_b.rotation * calcWeights.orientation

/-- `_calculate_geometric_similarity`: dispatch on the (equal) runtime type. -/
def geometric_similarity (cfg : ToleranceConfig) : Elem → Elem → ℝ
  | .line a, .line b => line_geometric_similarity cfg a b
  | .circle a, .circle b => circle_geometric_similarity cfg a b
  | .arc a, .arc b => arc_geometric_similarity cfg a b
  | .text a, .text b => text_geometric_similarity cfg a b
  | _, _ => 0

/-- `_calculate_attribute_similarity`: mean over the attributes present on
both elements, with the per-attribute mismatch penalties of the source. -/
def attribute_similarity (element_a element_b : Elem) : ℝ :=
  let similarities : List ℝ :=
    [(if element_a.layerAttr = element_b.layerAttr then (1 : ℝ) else 0.5),
     (if element_a.colorAttr = element_b.colorAttr then (1 : ℝ) else 0.3)] ++
    (match element_a.lineTypeAttr, element_b.lineTypeAttr with
      | some x, some y => [if x = y then (1 : ℝ) else 0.7]
      | _, _ => []) ++
    (match element_a.fontAttr, element_b.fontAttr with
      | some x, some y => [if x = y then (1 : ℝ) else 0.8]
      | _, _ => [])
  if similarities ≠ [] then similarities.sum / similarities.length else 1

/-- `_calculate_detailed_scores`: insertion-ordered per-feature scores. -/
def detailed_scores (cfg : ToleranceConfig) (element_a element_b : Elem) :
    List (String × ℝ) :=
  ("position", position_similarity cfg (element_center element_a)
      (element_center element_b)) ::
  (match element_a, element_b with
    | .line a, .line b =>
      [("length", length_similarity cfg a.length b.length),
       ("angle", angle_similarity cfg a.angle b.angle),
       ("endpoint", endpoint_similarity cfg a b)]
    | .circle a, .circle b =>
      [("radius", radius_similarity cfg a.radius b.radius),
       ("area", area_similarity cfg a.area b.area)]
    | .arc a, .arc b =>
      [("radius", radius_similarity cfg a.radius b.radius),
       ("arc_length", length_similarity cfg a.arc_length b.arc_length),
       ("angle_range", arc_angle_similarity cfg a b)]
    | .text a, .text b =>
      [("content", text_content_similarity a.content b.content),
       ("height", length_similarity cfg a.height b.height),
       ("rotation", angle_similarity cfg a.rotation b.rotation)]
    | _, _ => [])

/-- `_calculate_element_complexity`. -/
def element_complexity : Elem → ℝ
  | .line _ => 1.0
  | .circle _ => 1.2
  | .arc _ => 1.5
  | .text t => 1.3 + (t.content.length : ℝ) * 0.01

/-- `_calculate_confidence`: low variance of the detailed scores means high
confidence, scaled up by the complexity of `element_a` and clamped. -/
def confidence (element_a element_b : Elem) (detailed : List (String × ℝ)) : ℝ :=
  if detailed = [] then 0.5
  else
    let scores := detailed.map Prod.snd
    let mean_score := scores.sum / (scores.length : ℝ)
    let variance := (scores.map (fun s => (s - mean_score) ^ 2)).sum / (scores.length : ℝ)
    let conf := 1 - min variance 0.5 * 2
    let conf := conf * (1 + element_complexity element_a * 0.1)
    min 1 (max 0 conf)

/-- `_calculate_weighted_similarity`. -/
def weighted_similarity (cfg : ToleranceConfig) (element_a element_b : Elem) :
    SimilarityResult :=
  let geometric_sim := geometric_similarity cfg element_a element_b
  let attribute_sim := attribute_similarity element_a element_b
  let contextual_sim : ℝ := 1.0
  let detailed := detailed_scores cfg element_a element_b
  let overall_sim := geometric_sim * 0.6 + attribute_sim * 0.3 + contextual_sim * 0.1
  ⟨overall_sim, geometric_sim, attribute_sim, contextual_sim, .weighted, detailed,
    confidence element_a element_b detailed⟩

/-- `_calculate_euclidean_similarity`. -/
def euclidean_similarity (cfg : ToleranceConfig) (element_a element_b : Elem) :
    SimilarityResult :=
  let distance := (element_center element_a).distance_to (element_center element_b)
  let similarity := max 0 (1 - distance / cfg.max_search_radius)
  ⟨similarity, similarity, 1.0, 1.0, .euclidean, [("distance", distance)], 0.8⟩

/-- `_calculate_manhattan_similarity`. -/
def manhattan_similarity (cfg : ToleranceConfig) (element_a element_b : Elem) :
    SimilarityResult :=
  let center_a := element_center element_a
  let center_b := element_center element_b
  let manhattan_distance := |center_a.x - center_b.x| + |center_a.y - center_b.y|
  let similarity := max 0 (1 - manhattan_distance / (cfg.max_search_radius * 2))
  ⟨similarity, similarity, 1.0, 1.0, .manhattan,
    [("manhattan_distance", manhattan_distance)], 0.7⟩

/-- `_element_to_vector`: the six-component feature vector. -/
def element_to_vector : Elem → List ℝ
  | .line l => [l.start.x, l.start.y, l.endp.x, l.endp.y, l.length, l.angle]
  | .circle c => [c.center.x, c.center.y, c.radius, c.area, 0, 0]
  | .arc a => [a.center.x, a.center.y, a.radius, a.arc_length, a.start_angle, a.end_angle]
  | .text t => [t.position.x, t.position.y, t.height, (t.content.length : ℝ),
      t.rotation, 0]

/-- `np.dot` on equal-length vectors. -/
def dotList (v w : List ℝ) : ℝ := (List.zipWith (fun x y => x * y) v w).sum

/-- `np.linalg.norm`: the Euclidean norm. -/
def normList (v : List ℝ) : ℝ := Real.sqrt ((v.map (fun x => x ^ 2)).sum)

/-- `_calculate_cosine_similarity` (no clamping of the quotient). -/
def cosine_similarity (element_a element_b : Elem) : SimilarityResult :=
  let vector_a := element_to_vector element_a
  let vector_b := element_to_vector element_b
  let dot_product := dotList vector_a vector_b
  let norm_a := normList vector_a
  let norm_b := normList vector_b
  let similarity := if norm_a = 0 ∨ norm_b = 0 then 0 else dot_product / (norm_a * norm_b)
  ⟨similarity, similarity, 1.0, 1.0, .cosine, [("cosine", similarity)], 0.9⟩

/-- `_get_element_attributes`: the attribute name set. -/
def element_attributes (e : Elem) : Finset String :=
  let attrs : Finset String := {e.typeName}
  let attrs := insert ("layer_" ++ e.layerAttr) attrs
  let attrs := insert ("color_" ++ e.colorAttr) attrs
  let attrs := match e.lineTypeAttr with
    | some x => insert ("line_type_" ++ x) attrs
    | none => attrs
  match e.fontAttr with
  | some x => insert ("font_" ++ x) attrs
  | none => attrs

/-- `_calculate_jaccard_similarity`. -/
def jaccard_similarity (element_a element_b : Elem) : SimilarityResult :=
  let attrs_a := element_attributes element_a
  let attrs_b := element_attributes element_b
  let inter := (attrs_a ∩ attrs_b).card
  let un := (attrs_a ∪ attrs_b).card
  let similarity := if 0 < un then (inter : ℝ) / (un : ℝ) else 0
  ⟨similarity, 0.5, similarity, 1.0, .jaccard, [("jaccard", similarity)], 0.6⟩

/-- `_get_element_points`: key points of an element. -/
def element_points : Elem → List Point
  | .line l => [l.start, l.endp]
  | .circle c => [c.center, ⟨c.center.x + c.radius, c.center.y⟩,
      ⟨c.center.x - c.radius, c.center.y⟩, ⟨c.center.x, c.center.y + c.radius⟩,
      ⟨c.center.x, c.center.y - c.radius⟩]
  | .arc a => [a.center, ⟨a.center.x + a.radius, a.center.y⟩,
      ⟨a.center.x - a.radius, a.center.y⟩, ⟨a.center.x, a.center.y + a.radius⟩,
      ⟨a.center.x, a.center.y - a.radius⟩]
  | .text t => [t.position]

/-- Minimum distance from a point to a non-empty point list (`min` over a
Python generator; the empty case is unreachable behind the source's guard). -/
def minDistTo (p : Point) : List Point → ℝ
  | [] => 0
  | q :: qs => (qs.map p.distance_to).foldl min (p.distance_to q)

/-- `_hausdorff_distance` on non-empty point lists (the source returns
`float('inf')` when either list is empty; that case is handled at the call
site in `hausdorff_similarity`). -/
def hausdorff_distance (points_a points_b : List Point) : ℝ :=
  let d_ab := (points_a.map (fun p => minDistTo p points_b)).foldl max 0
  let d_ba := (points_b.map (fun p => minDistTo p points_a)).foldl max 0
  max d_ab d_ba

/-- `_calculate_hausdorff_similarity`.  With an empty point list the source
computes `max(0, 1 - inf/r)`, i.e. `0` for a positive radius; `ℝ` has no
infinity, so that value is inlined (the four variants never produce an empty
list). -/
def hausdorff_similarity (cfg : ToleranceConfig) (element_a element_b : Elem) :
    SimilarityResult :=
  let points_a := element_points element_a
  let points_b := element_points element_b
  let hausdorff_dist := hausdorff_distance points_a points_b
  let similarity := if points_a = [] ∨ points_b = [] then 0
    else max 0 (1 - hausdorff_dist / cfg.max_search_radius)
  ⟨similarity, similarity, 1.0, 1.0, .hausdorff,
    [("hausdorff_distance", hausdorff_dist)], 0.8⟩

/-- `calculate_similarity`: type mismatch yields the zero result, otherwise
dispatch on the configured method. -/
def calculate_similarity (cfg : ToleranceConfig) (method : SimilarityMethod)
    (element_a element_b : Elem) : SimilarityResult :=
  if ¬ sameType element_a element_b then
    ⟨0, 0, 0, 0, method, [], 1.0⟩
  else
    match method with
    | .weighted => weighted_similarity cfg element_a element_b
    | .euclidean => euclidean_similarity cfg element_a element_b
    | .manhattan => manhattan_similarity cfg element_a element_b
    | .cosine => cosine_similarity element_a element_b
    | .jaccard => jaccard_similarity element_a element_b
    | .hausdorff => hausdorff_similarity cfg element_a element_b

end SimilarityCalculator

/-! ## Spatial index
`app/services/pdf_comparison/geometry/spatial_index.py`.  The R-tree is
modeled by the stored `(id, element)` pairs in insertion order together with
the id counter; `intersection` enumerates the stored boxes that meet the
query box (the library's enumeration is deterministic; the embedding fixes
insertion order). -/

/-- State of `SpatialIndex` (the derived type index is omitted; no claim
touches `query_by_type`). -/
structure SpatialIndex where
  next_id : ℕ := 0
  elements : List (ℕ × Elem) := []

namespace SpatialIndex

/-- `insert`: compute the bbox, store under a fresh id, return the id. -/
def insert (s : SpatialIndex) (element : Elem) : ℕ × SpatialIndex :=
  (s.next_id, ⟨s.next_id + 1, s.elements ++ [(s.next_id, element)]⟩)

/-- `insert_batch` (the returned id list is not used by the matcher). -/
def insert_batch (s : SpatialIndex) : List Elem → SpatialIndex
  | [] => s
  | e :: rest => ((s.insert e).2).insert_batch rest

/-- `query_nearby`: expand the element's bbox by `tolerance` and return the
stored pairs whose boxes intersect it. -/
def query_nearby (s : SpatialIndex) (element : Elem) (tolerance : ℝ) :
    List (ℕ × Elem) :=
  let expanded := expandBbox (getBbox element) tolerance
  s.elements.filter (fun ie => decide (boxIntersect expanded (getBbox ie.2)))

end SpatialIndex

/-! ## Element matcher
`matching/element_matcher.py`.  Element identity (`is`, `id()`) is the
element's index into its owning list, per the design notes of the spec. -/

/-- Stable insertion of `x` into an already sorted list: `x` goes in front
of the first entry with a key not smaller than its own. -/
def insertSorted {α : Type} (key : α → ℝ) (x : α) : List α → List α
  | [] => [x]
  | y :: ys => if key x ≤ key y then x :: y :: ys else y :: insertSorted key x ys

/-- Stable sort by a real-valued key; extensionally equal to Python's stable
`list.sort(key=...)`. -/
def sortOnKey {α : Type} (key : α → ℝ) : List α → List α
  | [] => []
  | x :: xs => insertSorted key x (sortOnKey key xs)

namespace ElementMatcher

/-- Dataclass `MatchResult`; the element references carry the identity
(index) together with the value. -/
structure MatchResult where
  element_a : ℕ × Elem
  element_b : ℕ × Elem
  similarity : ℝ
  match_type : String
  confidence : ℝ
  geometric_distance : ℝ
  feature_differences : List (String × ℝ)

/-- Dataclass `MatchingStatistics`. -/
structure MatchingStatistics where
  total_elements_a : ℕ
  total_elements_b : ℕ
  matched_pairs : ℕ
  unmatched_a : ℕ
  unmatched_b : ℕ
  exact_matches : ℕ
  similar_matches : ℕ
  partial_matches : ℕ
  average_similarity : ℝ
  processing_time : ℝ

/-- The matcher's `_get_element_center`. -/
def element_center : Elem → Point
  | .line l => ⟨(l.start.x + l.endp.x) / 2, (l.start.y + l.endp.y) / 2⟩
  | .circle c => c.center
  | .arc a => a.center
  | .text t => t.position

/-- `_calculate_position_similarity`. -/
def position_similarity (cfg : ToleranceConfig) (pos_a pos_b : Point) : ℝ :=
  max 0 (1 - pos_a.distance_to pos_b / cfg.position)

/-- `_calculate_length_similarity`. -/
def length_similarity (cfg : ToleranceConfig) (length_a length_b : ℝ) : ℝ :=
  if length_a = 0 ∧ length_b = 0 then 1
  else if max length_a length_b = 0 then 1
  else max 0 (1 - |length_a - length_b| / max length_a length_b / cfg.length_ratio)

/-- `_calculate_angle_similarity`. -/
def angle_similarity (cfg : ToleranceConfig) (angle_a angle_b : ℝ) : ℝ :=
  let angle_diff := |angle_a - angle_b|
  let angle_diff := min angle_diff (2 * Real.pi - angle_diff)
  max 0 (1 - angle_diff / cfg.angle)

/-- `_calculate_endpoint_similarity`. -/
def endpoint_similarity (cfg : ToleranceConfig) (line_a line_b : Line) : ℝ :=
  let sim1 := (position_similarity cfg line_a.start line_b.start +
      position_similarity cfg line_a.endp line_b.endp) / 2
  let sim2 := (position_similarity cfg line_a.start line_b.endp +
      position_similarity cfg line_a.endp line_b.start) / 2
  max sim1 sim2

/-- `_calculate_arc_angle_similarity` of the matcher (mean of the arc-length
similarity and the two raw angle similarities). -/
def arc_angle_similarity (cfg : ToleranceConfig) (arc_a arc_b : Arc) : ℝ :=
  (length_similarity cfg arc_a.arc_length arc_b.arc_length +
   angle_similarity cfg arc_a.start_angle arc_b.start_angle +
   angle_similarity cfg arc_a.end_angle arc_b.end_angle) / 3

/-- `_calculate_text_content_similarity` of the matcher: exact equality,
then stripped lower-cased equality, then Jaccard overlap of character
sets. -/
def text_content_similarity (content_a content_b : String) : ℝ :=
  if content_a = content_b then 1
  else if content_a = "" ∨ content_b = "" then 0
  else
    let ca := content_a.trim.toLower
    let cb := content_b.trim.toLower
    if ca = cb then 1
    else
      let set_a := ca.data.toFinset
      let set_b := cb.data.toFinset
      let inter := (set_a ∩ set_b).card
      let un := (set_a ∪ set_b).card
      if un = 0 then 0 else (inter : ℝ) / (un : ℝ)

/-- `_calculate_line_similarity`: the four sub-scores, each weighted 0.25. -/
def line_similarity (cfg : ToleranceConfig) (line_a line_b : Line) : ℝ :=
  position_similarity cfg (element_center (.line line_a))
      (element_center (.line line_b)) * 0.25 +
  length_similarity cfg line_a.length line_b.length * 0.25 +
  angle_similarity cfg line_a.angle line_b.angle * 0.25 +
  endpoint_similarity cfg line_a line_b * 0.25

/-- `_calculate_circle_similarity`. -/
def circle_similarity (cfg : ToleranceConfig) (circle_a circle_b : Circle) : ℝ :=
  position_similarity cfg circle_a.center circle_b.center * 0.5 +
  max 0 (1 - |circle_a.radius - circle_b.radius| / cfg.radius_tolerance) * 0.5

/-- `_calculate_arc_similarity`. -/
def arc_similarity (cfg : ToleranceConfig) (arc_a arc_b : Arc) : ℝ :=
  position_similarity cfg arc_a.center arc_b.center * 0.4 +
  max 0 (1 - |arc_a.radius - arc_b.radius| / cfg.radius_tolerance) * 0.3 +
  arc_angle_similarity cfg arc_a arc_b * 0.3

/-- `_calculate_text_similarity` (height tolerance is 20 percent of the
first text's height). -/
def text_similarity (cfg : ToleranceConfig) (text_a text_b : Text) : ℝ :=
  position_similarity cfg text_a.position text_b.position * 0.3 +
  text_content_similarity text_a.content text_b.content * 0.5 +
  max 0 (1 - |text_a.height - text_b.height| / (text_a.height * 0.2)) * 0.2

/-- `_calculate_similarity`: zero across types, else per-type dispatch. -/
def calc_similarity (cfg : ToleranceConfig) : Elem → Elem → ℝ
  | .line a, .line b => line_similarity cfg a b
  | .circle a, .circle b => circle_similarity cfg a b
  | .arc a, .arc b => arc_similarity cfg a b
  | .text a, .text b => text_similarity cfg a b
  | _, _ => 0

/-- `_calculate_element_complexity` (the matcher's copy). -/
def element_complexity : Elem → ℝ
  | .line _ => 1.0
  | .circle _ => 1.2
  | .arc _ => 1.5
  | .text t => 1.3 + (t.content.length : ℝ) * 0.01

/-- `_determine_match_type`. -/
def determine_match_type (cfg : ToleranceConfig) (similarity : ℝ) : String :=
  if 0.95 ≤ similarity then "exact"
  else if 0.8 ≤ similarity then "similar"
  else if cfg.similarity_threshold ≤ similarity then "partial"
  else "no_match"

/-- `_calculate_confidence` of the matcher. -/
def match_confidence (element_a : Elem) (similarity : ℝ) : ℝ :=
  min 1 (similarity * (1 + element_complexity element_a * 0.1))

/-- `_calculate_geometric_distance`. -/
def geometric_distance (element_a element_b : Elem) : ℝ :=
  (element_center element_a).distance_to (element_center element_b)

/-- `_calculate_feature_differences`. -/
def feature_differences (element_a element_b : Elem) : List (String × ℝ) :=
  ("position", (element_center element_a).distance_to (element_center element_b)) ::
  (match element_a, element_b with
    | .line a, .line b =>
      [("length", |a.length - b.length|), ("angle", |a.angle - b.angle|)]
    | .circle a, .circle b => [("radius", |a.radius - b.radius|)]
    | .arc a, .arc b =>
      [("radius", |a.radius - b.radius|), ("arc_length", |a.arc_length - b.arc_length|)]
    | .text a, .text b =>
      [("height", |a.height - b.height|),
       ("content_length", |(a.content.length : ℝ) - (b.content.length : ℝ)|)]
    | _, _ => [])

/-- `_get_candidates`: spatial query over the index of `B` (ids are the
positions in `B`), filtered to the same runtime type and to ids that are not
yet consumed (the source recovers the index from the object by identity),
then truncated to the closest `max_candidates_per_element` using a stable
distance sort. -/
def get_candidates (cfg : ToleranceConfig) (element_a : Elem) (B : List Elem)
    (matched_b_ids : Finset ℕ) : List (ℕ × Elem) :=
  let bIndex := (SpatialIndex.insert_batch {} B)
  let nearby := bIndex.query_nearby element_a cfg.max_search_radius
  let type_filtered := nearby.filter
    (fun je => decide (sameType je.2 element_a) && decide (je.1 ∉ matched_b_ids))
  if cfg.max_candidates_per_element < type_filtered.length then
    (sortOnKey
      (fun je => (element_center je.2).distance_to (element_center element_a))
      type_filtered).take cfg.max_candidates_per_element
  else type_filtered

/-- The loop body of `_find_best_match`: skip consumed candidates, commit on
a strict improvement that also clears the threshold. -/
def fbmStep (cfg : ToleranceConfig) (aIdx : ℕ) (element_a : Elem)
    (matched_b_ids : Finset ℕ) (acc : Option MatchResult × ℝ) (je : ℕ × Elem) :
    Option MatchResult × ℝ :=
  if je.1 ∈ matched_b_ids then acc
  else
    let similarity := calc_similarity cfg element_a je.2
    if acc.2 < similarity ∧ cfg.similarity_threshold ≤ similarity then
      (some ⟨(aIdx, element_a), je, similarity,
        determine_match_type cfg similarity,
        match_confidence element_a similarity,
        geometric_distance element_a je.2,
        feature_differences element_a je.2⟩, similarity)
    else acc

/-- `_find_best_match`: track the candidate of maximal similarity, updating
only on a strict improvement that also clears the threshold. -/
def find_best_match (cfg : ToleranceConfig) (aIdx : ℕ) (element_a : Elem)
    (B : List Elem) (matched_b_ids : Finset ℕ) : Option MatchResult :=
  let candidates := get_candidates cfg element_a B matched_b_ids
  (candidates.foldl (fbmStep cfg aIdx element_a matched_b_ids) (none, 0.0)).1

/-- The greedy loop of `match_elements` over the enumerated elements of `A`:
a committed match consumes its B-index. -/
def matchFold (cfg : ToleranceConfig) (B : List Elem) :
    List (ℕ × Elem) → List MatchResult → Finset ℕ → List MatchResult
  | [], mlist, _ => mlist
  | ia :: rest, mlist, matched_b_ids =>
    match find_best_match cfg ia.1 ia.2 B matched_b_ids with
    | some best =>
      if cfg.similarity_threshold ≤ best.similarity then
        matchFold cfg B rest (mlist ++ [best]) (insert best.element_b.1 matched_b_ids)
      else matchFold cfg B rest mlist matched_b_ids
    | none => matchFold cfg B rest mlist matched_b_ids

/-- The pure part of `match_elements` (everything except the timing). -/
def match_elements_core (cfg : ToleranceConfig) (A B : List Elem) :
    List MatchResult :=
  matchFold cfg B A.enum [] ∅

/-- `_calculate_statistics` of the matcher; `processing_time` is the
wall-clock measurement passed in by the caller. -/
def match_statistics (A B : List Elem) (mlist : List MatchResult)
    (processing_time : ℝ) : MatchingStatistics :=
  let matched_a_count := mlist.length
  let matched_b_count := (mlist.map (fun m => m.element_b.1)).toFinset.card
  let exact_matches := mlist.countP (fun m => m.match_type == "exact")
  let similar_matches := mlist.countP (fun m => m.match_type == "similar")
  let partial_matches := mlist.countP (fun m => m.match_type == "partial")
  let avg_similarity := if mlist.length ≠ 0 then
      (mlist.map (fun m => m.similarity)).sum / (mlist.length : ℝ)
    else 0.0
  ⟨A.length, B.length, mlist.length, A.length - matched_a_count,
    B.length - matched_b_count, exact_matches, similar_matches, partial_matches,
    avg_similarity, processing_time⟩

/-- `match_elements`: the matches plus the statistics; the wall-clock
duration of the call is an explicit parameter. -/
def match_elements (cfg : ToleranceConfig) (A B : List Elem)
    (processing_time : ℝ) : List MatchResult × MatchingStatistics :=
  let mlist := match_elements_core cfg A B
  (mlist, match_statistics A B mlist processing_time)

end ElementMatcher

/-! ## Diff detector
`matching/diff_detector.py`. -/

/-- Enumeration `DifferenceType`. -/
inductive DifferenceType where
  | added
  | deleted
  | modified
  | unchanged
deriving DecidableEq

/-- Enumeration `ModificationType`. -/
inductive ModificationType where
  | position
  | size
  | shape
  | attribute
  | orientation
deriving DecidableEq

/-- The `.value` string of a `ModificationType`. -/
def ModificationType.value : ModificationType → String
  | .position => "position"
  | .size => "size"
  | .shape => "shape"
  | .attribute => "attribute"
  | .orientation => "orientation"

/-- Dataclass `DifferenceDetail`.  Element references carry the identity
(index into the owning input list) together with the value; `attribute_changes`
entries are `(key, from, to)`. -/
structure DifferenceDetail where
  element_a : Option (ℕ × Elem)
  element_b : Option (ℕ × Elem)
  diff_type : DifferenceType
  modification_types : List ModificationType
  similarity : ℝ
  confidence : ℝ
  geometric_changes : List (String × ℝ)
  attribute_changes : List (String × String × String)
  description : String

/-- Dataclass `DifferenceStatistics`; `type_statistics` maps a type name to
its `(added, deleted, modified, unchanged)` counts in insertion order. -/
structure DifferenceStatistics where
  total_elements_a : ℕ
  total_elements_b : ℕ
  added_count : ℕ
  deleted_count : ℕ
  modified_count : ℕ
  unchanged_count : ℕ
  position_changes : ℕ
  size_changes : ℕ
  shape_changes : ℕ
  attribute_changes : ℕ
  orientation_changes : ℕ
  total_differences : ℕ
  change_rate : ℝ
  processing_time : ℝ
  type_statistics : List (String × ℕ × ℕ × ℕ × ℕ)

namespace DiffDetector

/-- `_get_element_center` (the detector's copy). -/
def element_center : Elem → Point
  | .line l => ⟨(l.start.x + l.endp.x) / 2, (l.start.y + l.endp.y) / 2⟩
  | .circle c => c.center
  | .arc a => a.center
  | .text t => t.position

/-- `_has_position_change`: center distance strictly above the position
threshold. -/
def has_position_change (cfg : ToleranceConfig) (element_a element_b : Elem) : Prop :=
  cfg.position < (element_center element_a).distance_to (element_center element_b)

/-- `_has_size_change`.  The circle/arc branch accepts any mix of circles
and arcs and compares radii absolutely (`radius` threshold); lines and texts
compare relative to the first element (`size` threshold =
`length_ratio`). -/
def has_size_change (cfg : ToleranceConfig) : Elem → Elem → Prop
  | .line a, .line b =>
    0 < a.length ∧ cfg.length_ratio < |a.length - b.length| / a.length
  | .circle a, .circle b => cfg.radius_tolerance < |a.radius - b.radius|
  | .circle a, .arc b => cfg.radius_tolerance < |a.radius - b.radius|
  | .arc a, .circle b => cfg.radius_tolerance < |a.radius - b.radius|
  | .arc a, .arc b => cfg.radius_tolerance < |a.radius - b.radius|
  | .text a, .text b =>
    0 < a.height ∧ cfg.length_ratio < |a.height - b.height| / a.height
  | _, _ => False

/-- `_has_shape_change`: raw (non-circular) arc angle deltas against the
`angle` threshold, or exact text content inequality. -/
def has_shape_change (cfg : ToleranceConfig) : Elem → Elem → Prop
  | .arc a, .arc b =>
    cfg.angle < |a.start_angle - b.start_angle| ∨
    cfg.angle < |a.end_angle - b.end_angle|
  | .text a, .text b => a.content ≠ b.content
  | _, _ => False

/-- `_has_attribute_change`: layer, color, line type or font differ. -/
def has_attribute_change (element_a element_b : Elem) : Prop :=
  element_a.layerAttr ≠ element_b.layerAttr ∨
  element_a.colorAttr ≠ element_b.colorAttr ∨
  (match element_a.lineTypeAttr, element_b.lineTypeAttr with
    | some x, some y => x ≠ y
    | _, _ => False) ∨
  (match element_a.fontAttr, element_b.fontAttr with
    | some x, some y => x ≠ y
    | _, _ => False)

/-- `_has_orientation_change`: circular line-angle delta (using the literal
`2 * 3.14159` of the source, not `2π`) or raw text-rotation delta against
the `angle` threshold. -/
def has_orientation_change (cfg : ToleranceConfig) : Elem → Elem → Prop
  | .line a, .line b =>
    cfg.angle < min |a.angle - b.angle| (2 * 3.14159 - |a.angle - b.angle|)
  | .text a, .text b => cfg.angle < |a.rotation - b.rotation|
  | _, _ => False

/-- `_identify_modification_types`: the independent checks, in source
order. -/
def identify_modification_types (cfg : ToleranceConfig) (element_a element_b : Elem) :
    List ModificationType :=
  (if has_position_change cfg element_a element_b then [ModificationType.position] else []) ++
  (if has_size_change cfg element_a element_b then [ModificationType.size] else []) ++
  (if has_shape_change cfg element_a element_b then [ModificationType.shape] else []) ++
  (if has_attribute_change element_a element_b then [ModificationType.attribute] else []) ++
  (if has_orientation_change cfg element_a element_b then [ModificationType.orientation] else [])

/-- `_calculate_geometric_changes`.  Only `Text` has a `position` attribute,
so the `x`/`y` change entries fall back to centers for the other variants.
The arc-only extras are emitted when the first element is an arc; the source
would crash on a mixed arc/circle pair (unreachable through the matcher,
which pairs equal types only). -/
def geometric_changes (element_a element_b : Elem) : List (String × ℝ) :=
  let center_a := element_center element_a
  let center_b := element_center element_b
  [("position_distance", center_a.distance_to center_b),
   ("position_x_change",
     match element_a, element_b with
     | .text a, .text b => b.position.x - a.position.x
     | _, _ => center_b.x - center_a.x),
   ("position_y_change",
     match element_a, element_b with
     | .text a, .text b => b.position.y - a.position.y
     | _, _ => center_b.y - center_a.y)] ++
  (match element_a, element_b with
    | .line a, .line b =>
      [("length_change", b.length - a.length), ("angle_change", b.angle - a.angle)]
    | .circle a, .circle b => [("radius_change", b.radius - a.radius)]
    | .circle a, .arc b => [("radius_change", b.radius - a.radius)]
    | .arc a, .circle b => [("radius_change", b.radius - a.radius)]
    | .arc a, .arc b =>
      [("radius_change", b.radius - a.radius),
       ("arc_length_change", b.arc_length - a.arc_length),
       ("start_angle_change", b.start_angle - a.start_angle),
       ("end_angle_change", b.end_angle - a.end_angle)]
    | .text a, .text b =>
      [("height_change", b.height - a.height),
       ("rotation_change", b.rotation - a.rotation),
       ("content_length_change", (b.content.length : ℝ) - (a.content.length : ℝ))]
    | _, _ => [])

/-- `_calculate_attribute_changes`: the changed attributes with their old
and new values, in source order. -/
def attribute_changes (element_a element_b : Elem) : List (String × String × String) :=
  (if element_a.layerAttr ≠ element_b.layerAttr then
    [("layer", element_a.layerAttr, element_b.layerAttr)] else []) ++
  (if element_a.colorAttr ≠ element_b.colorAttr then
    [("color", element_a.colorAttr, element_b.colorAttr)] else []) ++
  (match element_a.lineTypeAttr, element_b.lineTypeAttr with
    | some x, some y => if x ≠ y then [("line_type", x, y)] else []
    | _, _ => []) ++
  (match element_a.fontAttr, element_b.fontAttr with
    | some x, some y => if x ≠ y then [("font", x, y)] else []
    | _, _ => []) ++
  (match element_a, element_b with
    | .text a, .text b =>
      if a.content ≠ b.content then [("content", a.content, b.content)] else []
    | _, _ => [])

/-- `_analyze_modification`: similarity at least `0.999` means unchanged,
anything else is modified with its identified modification types. -/
def analyze_modification (cfg : ToleranceConfig) (m : ElementMatcher.MatchResult) :
    DifferenceDetail :=
  let element_a := m.element_a
  let element_b := m.element_b
  if 0.999 ≤ m.similarity then
    ⟨some element_a, some element_b, .unchanged, [], m.similarity, m.confidence,
      geometric_changes element_a.2 element_b.2,
      attribute_changes element_a.2 element_b.2,
      "未变化的" ++ element_a.2.typeName⟩
  else
    let mods := identify_modification_types cfg element_a.2 element_b.2
    ⟨some element_a, some element_b, .modified, mods, m.similarity, m.confidence,
      geometric_changes element_a.2 element_b.2,
      attribute_changes element_a.2 element_b.2,
      "修改的" ++ element_a.2.typeName ++ ": " ++
        String.intercalate ", " (mods.map ModificationType.value)⟩

/-- The `DifferenceDetail` for an unmatched element of `A`. -/
def deletedDetail (ia : ℕ × Elem) : DifferenceDetail :=
  ⟨some ia, none, .deleted, [], 0.0, 1.0, [], [], "删除的" ++ ia.2.typeName⟩

/-- The `DifferenceDetail` for an unmatched element of `B`. -/
def addedDetail (ib : ℕ × Elem) : DifferenceDetail :=
  ⟨none, some ib, .added, [], 0.0, 1.0, [], [], "新增的" ++ ib.2.typeName⟩

/-- Update one type's `(added, deleted, modified, unchanged)` counters. -/
def bumpCounts (dt : DifferenceType) (c : ℕ × ℕ × ℕ × ℕ) : ℕ × ℕ × ℕ × ℕ :=
  match dt with
  | .added => (c.1 + 1, c.2.1, c.2.2.1, c.2.2.2)
  | .deleted => (c.1, c.2.1 + 1, c.2.2.1, c.2.2.2)
  | .modified => (c.1, c.2.1, c.2.2.1 + 1, c.2.2.2)
  | .unchanged => (c.1, c.2.1, c.2.2.1, c.2.2.2 + 1)

/-- Insertion-ordered dictionary update for the per-type statistics. -/
def upsertTypeStat : List (String × ℕ × ℕ × ℕ × ℕ) → String → DifferenceType →
    List (String × ℕ × ℕ × ℕ × ℕ)
  | [], name, dt => [(name, bumpCounts dt (0, 0, 0, 0))]
  | (k, c) :: rest, name, dt =>
    if k = name then (k, bumpCounts dt c) :: rest
    else (k, c) :: upsertTypeStat rest name dt

/-- `_calculate_type_statistics`: per-type difference counters, keyed by the
type of `element_a or element_b`. -/
def type_statistics_of (differences : List DifferenceDetail) :
    List (String × ℕ × ℕ × ℕ × ℕ) :=
  differences.foldl
    (fun st d =>
      match d.element_a with
      | some ia => upsertTypeStat st ia.2.typeName d.diff_type
      | none =>
        match d.element_b with
        | some ib => upsertTypeStat st ib.2.typeName d.diff_type
        | none => st)
    []

/-- `_calculate_statistics` of the diff detector. -/
def calc_statistics (A B : List Elem) (differences : List DifferenceDetail)
    (processing_time : ℝ) : DifferenceStatistics :=
  let added_count := differences.countP (fun d => decide (d.diff_type = .added))
  let deleted_count := differences.countP (fun d => decide (d.diff_type = .deleted))
  let modified_count := differences.countP (fun d => decide (d.diff_type = .modified))
  let unchanged_count := differences.countP (fun d => decide (d.diff_type = .unchanged))
  let position_changes := differences.countP
    (fun d => decide (ModificationType.position ∈ d.modification_types))
  let size_changes := differences.countP
    (fun d => decide (ModificationType.size ∈ d.modification_types))
  let shape_changes := differences.countP
    (fun d => decide (ModificationType.shape ∈ d.modification_types))
  let attr_changes := differences.countP
    (fun d => decide (ModificationType.attribute ∈ d.modification_types))
  let orientation_changes := differences.countP
    (fun d => decide (ModificationType.orientation ∈ d.modification_types))
  let total_differences := added_count + deleted_count + modified_count
  let total_elements := max A.length B.length
  let change_rate := if 0 < total_elements then
      (total_differences : ℝ) / (total_elements : ℝ)
    else 0.0
  ⟨A.length, B.length, added_count, deleted_count, modified_count, unchanged_count,
    position_changes, size_changes, shape_changes, attr_changes, orientation_changes,
    total_differences, change_rate, processing_time, type_statistics_of differences⟩

/-- `detect_differences`: run the matcher, classify the matched pairs, then
emit deletions for the unmatched indices of `A` and additions for the
unmatched indices of `B` (the source recovers indices from the matched
objects by identity).  `t0` and `t1` are the two wall-clock readings. -/
def detect_differences (cfg : ToleranceConfig) (A B : List Elem) (t0 t1 : ℝ) :
    List DifferenceDetail × DifferenceStatistics :=
  let mlist := ElementMatcher.match_elements_core cfg A B
  let matched_a_ids : Finset ℕ := (mlist.map (fun m => m.element_a.1)).toFinset
  let matched_b_ids : Finset ℕ := (mlist.map (fun m => m.element_b.1)).toFinset
  let differences := mlist.map (analyze_modification cfg) ++
    (A.enum.filter (fun ia => decide (ia.1 ∉ matched_a_ids))).map deletedDetail ++
    (B.enum.filter (fun ib => decide (ib.1 ∉ matched_b_ids))).map addedDetail
  (differences, calc_statistics A B differences (t1 - t0))

end DiffDetector

/-! ## Concrete fixtures used by counterexamples and witnesses -/

/-- A valid configuration with unit tolerances (validated by
`ToleranceConfig.validate`: all checks pass). -/
def cfgUnit : ToleranceConfig := { position := 1, length_ratio := 1, angle := 1 }

/-- The segment from the origin to `(2, 0)`. -/
def lineA2 : Line := { start := ⟨0, 0⟩, endp := ⟨2, 0⟩ }

/-- The segment from the origin to `(1, 0)`. -/
def lineB1 : Line := { start := ⟨0, 0⟩, endp := ⟨1, 0⟩ }

/-- The degenerate segment at the origin (zero feature vector). -/
def lineZero : Line := { start := ⟨0, 0⟩, endp := ⟨0, 0⟩ }

/-- The degenerate segment at `(1, 0)`. -/
def lineOnePt : Line := { start := ⟨1, 0⟩, endp := ⟨1, 0⟩ }

/-- The degenerate segment at `(-1, 0)`: its feature vector is the negation
of that of `lineOnePt`. -/
def lineNegPt : Line := { start := ⟨-1, 0⟩, endp := ⟨-1, 0⟩ }

/-- A one-character text at the origin. -/
def textA : Text := { position := ⟨0, 0⟩, content := "A", height := 1 }

/-- A two-character text at the origin with the same height. -/
def textBC : Text := { position := ⟨0, 0⟩, content := "BC", height := 1 }

/-- A unit circle at the origin. -/
def circleO : Circle := { center := ⟨0, 0⟩, radius := 1 }

/-! # Theorems

General facts about the embedded primitives, followed by one theorem per
claim (with its witness or counterexample where required). -/

/-! ## Geometry basics -/

theorem distance_self (p : Point) : p.distance_to p = 0 := by
  simp [Point.distance_to]

theorem distance_nonneg (p q : Point) : 0 ≤ p.distance_to q :=
  Real.sqrt_nonneg _

theorem distance_comm (p q : Point) : p.distance_to q = q.distance_to p := by
  unfold Point.distance_to
  congr 1
  ring

theorem atan2_le_pi (y x : ℝ) : atan2 y x ≤ Real.pi := by
  unfold atan2
  have hpi := Real.pi_pos
  split_ifs with h1 h2 h3 h4 h5
  · have := Real.arctan_lt_pi_div_two (y / x)
    linarith
  · have h0 : y / x ≤ 0 := div_nonpos_iff.2 (Or.inl ⟨h3, le_of_lt h2⟩)
    have := Real.arctan_strictMono.monotone h0
    rw [Real.arctan_zero] at this
    linarith
  · have := Real.arctan_lt_pi_div_two (y / x)
    linarith
  · linarith
  · linarith
  · linarith

theorem neg_pi_lt_atan2 (y x : ℝ) : -Real.pi < atan2 y x := by
  unfold atan2
  have hpi := Real.pi_pos
  split_ifs with h1 h2 h3 h4 h5
  · have := Real.neg_pi_div_two_lt_arctan (y / x)
    linarith
  · have := Real.neg_pi_div_two_lt_arctan (y / x)
    linarith
  · have h0 : 0 < y / x := div_pos_of_neg_of_neg (lt_of_not_le fun h => h3 h) h2
    have := Real.arctan_strictMono h0
    rw [Real.arctan_zero] at this
    linarith
  · linarith
  · linarith
  · linarith

/-- Any two `atan2` values differ by less than one full turn. -/
theorem abs_atan2_sub_le (y1 x1 y2 x2 : ℝ) :
    |atan2 y1 x1 - atan2 y2 x2| ≤ 2 * Real.pi := by
  have h1 := atan2_le_pi y1 x1
  have h2 := atan2_le_pi y2 x2
  have h3 := neg_pi_lt_atan2 y1 x1
  have h4 := neg_pi_lt_atan2 y2 x2
  rw [abs_le]
  constructor <;> linarith

/-! ## Clamped linear falloff -/

theorem falloff_nonneg (d t : ℝ) : 0 ≤ max 0 (1 - d / t) := le_max_left _ _

theorem falloff_le_one (d t : ℝ) (hd : 0 ≤ d) (ht : 0 < t) :
    max 0 (1 - d / t) ≤ 1 := by
  have : 0 ≤ d / t := div_nonneg hd ht.le
  have h1 : (1 : ℝ) - d / t ≤ 1 := by linarith
  exact max_le (by norm_num) h1

theorem calcWeights_eq : calcWeights = ⟨0.3, 0.4, 0.2, 0.1⟩ := by
  unfold calcWeights SimilarityWeights.normalize
  norm_num

theorem calcWeights_position : calcWeights.position = 0.3 := by rw [calcWeights_eq]

theorem calcWeights_shape : calcWeights.shape = 0.4 := by rw [calcWeights_eq]

theorem calcWeights_size : calcWeights.size = 0.2 := by rw [calcWeights_eq]

theorem calcWeights_orientation : calcWeights.orientation = 0.1 := by
  rw [calcWeights_eq]

/-- Distance between two points on a common horizontal line. -/
theorem distance_horizontal (x1 x2 y : ℝ) :
    (Point.mk x1 y).distance_to ⟨x2, y⟩ = |x1 - x2| := by
  simp [Point.distance_to, Real.sqrt_sq_eq_abs]

/-- `atan2` of a vector pointing along the positive x-axis. -/
theorem atan2_zero_pos (x : ℝ) (hx : 0 < x) : atan2 0 x = 0 := by
  simp [atan2, hx]

/-- `math.atan2(0, 0) = 0`. -/
theorem atan2_zero_zero : atan2 0 0 = 0 := by
  simp [atan2]

/-! ## Tolerance configuration: helper characterization -/

/-- What `_validate_parameters` accepts, as a single proposition. -/
theorem ToleranceConfig.validate_ok_iff (c : ToleranceConfig) :
    ToleranceConfig.validate c = .ok () ↔
      0 ≤ c.position ∧ (0 ≤ c.length_ratio ∧ c.length_ratio ≤ 1) ∧ 0 ≤ c.angle ∧
        (0 ≤ c.similarity_threshold ∧ c.similarity_threshold ≤ 1) ∧
        c.position ≤ c.max_search_radius := by
  unfold ToleranceConfig.validate
  split_ifs with h1 h2 h3 h4 h5 <;>
    simp_all <;> push_neg at * <;> first | linarith | tauto

/-- C7 (amended): construction checks exactly five conditions — `position ≥ 0`,
`length_ratio ∈ [0,1]`, `angle ≥ 0`, `similarity_threshold ∈ [0,1]`,
`max_search_radius ≥ position` — and an accepted configuration is returned
unchanged (never clamped).  Negative `radius_tolerance` or `text_position`
(and out-of-range `text_content_similarity`/`arc_angle_tolerance`) are not
rejected. -/
theorem C7_construction_validates (c : ToleranceConfig) :
    (ToleranceConfig.make c = .ok c ↔
      0 ≤ c.position ∧ (0 ≤ c.length_ratio ∧ c.length_ratio ≤ 1) ∧ 0 ≤ c.angle ∧
        (0 ≤ c.similarity_threshold ∧ c.similarity_threshold ≤ 1) ∧
        c.position ≤ c.max_search_radius) ∧
    (∀ c', ToleranceConfig.make c = .ok c' → c' = c) := by
  have h := ToleranceConfig.validate_ok_iff c
  constructor
  · rw [← h]
    unfold ToleranceConfig.make
    cases hv : ToleranceConfig.validate c with
    | ok u => cases u; simp
    | error e => simp [hv]
  · intro c'
    unfold ToleranceConfig.make
    cases hv : ToleranceConfig.validate c with
    | ok u =>
      simp only [Except.ok.injEq]
      intro h
      exact h.symm
    | error e => simp

/-- C7 (counterexample): a configuration whose `radius_tolerance` is the
invalid value `-1` is accepted by construction and kept as is, refuting the
claim that any negative tolerance field fails at construction time. -/
theorem C7_counterexample :
    ToleranceConfig.make { ToleranceConfig.standard with radius_tolerance := -1 } =
      .ok { ToleranceConfig.standard with radius_tolerance := -1 } ∧
    ({ ToleranceConfig.standard with radius_tolerance := -1 } :
      ToleranceConfig).radius_tolerance < 0 := by
  constructor
  · unfold ToleranceConfig.make ToleranceConfig.validate ToleranceConfig.standard
    norm_num
  · norm_num [ToleranceConfig.standard]

/-- C9 (amended): for a validated configuration and a positive factor,
`scale` multiplies `position`, `text_position`, `radius_tolerance` and
`max_search_radius` by the factor and keeps every other field unchanged,
except that `similarity_threshold` is replaced by
`max 0.1 similarity_threshold` (the source clamps it into `[0.1, 1]`). -/
theorem C9_scale_frame (c : ToleranceConfig) (factor : ℝ)
    (hv : ToleranceConfig.validate c = .ok ()) (hf : 0 < factor) :
    ToleranceConfig.scale c factor = .ok
      { position := c.position * factor
        length_ratio := c.length_ratio
        angle := c.angle
        similarity_threshold := max 0.1 c.similarity_threshold
        text_position := c.text_position * factor
        text_content_similarity := c.text_content_similarity
        radius_tolerance := c.radius_tolerance * factor
        arc_angle_tolerance := c.arc_angle_tolerance
        enable_fuzzy_matching := c.enable_fuzzy_matching
        max_search_radius := c.max_search_radius * factor
        max_candidates_per_element := c.max_candidates_per_element
        enable_early_termination := c.enable_early_termination } := by
  rw [ToleranceConfig.validate_ok_iff] at hv
  obtain ⟨hpos, ⟨hl0, hl1⟩, hang, ⟨ht0, ht1⟩, hms⟩ := hv
  have hmin : min 1.0 c.similarity_threshold = c.similarity_threshold :=
    min_eq_right (by linarith)
  unfold ToleranceConfig.scale
  rw [if_neg (by linarith)]
  unfold ToleranceConfig.make
  have hok : ToleranceConfig.validate
      { position := c.position * factor
        length_ratio := c.length_ratio
        angle := c.angle
        similarity_threshold := max 0.1 (min 1.0 c.similarity_threshold)
        text_position := c.text_position * factor
        text_content_similarity := c.text_content_similarity
        radius_tolerance := c.radius_tolerance * factor
        arc_angle_tolerance := c.arc_angle_tolerance
        enable_fuzzy_matching := c.enable_fuzzy_matching
        max_search_radius := c.max_search_radius * factor
        max_candidates_per_element := c.max_candidates_per_element
        enable_early_termination := c.enable_early_termination } = .ok () := by
    rw [ToleranceConfig.validate_ok_iff]
    refine ⟨by positivity, ⟨hl0, hl1⟩, hang, ⟨?_, ?_⟩, ?_⟩
    · have : (0.1 : ℝ) ≤ max 0.1 (min 1.0 c.similarity_threshold) := le_max_left _ _
      linarith
    · exact max_le (by norm_num) (by rw [hmin]; exact ht1)
    · exact mul_le_mul_of_nonneg_right hms hf.le
  rw [hok, hmin]

/-- C9 (counterexample): for the valid configuration that is `standard()`
with `similarity_threshold = 0.05`, `scale(2)` changes the threshold to
`0.1`, refuting the claim that every non-distance field is unchanged. -/
theorem C9_counterexample :
    ToleranceConfig.validate
      { ToleranceConfig.standard with similarity_threshold := 0.05 } = .ok () ∧
    ToleranceConfig.scale
      { ToleranceConfig.standard with similarity_threshold := 0.05 } 2 = .ok
      { ToleranceConfig.standard with
          position := 0.2, similarity_threshold := 0.1, text_position := 2.0,
          radius_tolerance := 0.2, max_search_radius := 10.0 } ∧
    ({ ToleranceConfig.standard with similarity_threshold := 0.05 } :
      ToleranceConfig).similarity_threshold ≠ (0.1 : ℝ) := by
  refine ⟨?_, ?_, by norm_num [ToleranceConfig.standard]⟩
  · unfold ToleranceConfig.validate ToleranceConfig.standard
    norm_num
  · unfold ToleranceConfig.scale ToleranceConfig.make ToleranceConfig.validate
      ToleranceConfig.standard
    norm_num

/-- C9 (witness): the amended scale theorem applied to the `standard` preset
with factor 2. -/
theorem C9_witness :
    ToleranceConfig.validate ToleranceConfig.standard = .ok () ∧ (0 : ℝ) < 2 ∧
    ToleranceConfig.scale ToleranceConfig.standard 2 = .ok
      { position := ToleranceConfig.standard.position * 2
        length_ratio := ToleranceConfig.standard.length_ratio
        angle := ToleranceConfig.standard.angle
        similarity_threshold := max 0.1 ToleranceConfig.standard.similarity_threshold
        text_position := ToleranceConfig.standard.text_position * 2
        text_content_similarity := ToleranceConfig.standard.text_content_similarity
        radius_tolerance := ToleranceConfig.standard.radius_tolerance * 2
        arc_angle_tolerance := ToleranceConfig.standard.arc_angle_tolerance
        enable_fuzzy_matching := ToleranceConfig.standard.enable_fuzzy_matching
        max_search_radius := ToleranceConfig.standard.max_search_radius * 2
        max_candidates_per_element :=
          ToleranceConfig.standard.max_candidates_per_element
        enable_early_termination :=
          ToleranceConfig.standard.enable_early_termination } := by
  have hv : ToleranceConfig.validate ToleranceConfig.standard = .ok () := by
    unfold ToleranceConfig.validate ToleranceConfig.standard
    norm_num
  exact ⟨hv, by norm_num, C9_scale_frame ToleranceConfig.standard 2 hv (by norm_num)⟩

/-! ## Levenshtein distance: the dynamic program computes edit distance -/

theorem levRec_nil_right (s : List Char) : levRec s [] = s.length := by
  cases s <;> simp [levRec]

theorem levRec_symm (s t : List Char) : levRec s t = levRec t s := by
  induction s generalizing t with
  | nil => simp [levRec, levRec_nil_right]
  | cons a s ih =>
    induction t with
    | nil => simp [levRec, levRec_nil_right]
    | cons b t iht =>
      simp only [levRec]
      rw [ih (b :: t), iht, ih t]
      have hc : (if a = b then (0 : ℕ) else 1) = (if b = a then 0 else 1) := by
        simp [eq_comm]
      rw [hc]
      generalize (if b = a then (0 : ℕ) else 1) = c
      rw [← min_assoc, min_comm (levRec (b :: t) s + 1) (levRec t (a :: s) + 1),
        min_assoc]

theorem levRec_le_max (s t : List Char) : levRec s t ≤ max s.length t.length := by
  induction s generalizing t with
  | nil => simp [levRec]
  | cons a s ih =>
    induction t with
    | nil => simp [levRec_nil_right]
    | cons b t iht =>
      have h1 : levRec (a :: s) (b :: t) ≤
          levRec s t + (if a = b then 0 else 1) := by
        simp only [levRec]
        exact le_trans (min_le_right _ _) (min_le_right _ _)
      have h2 := ih t
      have h3 : (if a = b then (0 : ℕ) else 1) ≤ 1 := by split <;> omega
      simp only [List.length_cons]
      omega

theorem levRows_headD (X Y : List Char) (t : List Char) :
    (levRows X Y t).headD 0 = levRec X Y := by
  cases t <;> rfl

theorem levRows_cons_eq (X Y : List Char) (t : List Char) :
    levRows X Y t = levRec X Y :: (levRows X Y t).tail := by
  cases t <;> rfl

theorem levCells_rows (c1 : Char) (X : List Char) :
    ∀ (t Y : List Char),
      levCells c1 t (levRows X Y t) (levRec (c1 :: X) Y) =
        (levRows (c1 :: X) Y t).tail := by
  intro t
  induction t with
  | nil => intro Y; rfl
  | cons c2 t ih =>
    intro Y
    show levCells c1 (c2 :: t) (levRec X Y :: levRows X (c2 :: Y) t)
        (levRec (c1 :: X) Y) = (levRows (c1 :: X) Y (c2 :: t)).tail
    simp only [levCells, levRows_headD]
    have hcell : min (levRec X (c2 :: Y) + 1) (min (levRec (c1 :: X) Y + 1)
        (levRec X Y + (if c1 = c2 then 0 else 1))) = levRec (c1 :: X) (c2 :: Y) := by
      simp only [levRec]
    rw [hcell, ih (c2 :: Y)]
    exact (levRows_cons_eq _ _ _).symm

theorem levRowStep_rows (s2 X : List Char) (c1 : Char) :
    levRowStep s2 (levRows X [] s2) X.length c1 = levRows (c1 :: X) [] s2 := by
  unfold levRowStep
  have h0 : X.length + 1 = levRec (c1 :: X) [] := by
    rw [levRec_nil_right]
    simp
  rw [h0, levCells_rows]
  exact (levRows_cons_eq _ _ _).symm

theorem levDP_loop (s2 : List Char) :
    ∀ (rest X : List Char),
      (List.enumFrom X.length rest).foldl
        (fun prev ic => levRowStep s2 prev ic.1 ic.2) (levRows X [] s2) =
      levRows (rest.reverse ++ X) [] s2 := by
  intro rest
  induction rest with
  | nil => intro X; simp
  | cons c rest ih =>
    intro X
    simp only [List.enumFrom, List.foldl]
    rw [levRowStep_rows]
    have h := ih (c :: X)
    simp only [List.length_cons] at h
    rw [h]
    simp

theorem levRows_getLastD (X : List Char) :
    ∀ (t Y : List Char) (d : ℕ),
      (levRows X Y t).getLastD d = levRec X (t.reverse ++ Y) := by
  intro t
  induction t with
  | nil => intro Y d; rfl
  | cons c t ih =>
    intro Y d
    show (levRec X Y :: levRows X (c :: Y) t).getLastD d = _
    rw [List.getLastD_cons, ih (c :: Y)]
    simp

theorem levRows_nil_left :
    ∀ (t Y : List Char),
      levRows [] Y t = (List.range (t.length + 1)).map (fun j => Y.length + j) := by
  intro t
  induction t with
  | nil => intro Y; simp [levRows, levRec, List.range_succ]
  | cons c t ih =>
    intro Y
    show levRec [] Y :: levRows [] (c :: Y) t = _
    rw [ih (c :: Y)]
    simp only [List.length_cons]
    conv_rhs => rw [List.range_succ_eq_map]
    simp only [List.map_cons, List.map_map]
    congr 1
    · simp [levRec]
    · refine List.map_congr_left fun j hj => ?_
      simp only [Function.comp_apply]
      omega

theorem levDP_eq (s1 s2 : List Char) :
    levDP s1 s2 = levRec s1.reverse s2.reverse := by
  unfold levDP
  have h0 : List.range (s2.length + 1) = levRows [] [] s2 := by
    rw [levRows_nil_left]
    simp
  have h1 : s1.enum = List.enumFrom (List.length ([] : List Char)) s1 := by
    simp [List.enum]
  rw [h0, h1, levDP_loop s2 s1 [], levRows_getLastD]
  simp

theorem levenshtein_distance_eq (s1 s2 : List Char) :
    levenshtein_distance s1 s2 = levRec s1.reverse s2.reverse := by
  unfold levenshtein_distance levBody
  split_ifs with h1 h2 h3
  · rw [List.length_eq_zero.1 h2]
    simp [levRec, levRec_nil_right]
  · rw [levDP_eq, levRec_symm]
  · rw [List.length_eq_zero.1 h3]
    simp [levRec_nil_right, levRec]
  · exact levDP_eq s1 s2

theorem levenshtein_distance_comm (s1 s2 : List Char) :
    levenshtein_distance s1 s2 = levenshtein_distance s2 s1 := by
  rw [levenshtein_distance_eq, levenshtein_distance_eq, levRec_symm]

theorem levenshtein_distance_le_max (s1 s2 : List Char) :
    levenshtein_distance s1 s2 ≤ max s1.length s2.length := by
  rw [levenshtein_distance_eq]
  simpa using levRec_le_max s1.reverse s2.reverse

/-! ## Reflexivity of the calculator's sub-scores -/

namespace SimilarityCalculator

theorem position_similarity_self (cfg : ToleranceConfig) (p : Point) :
    position_similarity cfg p p = 1 := by
  simp [position_similarity, distance_self]

theorem position_similarity_le_one (cfg : ToleranceConfig)
    (h : 0 ≤ cfg.position) (p q : Point) : position_similarity cfg p q ≤ 1 := by
  unfold position_similarity
  have := div_nonneg (distance_nonneg p q) h
  exact max_le (by norm_num) (by linarith)

theorem position_similarity_nonneg (cfg : ToleranceConfig) (p q : Point) :
    0 ≤ position_similarity cfg p q := le_max_left _ _

theorem length_similarity_self (cfg : ToleranceConfig) (x : ℝ) :
    length_similarity cfg x x = 1 := by
  unfold length_similarity
  split_ifs with h1 h2 <;> simp

theorem angle_similarity_self (cfg : ToleranceConfig) (θ : ℝ) :
    angle_similarity cfg θ θ = 1 := by
  unfold angle_similarity
  have h : (0:ℝ) ⊓ (2 * Real.pi) = 0 := min_eq_left (by positivity)
  simp [h]

theorem radius_similarity_self (cfg : ToleranceConfig) (r : ℝ) :
    radius_similarity cfg r r = 1 := by
  simp [radius_similarity]

theorem endpoint_similarity_self (cfg : ToleranceConfig) (h : 0 ≤ cfg.position)
    (l : Line) : endpoint_similarity cfg l l = 1 := by
  unfold endpoint_similarity
  have h1 := position_similarity_self cfg l.start
  have h2 := position_similarity_self cfg l.endp
  have h3 := position_similarity_le_one cfg h l.start l.endp
  have h4 := position_similarity_le_one cfg h l.endp l.start
  rw [h1, h2]
  rw [max_eq_left (by linarith)]
  norm_num

theorem arc_angle_similarity_self (cfg : ToleranceConfig) (a : Arc) :
    arc_angle_similarity cfg a a = 1 := by
  unfold arc_angle_similarity
  rw [angle_similarity_self, angle_similarity_self]
  norm_num

theorem text_content_similarity_self (s : String) :
    text_content_similarity s s = 1 := by
  simp [text_content_similarity]

theorem geometric_similarity_self (cfg : ToleranceConfig)
    (hpos : 0 ≤ cfg.position) (e : Elem) :
    geometric_similarity cfg e e = 1 := by
  cases e with
  | line l =>
    rw [show geometric_similarity cfg (.line l) (.line l) =
      line_geometric_similarity cfg l l from rfl]
    unfold line_geometric_similarity
    rw [position_similarity_self, length_similarity_self, angle_similarity_self,
      endpoint_similarity_self cfg hpos, calcWeights_eq]
    norm_num
  | circle c =>
    rw [show geometric_similarity cfg (.circle c) (.circle c) =
      circle_geometric_similarity cfg c c from rfl]
    unfold circle_geometric_similarity
    rw [position_similarity_self, radius_similarity_self, calcWeights_eq]
    norm_num
  | arc a =>
    rw [show geometric_similarity cfg (.arc a) (.arc a) =
      arc_geometric_similarity cfg a a from rfl]
    unfold arc_geometric_similarity
    rw [position_similarity_self, radius_similarity_self, length_similarity_self,
      arc_angle_similarity_self, calcWeights_eq]
    norm_num
  | text t =>
    rw [show geometric_similarity cfg (.text t) (.text t) =
      text_geometric_similarity cfg t t from rfl]
    unfold text_geometric_similarity
    rw [position_similarity_self, length_similarity_self, angle_similarity_self,
      text_content_similarity_self, calcWeights_eq]
    norm_num

theorem attribute_similarity_self (e : Elem) : attribute_similarity e e = 1 := by
  cases e <;>
    norm_num [attribute_similarity, Elem.layerAttr, Elem.colorAttr,
      Elem.lineTypeAttr, Elem.fontAttr]

end SimilarityCalculator

/-! ## Folded minima and maxima over lists -/

theorem foldl_min_le_init (a : ℝ) (l : List ℝ) : List.foldl min a l ≤ a := by
  induction l generalizing a with
  | nil => simp
  | cons x xs ih => exact le_trans (ih (min a x)) (min_le_left a x)

theorem foldl_min_le_mem {x : ℝ} (a : ℝ) (l : List ℝ) (hx : x ∈ l) :
    List.foldl min a l ≤ x := by
  induction l generalizing a with
  | nil => cases hx
  | cons y ys ih =>
    rcases List.mem_cons.1 hx with h | h
    · subst h
      exact le_trans (foldl_min_le_init (min a x) ys) (min_le_right a x)
    · exact ih _ h

theorem le_foldl_min (c a : ℝ) (l : List ℝ) (ha : c ≤ a) (hl : ∀ x ∈ l, c ≤ x) :
    c ≤ List.foldl min a l := by
  induction l generalizing a with
  | nil => simpa using ha
  | cons y ys ih =>
    exact ih (min a y) (le_min ha (hl y (by simp)))
      (fun x hx => hl x (by simp [hx]))

theorem le_foldl_max_init (a : ℝ) (l : List ℝ) : a ≤ List.foldl max a l := by
  induction l generalizing a with
  | nil => simp
  | cons x xs ih => exact le_trans (le_max_left a x) (ih (max a x))

theorem foldl_max_le (c a : ℝ) (l : List ℝ) (ha : a ≤ c) (hl : ∀ x ∈ l, x ≤ c) :
    List.foldl max a l ≤ c := by
  induction l generalizing a with
  | nil => simpa using ha
  | cons y ys ih =>
    exact ih (max a y) (max_le ha (hl y (by simp)))
      (fun x hx => hl x (by simp [hx]))

/-! ## Hausdorff distance facts -/

namespace SimilarityCalculator

theorem minDistTo_nonneg (p : Point) (pts : List Point) : 0 ≤ minDistTo p pts := by
  cases pts with
  | nil => simp [minDistTo]
  | cons q qs =>
    refine le_foldl_min 0 _ _ (distance_nonneg _ _) ?_
    intro x hx
    obtain ⟨r, _, rfl⟩ := List.mem_map.1 hx
    exact distance_nonneg _ _

theorem minDistTo_le (p q : Point) (pts : List Point) (hq : q ∈ pts) :
    minDistTo p pts ≤ p.distance_to q := by
  cases pts with
  | nil => cases hq
  | cons r rs =>
    rcases List.mem_cons.1 hq with h | h
    · subst h
      exact foldl_min_le_init _ _
    · exact foldl_min_le_mem _ _ (List.mem_map.2 ⟨q, h, rfl⟩)

theorem minDistTo_self (p : Point) (pts : List Point) (hp : p ∈ pts) :
    minDistTo p pts = 0 :=
  le_antisymm (by simpa [distance_self] using minDistTo_le p p pts hp)
    (minDistTo_nonneg p pts)

theorem hausdorff_distance_nonneg (pa pb : List Point) :
    0 ≤ hausdorff_distance pa pb := by
  unfold hausdorff_distance
  exact le_max_of_le_left (le_foldl_max_init 0 _)

theorem hausdorff_distance_self (pts : List Point) :
    hausdorff_distance pts pts = 0 := by
  unfold hausdorff_distance
  have h2 : List.foldl max 0 (pts.map (fun p => minDistTo p pts)) ≤ 0 := by
    refine foldl_max_le 0 0 _ le_rfl ?_
    intro d hd
    obtain ⟨p, hp, rfl⟩ := List.mem_map.1 hd
    simp [minDistTo_self p pts hp]
  have he : List.foldl max 0 (pts.map (fun p => minDistTo p pts)) = 0 :=
    le_antisymm h2 (le_foldl_max_init 0 _)
  simp [he]

theorem element_points_ne_nil (e : Elem) : element_points e ≠ [] := by
  cases e <;> simp [element_points]

/-! ## Cosine similarity facts -/

theorem dotList_self (v : List ℝ) :
    dotList v v = (v.map (fun x => x ^ 2)).sum := by
  induction v with
  | nil => rfl
  | cons x xs ih =>
    simp only [dotList, List.zipWith_cons_cons, List.sum_cons, List.map_cons] at *
    rw [ih]
    ring

theorem sum_sq_nonneg (v : List ℝ) : 0 ≤ (v.map (fun x => x ^ 2)).sum := by
  refine List.sum_nonneg ?_
  intro x hx
  obtain ⟨y, _, rfl⟩ := List.mem_map.1 hx
  positivity

theorem normList_eq_zero_iff (v : List ℝ) :
    normList v = 0 ↔ (v.map (fun x => x ^ 2)).sum = 0 := by
  unfold normList
  rw [show ((v.map (fun x => x ^ 2)).sum = 0 ↔ _) from Iff.rfl]
  constructor
  · intro h
    have := Real.sqrt_eq_zero'.1 h
    linarith [sum_sq_nonneg v]
  · intro h
    rw [h, Real.sqrt_zero]

/-- The attribute set always contains the type name, hence is non-empty. -/
theorem typeName_mem_element_attributes (e : Elem) :
    e.typeName ∈ element_attributes e := by
  cases e <;> simp [element_attributes, Elem.lineTypeAttr, Elem.fontAttr]

end SimilarityCalculator

/-! ## Range of the calculator's sub-scores -/

/-- Two angles in one closed period differ by at most `2π`. -/
theorem abs_sub_le_two_pi {x y : ℝ} (hx : x ∈ Set.Icc 0 (2 * Real.pi))
    (hy : y ∈ Set.Icc 0 (2 * Real.pi)) : |x - y| ≤ 2 * Real.pi := by
  obtain ⟨hx0, hx1⟩ := hx
  obtain ⟨hy0, hy1⟩ := hy
  rw [abs_le]
  constructor <;> linarith

/-- A well-formed arc has non-negative arc length. -/
theorem arc_length_nonneg (a : Arc) (hr : 0 ≤ a.radius)
    (hs : a.start_angle ∈ Set.Icc 0 (2 * Real.pi))
    (he : a.end_angle ∈ Set.Icc 0 (2 * Real.pi)) : 0 ≤ a.arc_length := by
  obtain ⟨hs0, hs1⟩ := hs
  obtain ⟨he0, he1⟩ := he
  unfold Arc.arc_length
  simp only
  split_ifs with h
  · have : 0 ≤ a.end_angle - a.start_angle + 2 * Real.pi := by linarith
    positivity
  · push_neg at h
    positivity

namespace SimilarityCalculator

theorem length_similarity_mem (cfg : ToleranceConfig) (hL : 0 < cfg.length_ratio)
    {length_a length_b : ℝ} (ha : 0 ≤ length_a) (hb : 0 ≤ length_b) :
    0 ≤ length_similarity cfg length_a length_b ∧
      length_similarity cfg length_a length_b ≤ 1 := by
  unfold length_similarity
  split_ifs with hc1 hc2
  · norm_num
  · norm_num
  · refine ⟨le_max_left _ _, falloff_le_one _ _ ?_ hL⟩
    exact div_nonneg (abs_nonneg _) (le_max_of_le_left ha)

theorem angle_similarity_mem (cfg : ToleranceConfig) (hA : 0 < cfg.angle)
    {angle_a angle_b : ℝ} (hd : |angle_a - angle_b| ≤ 2 * Real.pi) :
    0 ≤ angle_similarity cfg angle_a angle_b ∧
      angle_similarity cfg angle_a angle_b ≤ 1 := by
  unfold angle_similarity
  simp only
  refine ⟨le_max_left _ _, falloff_le_one _ _ ?_ hA⟩
  exact le_min (abs_nonneg _) (by linarith)

theorem radius_similarity_mem (cfg : ToleranceConfig)
    (hR : 0 < cfg.radius_tolerance) (radius_a radius_b : ℝ) :
    0 ≤ radius_similarity cfg radius_a radius_b ∧
      radius_similarity cfg radius_a radius_b ≤ 1 := by
  unfold radius_similarity
  exact ⟨le_max_left _ _, falloff_le_one _ _ (abs_nonneg _) hR⟩

theorem position_similarity_mem (cfg : ToleranceConfig) (hP : 0 < cfg.position)
    (p q : Point) :
    0 ≤ position_similarity cfg p q ∧ position_similarity cfg p q ≤ 1 :=
  ⟨position_similarity_nonneg cfg p q, position_similarity_le_one cfg hP.le p q⟩

theorem endpoint_similarity_mem (cfg : ToleranceConfig) (hP : 0 < cfg.position)
    (line_a line_b : Line) :
    0 ≤ endpoint_similarity cfg line_a line_b ∧
      endpoint_similarity cfg line_a line_b ≤ 1 := by
  unfold endpoint_similarity
  obtain ⟨h1l, h1r⟩ := position_similarity_mem cfg hP line_a.start line_b.start
  obtain ⟨h2l, h2r⟩ := position_similarity_mem cfg hP line_a.endp line_b.endp
  obtain ⟨h3l, h3r⟩ := position_similarity_mem cfg hP line_a.start line_b.endp
  obtain ⟨h4l, h4r⟩ := position_similarity_mem cfg hP line_a.endp line_b.start
  constructor
  · exact le_max_of_le_left (by linarith)
  · exact max_le (by linarith) (by linarith)

theorem arc_angle_similarity_mem (cfg : ToleranceConfig) (hA : 0 < cfg.angle)
    (arc_a arc_b : Arc) (ha : WfElem (.arc arc_a)) (hb : WfElem (.arc arc_b)) :
    0 ≤ arc_angle_similarity cfg arc_a arc_b ∧
      arc_angle_similarity cfg arc_a arc_b ≤ 1 := by
  obtain ⟨_, has, hae⟩ := ha
  obtain ⟨_, hbs, hbe⟩ := hb
  unfold arc_angle_similarity
  obtain ⟨h1l, h1r⟩ := angle_similarity_mem cfg hA (abs_sub_le_two_pi has hbs)
  obtain ⟨h2l, h2r⟩ := angle_similarity_mem cfg hA (abs_sub_le_two_pi hae hbe)
  constructor <;> linarith

theorem levenshtein_similarity_mem (s1 s2 : List Char) :
    0 ≤ levenshtein_similarity s1 s2 ∧ levenshtein_similarity s1 s2 ≤ 1 := by
  unfold levenshtein_similarity
  split_ifs with h1 h2 h3
  · norm_num
  · norm_num
  · norm_num
  · have hmax : 0 < max s1.length s2.length := by
      refine lt_of_lt_of_le ?_ (le_max_left _ _)
      omega
    have hbound := levenshtein_distance_le_max s1 s2
    have hdiv0 : (0 : ℝ) ≤ (levenshtein_distance s1 s2 : ℝ) /
        ((max s1.length s2.length : ℕ) : ℝ) := by positivity
    have hdiv1 : (levenshtein_distance s1 s2 : ℝ) /
        ((max s1.length s2.length : ℕ) : ℝ) ≤ 1 := by
      rw [div_le_one (by exact_mod_cast hmax)]
      exact_mod_cast hbound
    constructor <;> linarith

theorem text_content_similarity_mem (content_a content_b : String) :
    0 ≤ text_content_similarity content_a content_b ∧
      text_content_similarity content_a content_b ≤ 1 := by
  unfold text_content_similarity
  split_ifs with h1 h2
  · norm_num
  · norm_num
  · exact levenshtein_similarity_mem _ _

theorem attribute_similarity_mem (a b : Elem) :
    0 ≤ attribute_similarity a b ∧ attribute_similarity a b ≤ 1 := by
  cases a <;> cases b <;>
    (unfold attribute_similarity
     norm_num [Elem.layerAttr, Elem.colorAttr, Elem.lineTypeAttr, Elem.fontAttr]) <;>
    split_ifs <;> norm_num

theorem geometric_similarity_mem (cfg : ToleranceConfig) (hP : 0 < cfg.position)
    (hL : 0 < cfg.length_ratio) (hA : 0 < cfg.angle)
    (hR : 0 < cfg.radius_tolerance) (a b : Elem) (ha : WfElem a) (hb : WfElem b) :
    0 ≤ geometric_similarity cfg a b ∧ geometric_similarity cfg a b ≤ 1 := by
  cases a with
  | line la =>
    cases b with
    | line lb =>
      show 0 ≤ line_geometric_similarity cfg la lb ∧
        line_geometric_similarity cfg la lb ≤ 1
      unfold line_geometric_similarity
      rw [calcWeights_position, calcWeights_size, calcWeights_orientation,
        calcWeights_shape]
      obtain ⟨p0, p1⟩ := position_similarity_mem cfg hP la.midpoint lb.midpoint
      obtain ⟨l0, l1⟩ := length_similarity_mem cfg hL
        (show (0:ℝ) ≤ la.length from distance_nonneg _ _)
        (show (0:ℝ) ≤ lb.length from distance_nonneg _ _)
      obtain ⟨a0, a1⟩ := angle_similarity_mem cfg hA
        (show |la.angle - lb.angle| ≤ 2 * Real.pi from abs_atan2_sub_le _ _ _ _)
      obtain ⟨e0, e1⟩ := endpoint_similarity_mem cfg hP la lb
      constructor <;> nlinarith
    | circle _ => simp [geometric_similarity]
    | arc _ => simp [geometric_similarity]
    | text _ => simp [geometric_similarity]
  | circle ca =>
    cases b with
    | circle cb =>
      show 0 ≤ circle_geometric_similarity cfg ca cb ∧
        circle_geometric_similarity cfg ca cb ≤ 1
      unfold circle_geometric_similarity
      rw [calcWeights_position, calcWeights_size, calcWeights_orientation,
        calcWeights_shape]
      obtain ⟨p0, p1⟩ := position_similarity_mem cfg hP ca.center cb.center
      obtain ⟨r0, r1⟩ := radius_similarity_mem cfg hR ca.radius cb.radius
      constructor <;> nlinarith
    | line _ => simp [geometric_similarity]
    | arc _ => simp [geometric_similarity]
    | text _ => simp [geometric_similarity]
  | arc aa =>
    cases b with
    | arc ab =>
      show 0 ≤ arc_geometric_similarity cfg aa ab ∧
        arc_geometric_similarity cfg aa ab ≤ 1
      unfold arc_geometric_similarity
      rw [calcWeights_position, calcWeights_size, calcWeights_orientation,
        calcWeights_shape]
      obtain ⟨p0, p1⟩ := position_similarity_mem cfg hP aa.center ab.center
      obtain ⟨r0, r1⟩ := radius_similarity_mem cfg hR aa.radius ab.radius
      obtain ⟨l0, l1⟩ := length_similarity_mem cfg hL
        (arc_length_nonneg aa ha.1 ha.2.1 ha.2.2)
        (arc_length_nonneg ab hb.1 hb.2.1 hb.2.2)
      obtain ⟨g0, g1⟩ := arc_angle_similarity_mem cfg hA aa ab ha hb
      constructor <;> nlinarith
    | line _ => simp [geometric_similarity]
    | circle _ => simp [geometric_similarity]
    | text _ => simp [geometric_similarity]
  | text ta =>
    cases b with
    | text tb =>
      show 0 ≤ text_geometric_similarity cfg ta tb ∧
        text_geometric_similarity cfg ta tb ≤ 1
      unfold text_geometric_similarity
      rw [calcWeights_position, calcWeights_size, calcWeights_orientation,
        calcWeights_shape]
      obtain ⟨p0, p1⟩ := position_similarity_mem cfg hP ta.position tb.position
      obtain ⟨l0, l1⟩ := length_similarity_mem cfg hL ha.1.le hb.1.le
      obtain ⟨c0, c1⟩ := text_content_similarity_mem ta.content tb.content
      obtain ⟨a0, a1⟩ := angle_similarity_mem cfg hA
        (abs_sub_le_two_pi ha.2 hb.2)
      constructor <;> nlinarith
    | line _ => simp [geometric_similarity]
    | circle _ => simp [geometric_similarity]
    | arc _ => simp [geometric_similarity]

end SimilarityCalculator

/-! ## Claim C3: similarity bounds -/

/-- C3 (amended): for positive tolerances and well-formed elements, the
overall similarity of the weighted, Euclidean, Manhattan, Jaccard and
Hausdorff methods lies in `[0, 1]`; the Cosine method is excluded, as it can
return negative values. -/
theorem C3_similarity_bounds (cfg : ToleranceConfig) (m : SimilarityMethod)
    (a b : Elem) (h1 : 0 < cfg.position) (h2 : 0 < cfg.length_ratio)
    (h3 : 0 < cfg.angle) (h4 : 0 < cfg.radius_tolerance)
    (h5 : 0 < cfg.max_search_radius) (ha : WfElem a) (hb : WfElem b)
    (hm : m ≠ .cosine) :
    0 ≤ (SimilarityCalculator.calculate_similarity cfg m a b).overall_similarity ∧
    (SimilarityCalculator.calculate_similarity cfg m a b).overall_similarity ≤ 1 := by
  unfold SimilarityCalculator.calculate_similarity
  rcases Classical.em (sameType a b) with hsame | hsame
  case inr =>
    rw [if_pos (by simpa using hsame)]
    norm_num
  case inl =>
    rw [if_neg (by simpa using hsame)]
    cases m with
    | cosine => exact absurd rfl hm
    | weighted =>
      show 0 ≤ (SimilarityCalculator.weighted_similarity cfg a b).overall_similarity ∧
        (SimilarityCalculator.weighted_similarity cfg a b).overall_similarity ≤ 1
      unfold SimilarityCalculator.weighted_similarity
      obtain ⟨g0, g1⟩ :=
        SimilarityCalculator.geometric_similarity_mem cfg h1 h2 h3 h4 a b ha hb
      obtain ⟨t0, t1⟩ := SimilarityCalculator.attribute_similarity_mem a b
      constructor <;> nlinarith
    | euclidean =>
      show 0 ≤ (SimilarityCalculator.euclidean_similarity cfg a b).overall_similarity ∧
        (SimilarityCalculator.euclidean_similarity cfg a b).overall_similarity ≤ 1
      unfold SimilarityCalculator.euclidean_similarity
      exact ⟨le_max_left _ _, falloff_le_one _ _ (distance_nonneg _ _) h5⟩
    | manhattan =>
      show 0 ≤ (SimilarityCalculator.manhattan_similarity cfg a b).overall_similarity ∧
        (SimilarityCalculator.manhattan_similarity cfg a b).overall_similarity ≤ 1
      unfold SimilarityCalculator.manhattan_similarity
      refine ⟨le_max_left _ _, falloff_le_one _ _ ?_ (by linarith)⟩
      positivity
    | jaccard =>
      show 0 ≤ (SimilarityCalculator.jaccard_similarity a b).overall_similarity ∧
        (SimilarityCalculator.jaccard_similarity a b).overall_similarity ≤ 1
      unfold SimilarityCalculator.jaccard_similarity
      simp only
      split_ifs with hu
      · have hsub := Finset.card_le_card
          (show SimilarityCalculator.element_attributes a ∩
              SimilarityCalculator.element_attributes b ⊆
            SimilarityCalculator.element_attributes a ∪
              SimilarityCalculator.element_attributes b from Finset.inter_subset_union)
        constructor
        · positivity
        · rw [div_le_one (by exact_mod_cast hu)]
          exact_mod_cast hsub
      · norm_num
    | hausdorff =>
      show 0 ≤ (SimilarityCalculator.hausdorff_similarity cfg a b).overall_similarity ∧
        (SimilarityCalculator.hausdorff_similarity cfg a b).overall_similarity ≤ 1
      unfold SimilarityCalculator.hausdorff_similarity
      simp only
      split_ifs with hempty
      · norm_num
      · exact ⟨le_max_left _ _,
          falloff_le_one _ _ (SimilarityCalculator.hausdorff_distance_nonneg _ _) h5⟩

/-- C3 (counterexample): for the two degenerate lines at `(1, 0)` and
`(-1, 0)` the feature vectors are opposite, so the Cosine method returns
overall similarity `-1`, outside `[0, 1]`. -/
theorem C3_counterexample :
    (SimilarityCalculator.calculate_similarity ToleranceConfig.standard .cosine
      (.line lineOnePt) (.line lineNegPt)).overall_similarity = -1 ∧
    ¬ (0 : ℝ) ≤ -1 := by
  refine ⟨?_, by norm_num⟩
  have hva : SimilarityCalculator.element_to_vector (.line lineOnePt) =
      [1, 0, 1, 0, 0, 0] := by
    have hlen : lineOnePt.length = 0 := by
      simp [lineOnePt, Line.length, distance_horizontal]
    have hang : lineOnePt.angle = 0 := by
      have h : lineOnePt.angle = atan2 0 0 := by norm_num [lineOnePt, Line.angle]
      rw [h, atan2_zero_zero]
    simp only [SimilarityCalculator.element_to_vector, hlen, hang]
    norm_num [lineOnePt]
  have hvb : SimilarityCalculator.element_to_vector (.line lineNegPt) =
      [-1, 0, -1, 0, 0, 0] := by
    have hlen : lineNegPt.length = 0 := by
      simp [lineNegPt, Line.length, distance_horizontal]
    have hang : lineNegPt.angle = 0 := by
      have h : lineNegPt.angle = atan2 0 0 := by norm_num [lineNegPt, Line.angle]
      rw [h, atan2_zero_zero]
    simp only [SimilarityCalculator.element_to_vector, hlen, hang]
    norm_num [lineNegPt]
  unfold SimilarityCalculator.calculate_similarity
  rw [if_neg (by simp [sameType])]
  show (SimilarityCalculator.cosine_similarity (.line lineOnePt)
    (.line lineNegPt)).overall_similarity = -1
  unfold SimilarityCalculator.cosine_similarity
  simp only [hva, hvb]
  have hnorm : SimilarityCalculator.normList [(1 : ℝ), 0, 1, 0, 0, 0] = Real.sqrt 2 := by
    unfold SimilarityCalculator.normList
    norm_num
  have hnormb : SimilarityCalculator.normList [(-1 : ℝ), 0, -1, 0, 0, 0] = Real.sqrt 2 := by
    unfold SimilarityCalculator.normList
    norm_num
  have hsqrt : Real.sqrt 2 ≠ 0 := by positivity
  rw [hnorm, hnormb, if_neg (by simp [hsqrt])]
  have hdot : SimilarityCalculator.dotList [(1 : ℝ), 0, 1, 0, 0, 0]
      [(-1 : ℝ), 0, -1, 0, 0, 0] = -2 := by
    unfold SimilarityCalculator.dotList
    norm_num
  rw [hdot, Real.mul_self_sqrt (by norm_num)]
  norm_num

/-- C3 (witness): the bounds theorem applied to the unit circle against
itself under unit tolerances with the weighted method. -/
theorem C3_witness :
    ((0 : ℝ) < cfgUnit.position ∧ (0 : ℝ) < cfgUnit.length_ratio ∧
      (0 : ℝ) < cfgUnit.angle ∧ (0 : ℝ) < cfgUnit.radius_tolerance ∧
      (0 : ℝ) < cfgUnit.max_search_radius ∧ WfElem (.circle circleO) ∧
      SimilarityMethod.weighted ≠ SimilarityMethod.cosine) ∧
    (0 ≤ (SimilarityCalculator.calculate_similarity cfgUnit .weighted
        (.circle circleO) (.circle circleO)).overall_similarity ∧
      (SimilarityCalculator.calculate_similarity cfgUnit .weighted
        (.circle circleO) (.circle circleO)).overall_similarity ≤ 1) := by
  have hwf : WfElem (.circle circleO) := by simp [WfElem, circleO]
  refine ⟨⟨by norm_num [cfgUnit], by norm_num [cfgUnit], by norm_num [cfgUnit],
    by norm_num [cfgUnit], by norm_num [cfgUnit], hwf, by simp⟩, ?_⟩
  exact C3_similarity_bounds cfgUnit .weighted (.circle circleO) (.circle circleO)
    (by norm_num [cfgUnit]) (by norm_num [cfgUnit]) (by norm_num [cfgUnit])
    (by norm_num [cfgUnit]) (by norm_num [cfgUnit]) hwf hwf (by simp)

/-! ## Symmetry of the calculator's sub-scores -/

namespace SimilarityCalculator

theorem position_similarity_comm (cfg : ToleranceConfig) (p q : Point) :
    position_similarity cfg p q = position_similarity cfg q p := by
  unfold position_similarity
  rw [distance_comm]

theorem length_similarity_comm (cfg : ToleranceConfig) (length_a length_b : ℝ) :
    length_similarity cfg length_a length_b =
      length_similarity cfg length_b length_a := by
  unfold length_similarity
  rcases eq_or_ne length_a 0 with h1 | h1 <;>
    rcases eq_or_ne length_b 0 with h2 | h2 <;>
    simp [h1, h2, abs_sub_comm, max_comm]

theorem angle_similarity_comm (cfg : ToleranceConfig) (angle_a angle_b : ℝ) :
    angle_similarity cfg angle_a angle_b = angle_similarity cfg angle_b angle_a := by
  unfold angle_similarity
  rw [abs_sub_comm]

theorem radius_similarity_comm (cfg : ToleranceConfig) (radius_a radius_b : ℝ) :
    radius_similarity cfg radius_a radius_b =
      radius_similarity cfg radius_b radius_a := by
  unfold radius_similarity
  rw [abs_sub_comm]

theorem area_similarity_comm (cfg : ToleranceConfig) (area_a area_b : ℝ) :
    area_similarity cfg area_a area_b = area_similarity cfg area_b area_a := by
  unfold area_similarity
  rcases eq_or_ne area_a 0 with h1 | h1 <;>
    rcases eq_or_ne area_b 0 with h2 | h2 <;>
    simp [h1, h2, abs_sub_comm, max_comm]

theorem endpoint_similarity_comm (cfg : ToleranceConfig) (line_a line_b : Line) :
    endpoint_similarity cfg line_a line_b = endpoint_similarity cfg line_b line_a := by
  unfold endpoint_similarity
  rw [position_similarity_comm cfg line_b.start line_a.start,
    position_similarity_comm cfg line_b.endp line_a.endp,
    position_similarity_comm cfg line_b.start line_a.endp,
    position_similarity_comm cfg line_b.endp line_a.start]
  rw [add_comm (position_similarity cfg line_a.endp line_b.start)
    (position_similarity cfg line_a.start line_b.endp)]

theorem arc_angle_similarity_comm (cfg : ToleranceConfig) (arc_a arc_b : Arc) :
    arc_angle_similarity cfg arc_a arc_b = arc_angle_similarity cfg arc_b arc_a := by
  unfold arc_angle_similarity
  rw [angle_similarity_comm cfg arc_b.start_angle arc_a.start_angle,
    angle_similarity_comm cfg arc_b.end_angle arc_a.end_angle]

theorem levenshtein_similarity_comm (s1 s2 : List Char) :
    levenshtein_similarity s1 s2 = levenshtein_similarity s2 s1 := by
  unfold levenshtein_similarity
  rcases Nat.eq_zero_or_pos s1.length with h1 | h1
  · rcases Nat.eq_zero_or_pos s2.length with h2 | h2
    · simp only [if_pos h1, if_pos h2, if_neg (show ¬ 0 < s2.length by omega),
        if_neg (show ¬ 0 < s1.length by omega)]
    · simp only [if_pos h1, if_pos h2, if_neg (show ¬ s2.length = 0 by omega)]
  · rcases Nat.eq_zero_or_pos s2.length with h2 | h2
    · simp only [if_pos h2, if_pos h1, if_neg (show ¬ s1.length = 0 by omega)]
    · simp only [if_neg (show ¬ s1.length = 0 by omega),
        if_neg (show ¬ s2.length = 0 by omega)]
      rw [levenshtein_distance_comm s1 s2, max_comm s1.length s2.length]

theorem text_content_similarity_comm (content_a content_b : String) :
    text_content_similarity content_a content_b =
      text_content_similarity content_b content_a := by
  by_cases h1 : content_a = content_b
  · rw [h1]
  · have h1' : ¬ content_b = content_a := fun h => h1 h.symm
    unfold text_content_similarity
    rw [if_neg h1, if_neg h1']
    by_cases h2 : content_a = "" ∨ content_b = ""
    · rw [if_pos h2, if_pos h2.symm]
    · rw [if_neg h2, if_neg (fun hh => h2 hh.symm)]
      exact levenshtein_similarity_comm _ _

theorem geometric_similarity_comm (cfg : ToleranceConfig) (a b : Elem) :
    geometric_similarity cfg a b = geometric_similarity cfg b a := by
  cases a <;> cases b <;> simp only [geometric_similarity]
  case line.line la lb =>
    unfold line_geometric_similarity
    rw [position_similarity_comm cfg lb.midpoint la.midpoint,
      length_similarity_comm cfg lb.length la.length,
      angle_similarity_comm cfg lb.angle la.angle,
      endpoint_similarity_comm cfg lb la]
  case circle.circle ca cb =>
    unfold circle_geometric_similarity
    rw [position_similarity_comm cfg cb.center ca.center,
      radius_similarity_comm cfg cb.radius ca.radius]
  case arc.arc aa ab =>
    unfold arc_geometric_similarity
    rw [position_similarity_comm cfg ab.center aa.center,
      radius_similarity_comm cfg ab.radius aa.radius,
      length_similarity_comm cfg ab.arc_length aa.arc_length,
      arc_angle_similarity_comm cfg ab aa]
  case text.text ta tb =>
    unfold text_geometric_similarity
    rw [position_similarity_comm cfg tb.position ta.position,
      length_similarity_comm cfg tb.height ta.height,
      angle_similarity_comm cfg tb.rotation ta.rotation,
      text_content_similarity_comm tb.content ta.content]

/-- Swapping the two sides of an equality test does not change the branch. -/
theorem ite_swap_eq (x y : String) (u v : ℝ) :
    (if x = y then u else v) = (if y = x then u else v) := by
  by_cases h : x = y
  · rw [if_pos h, if_pos h.symm]
  · rw [if_neg h, if_neg (fun hh => h hh.symm)]

theorem attribute_similarity_comm (a b : Elem) :
    attribute_similarity a b = attribute_similarity b a := by
  cases a <;> cases b <;>
    simp only [attribute_similarity, Elem.layerAttr, Elem.colorAttr,
      Elem.lineTypeAttr, Elem.fontAttr]
  case line.line p q =>
    rw [ite_swap_eq p.layer q.layer, ite_swap_eq p.color q.color,
      ite_swap_eq p.line_type q.line_type]
  case line.circle p q =>
    rw [ite_swap_eq p.layer q.layer, ite_swap_eq p.color q.color]
  case line.arc p q =>
    rw [ite_swap_eq p.layer q.layer, ite_swap_eq p.color q.color]
  case line.text p q =>
    rw [ite_swap_eq p.layer q.layer, ite_swap_eq p.color q.color]
  case circle.line p q =>
    rw [ite_swap_eq p.layer q.layer, ite_swap_eq p.color q.color]
  case circle.circle p q =>
    rw [ite_swap_eq p.layer q.layer, ite_swap_eq p.color q.color]
  case circle.arc p q =>
    rw [ite_swap_eq p.layer q.layer, ite_swap_eq p.color q.color]
  case circle.text p q =>
    rw [ite_swap_eq p.layer q.layer, ite_swap_eq p.color q.color]
  case arc.line p q =>
    rw [ite_swap_eq p.layer q.layer, ite_swap_eq p.color q.color]
  case arc.circle p q =>
    rw [ite_swap_eq p.layer q.layer, ite_swap_eq p.color q.color]
  case arc.arc p q =>
    rw [ite_swap_eq p.layer q.layer, ite_swap_eq p.color q.color]
  case arc.text p q =>
    rw [ite_swap_eq p.layer q.layer, ite_swap_eq p.color q.color]
  case text.line p q =>
    rw [ite_swap_eq p.layer q.layer, ite_swap_eq p.color q.color]
  case text.circle p q =>
    rw [ite_swap_eq p.layer q.layer, ite_swap_eq p.color q.color]
  case text.arc p q =>
    rw [ite_swap_eq p.layer q.layer, ite_swap_eq p.color q.color]
  case text.text p q =>
    rw [ite_swap_eq p.layer q.layer, ite_swap_eq p.color q.color,
      ite_swap_eq p.font q.font]

theorem detailed_scores_comm (cfg : ToleranceConfig) (a b : Elem) :
    detailed_scores cfg a b = detailed_scores cfg b a := by
  have hpos : ∀ x y : Elem,
      position_similarity cfg (element_center x) (element_center y) =
        position_similarity cfg (element_center y) (element_center x) :=
    fun x y => position_similarity_comm cfg _ _
  cases a <;> cases b <;> simp only [detailed_scores] <;> rw [hpos]
  case line.line la lb =>
    rw [length_similarity_comm cfg lb.length la.length,
      angle_similarity_comm cfg lb.angle la.angle,
      endpoint_similarity_comm cfg lb la]
  case circle.circle ca cb =>
    rw [radius_similarity_comm cfg cb.radius ca.radius,
      area_similarity_comm cfg cb.area ca.area]
  case arc.arc aa ab =>
    rw [radius_similarity_comm cfg ab.radius aa.radius,
      length_similarity_comm cfg ab.arc_length aa.arc_length,
      arc_angle_similarity_comm cfg ab aa]
  case text.text ta tb =>
    rw [text_content_similarity_comm tb.content ta.content,
      length_similarity_comm cfg tb.height ta.height,
      angle_similarity_comm cfg tb.rotation ta.rotation]

end SimilarityCalculator

/-! ## Claim C5: symmetry of the weighted method -/

/-- C5 (amended): for the weighted-combined method the overall, geometric,
attribute and contextual similarities, the method tag and the detailed
scores are all symmetric in the two arguments; the confidence however is
scaled by the complexity of the first argument and is not symmetric in
general (it is whenever the two elements have equal complexity). -/
theorem C5_weighted_symmetric_components (cfg : ToleranceConfig) (a b : Elem) :
    (SimilarityCalculator.calculate_similarity cfg .weighted a b).overall_similarity =
      (SimilarityCalculator.calculate_similarity cfg .weighted b a).overall_similarity ∧
    (SimilarityCalculator.calculate_similarity cfg .weighted a b).geometric_similarity =
      (SimilarityCalculator.calculate_similarity cfg .weighted b a).geometric_similarity ∧
    (SimilarityCalculator.calculate_similarity cfg .weighted a b).attribute_similarity =
      (SimilarityCalculator.calculate_similarity cfg .weighted b a).attribute_similarity ∧
    (SimilarityCalculator.calculate_similarity cfg .weighted a b).contextual_similarity =
      (SimilarityCalculator.calculate_similarity cfg .weighted b a).contextual_similarity ∧
    (SimilarityCalculator.calculate_similarity cfg .weighted a b).method_used =
      (SimilarityCalculator.calculate_similarity cfg .weighted b a).method_used ∧
    (SimilarityCalculator.calculate_similarity cfg .weighted a b).detailed_scores =
      (SimilarityCalculator.calculate_similarity cfg .weighted b a).detailed_scores := by
  have hsym : sameType a b ↔ sameType b a := by
    cases a <;> cases b <;> simp [sameType]
  unfold SimilarityCalculator.calculate_similarity
  rcases Classical.em (sameType a b) with hsame | hsame
  case inl =>
    rw [if_neg (by simpa using hsame), if_neg (by simpa using hsym.1 hsame)]
    show _ ∧ _
    unfold SimilarityCalculator.weighted_similarity
    simp only
    rw [SimilarityCalculator.geometric_similarity_comm cfg a b,
      SimilarityCalculator.attribute_similarity_comm a b,
      SimilarityCalculator.detailed_scores_comm cfg a b]
    simp
  case inr =>
    rw [if_pos (by simpa using hsame),
      if_pos (by simpa using fun h => hsame (hsym.2 h))]
    simp

/-- C5 (counterexample): the texts `"A"` and `"BC"` at the same position and
height produce equal scores in both directions, but the confidence is scaled
by the complexity of the first argument (which depends on its content
length): `0.706875` one way and `0.7075` the other, so the full
`SimilarityResult` records are not equal. -/
theorem C5_counterexample :
    (SimilarityCalculator.calculate_similarity ToleranceConfig.standard .weighted
      (.text textA) (.text textBC)).confidence = 0.706875 ∧
    (SimilarityCalculator.calculate_similarity ToleranceConfig.standard .weighted
      (.text textBC) (.text textA)).confidence = 0.7075 ∧
    SimilarityCalculator.calculate_similarity ToleranceConfig.standard .weighted
        (.text textA) (.text textBC) ≠
      SimilarityCalculator.calculate_similarity ToleranceConfig.standard .weighted
        (.text textBC) (.text textA) := by
  have hlev : levenshtein_distance "A".data "BC".data = 2 := by decide
  have hcontent : SimilarityCalculator.text_content_similarity "A" "BC" = 0 := by
    unfold SimilarityCalculator.text_content_similarity
    rw [if_neg (by decide), if_neg (by decide)]
    unfold SimilarityCalculator.levenshtein_similarity
    rw [if_neg (by decide), if_neg (by decide), hlev]
    norm_num
  have hcontent' : SimilarityCalculator.text_content_similarity "BC" "A" = 0 := by
    rw [SimilarityCalculator.text_content_similarity_comm]
    exact hcontent
  have hpos : SimilarityCalculator.position_similarity ToleranceConfig.standard
      (⟨0, 0⟩ : Point) (⟨0, 0⟩ : Point) = 1 :=
    SimilarityCalculator.position_similarity_self _ _
  have hds : SimilarityCalculator.detailed_scores ToleranceConfig.standard
      (.text textA) (.text textBC) =
      [("position", 1), ("content", 0), ("height", 1), ("rotation", 1)] := by
    unfold SimilarityCalculator.detailed_scores
    simp only [SimilarityCalculator.element_center]
    rw [show textA.position = (⟨0, 0⟩ : Point) from rfl,
      show textBC.position = (⟨0, 0⟩ : Point) from rfl, hpos,
      show textA.content = "A" from rfl, show textBC.content = "BC" from rfl,
      hcontent,
      show textA.height = 1 from rfl, show textBC.height = 1 from rfl,
      SimilarityCalculator.length_similarity_self,
      show textA.rotation = 0 by norm_num [textA],
      show textBC.rotation = 0 by norm_num [textBC],
      SimilarityCalculator.angle_similarity_self]
  have hds' : SimilarityCalculator.detailed_scores ToleranceConfig.standard
      (.text textBC) (.text textA) =
      [("position", 1), ("content", 0), ("height", 1), ("rotation", 1)] := by
    rw [SimilarityCalculator.detailed_scores_comm]
    exact hds
  have h1 : (SimilarityCalculator.calculate_similarity ToleranceConfig.standard
      .weighted (.text textA) (.text textBC)).confidence = 0.706875 := by
    unfold SimilarityCalculator.calculate_similarity
    rw [if_neg (by simp [sameType])]
    show (SimilarityCalculator.weighted_similarity ToleranceConfig.standard
      (.text textA) (.text textBC)).confidence = 0.706875
    unfold SimilarityCalculator.weighted_similarity
    simp only [hds]
    unfold SimilarityCalculator.confidence
    rw [if_neg (by simp)]
    simp only [List.map_cons, List.map_nil, SimilarityCalculator.element_complexity]
    rw [show textA.content = "A" from rfl]
    norm_num [show "A".length = 1 from rfl]
  have h2 : (SimilarityCalculator.calculate_similarity ToleranceConfig.standard
      .weighted (.text textBC) (.text textA)).confidence = 0.7075 := by
    unfold SimilarityCalculator.calculate_similarity
    rw [if_neg (by simp [sameType])]
    show (SimilarityCalculator.weighted_similarity ToleranceConfig.standard
      (.text textBC) (.text textA)).confidence = 0.7075
    unfold SimilarityCalculator.weighted_similarity
    simp only [hds']
    unfold SimilarityCalculator.confidence
    rw [if_neg (by simp)]
    simp only [List.map_cons, List.map_nil, SimilarityCalculator.element_complexity]
    rw [show textBC.content = "BC" from rfl]
    norm_num [show "BC".length = 2 from rfl]
  refine ⟨h1, h2, ?_⟩
  intro h
  have hc := congrArg SimilarityResult.confidence h
  rw [h1, h2] at hc
  norm_num at hc

/-! ## Claim C4: identity of similarity -/

/-- C4 (amended): for positive tolerances, `similarity(e, e)` has overall
similarity exactly 1 for the weighted, Euclidean, Manhattan, Jaccard and
Hausdorff methods, and for the Cosine method whenever the element's feature
vector is non-zero; a zero feature vector makes the Cosine method return 0
instead. -/
theorem C4_identity (cfg : ToleranceConfig) (e : Elem)
    (h1 : 0 < cfg.position) (h2 : 0 < cfg.length_ratio) (h3 : 0 < cfg.angle)
    (h4 : 0 < cfg.radius_tolerance) (h5 : 0 < cfg.max_search_radius) :
    (∀ m : SimilarityMethod, m ≠ .cosine →
      (SimilarityCalculator.calculate_similarity cfg m e e).overall_similarity = 1) ∧
    (SimilarityCalculator.normList (SimilarityCalculator.element_to_vector e) ≠ 0 →
      (SimilarityCalculator.calculate_similarity cfg .cosine e e).overall_similarity
        = 1) := by
  have hsame : sameType e e := by cases e <;> simp [sameType]
  constructor
  · intro m hm
    unfold SimilarityCalculator.calculate_similarity
    rw [if_neg (by simpa using hsame)]
    cases m with
    | weighted =>
      show (SimilarityCalculator.weighted_similarity cfg e e).overall_similarity = 1
      unfold SimilarityCalculator.weighted_similarity
      simp only
      rw [SimilarityCalculator.geometric_similarity_self cfg h1.le,
        SimilarityCalculator.attribute_similarity_self]
      norm_num
    | euclidean =>
      show (SimilarityCalculator.euclidean_similarity cfg e e).overall_similarity = 1
      unfold SimilarityCalculator.euclidean_similarity
      simp [distance_self]
    | manhattan =>
      show (SimilarityCalculator.manhattan_similarity cfg e e).overall_similarity = 1
      unfold SimilarityCalculator.manhattan_similarity
      simp
    | jaccard =>
      show (SimilarityCalculator.jaccard_similarity e e).overall_similarity = 1
      unfold SimilarityCalculator.jaccard_similarity
      simp only [Finset.inter_self, Finset.union_self]
      have hpos : 0 < (SimilarityCalculator.element_attributes e).card :=
        Finset.card_pos.2 ⟨e.typeName,
          SimilarityCalculator.typeName_mem_element_attributes e⟩
      rw [if_pos hpos]
      field_simp
    | hausdorff =>
      show (SimilarityCalculator.hausdorff_similarity cfg e e).overall_similarity = 1
      unfold SimilarityCalculator.hausdorff_similarity
      simp only [SimilarityCalculator.hausdorff_distance_self]
      rw [if_neg (by simp [SimilarityCalculator.element_points_ne_nil e])]
      simp
    | cosine => exact absurd rfl hm
  · intro hn
    unfold SimilarityCalculator.calculate_similarity
    rw [if_neg (by simpa using hsame)]
    show (SimilarityCalculator.cosine_similarity e e).overall_similarity = 1
    unfold SimilarityCalculator.cosine_similarity
    simp only
    rw [if_neg (by simpa using hn)]
    rw [SimilarityCalculator.dotList_self]
    unfold SimilarityCalculator.normList
    rw [Real.mul_self_sqrt (SimilarityCalculator.sum_sq_nonneg _)]
    refine div_self ?_
    intro h0
    exact hn (by unfold SimilarityCalculator.normList; rw [h0, Real.sqrt_zero])

/-- C4 (counterexample): the degenerate line at the origin has the zero
feature vector, so the Cosine method returns similarity 0 for the element
against itself, not 1. -/
theorem C4_counterexample :
    (SimilarityCalculator.calculate_similarity ToleranceConfig.standard .cosine
      (.line lineZero) (.line lineZero)).overall_similarity = 0 ∧ (0 : ℝ) ≠ 1 := by
  refine ⟨?_, by norm_num⟩
  have hveczero : SimilarityCalculator.element_to_vector (.line lineZero) =
      [0, 0, 0, 0, 0, 0] := by
    have hlen : lineZero.length = 0 := by
      simp [lineZero, Line.length, distance_horizontal]
    have hang : lineZero.angle = 0 := by
      have h : lineZero.angle = atan2 0 0 := by norm_num [lineZero, Line.angle]
      rw [h, atan2_zero_zero]
    simp only [SimilarityCalculator.element_to_vector, hlen, hang]
    norm_num [lineZero]
  have hnorm : SimilarityCalculator.normList
      (SimilarityCalculator.element_to_vector (.line lineZero)) = 0 := by
    rw [hveczero]
    unfold SimilarityCalculator.normList
    norm_num
  unfold SimilarityCalculator.calculate_similarity
  rw [if_neg (by simp [sameType])]
  show (SimilarityCalculator.cosine_similarity (.line lineZero)
    (.line lineZero)).overall_similarity = 0
  unfold SimilarityCalculator.cosine_similarity
  simp only
  rw [if_pos (Or.inl hnorm)]

/-- C4 (witness): the identity theorem applied to the unit circle under the
unit-tolerance configuration. -/
theorem C4_witness :
    ((0 : ℝ) < cfgUnit.position ∧ (0 : ℝ) < cfgUnit.length_ratio ∧
      (0 : ℝ) < cfgUnit.angle ∧ (0 : ℝ) < cfgUnit.radius_tolerance ∧
      (0 : ℝ) < cfgUnit.max_search_radius) ∧
    (∀ m : SimilarityMethod, m ≠ .cosine →
      (SimilarityCalculator.calculate_similarity cfgUnit m (.circle circleO)
        (.circle circleO)).overall_similarity = 1) ∧
    (SimilarityCalculator.normList (SimilarityCalculator.element_to_vector
        (.circle circleO)) ≠ 0 →
      (SimilarityCalculator.calculate_similarity cfgUnit .cosine (.circle circleO)
        (.circle circleO)).overall_similarity = 1) := by
  refine ⟨⟨?_, ?_, ?_, ?_, ?_⟩, ?_⟩
  · norm_num [cfgUnit]
  · norm_num [cfgUnit]
  · norm_num [cfgUnit]
  · norm_num [cfgUnit]
  · norm_num [cfgUnit]
  · exact C4_identity cfgUnit (.circle circleO) (by norm_num [cfgUnit])
      (by norm_num [cfgUnit]) (by norm_num [cfgUnit]) (by norm_num [cfgUnit])
      (by norm_num [cfgUnit])

/-! ## Claim C6: line similarity weights -/

/-- C6 (amended): the Similarity Calculator combines the four line
sub-scores with the normalized weights 0.3 (position), 0.2 (length),
0.1 (angle) and 0.4 (endpoint) — not 0.25 each; the equally weighted
0.25 sum is used by the Element Matcher's internal line similarity. -/
theorem C6_line_similarity_weights (cfg : ToleranceConfig) (line_a line_b : Line) :
    SimilarityCalculator.line_geometric_similarity cfg line_a line_b =
      0.3 * SimilarityCalculator.position_similarity cfg line_a.midpoint line_b.midpoint +
      0.2 * SimilarityCalculator.length_similarity cfg line_a.length line_b.length +
      0.1 * SimilarityCalculator.angle_similarity cfg line_a.angle line_b.angle +
      0.4 * SimilarityCalculator.endpoint_similarity cfg line_a line_b ∧
    ElementMatcher.line_similarity cfg line_a line_b =
      0.25 * (ElementMatcher.position_similarity cfg
          (ElementMatcher.element_center (.line line_a))
          (ElementMatcher.element_center (.line line_b)) +
        ElementMatcher.length_similarity cfg line_a.length line_b.length +
        ElementMatcher.angle_similarity cfg line_a.angle line_b.angle +
        ElementMatcher.endpoint_similarity cfg line_a line_b) := by
  constructor
  · rw [SimilarityCalculator.line_geometric_similarity, calcWeights_eq]
    ring
  · rw [ElementMatcher.line_similarity]
    ring

/-- C6 (counterexample): for two concrete horizontal lines under unit
tolerances the calculator's line similarity is 0.55 while the equally
weighted 0.25 sum of its four sub-scores is 0.625. -/
theorem C6_counterexample :
    SimilarityCalculator.line_geometric_similarity cfgUnit lineA2 lineB1 = 0.55 ∧
    0.25 * SimilarityCalculator.position_similarity cfgUnit lineA2.midpoint lineB1.midpoint +
      0.25 * SimilarityCalculator.length_similarity cfgUnit lineA2.length lineB1.length +
      0.25 * SimilarityCalculator.angle_similarity cfgUnit lineA2.angle lineB1.angle +
      0.25 * SimilarityCalculator.endpoint_similarity cfgUnit lineA2 lineB1 = 0.625 ∧
    (0.55 : ℝ) ≠ 0.625 := by
  have hmidA : lineA2.midpoint = (⟨1, 0⟩ : Point) := by
    norm_num [lineA2, Line.midpoint, Point.midpoint_to]
  have hmidB : lineB1.midpoint = (⟨0.5, 0⟩ : Point) := by
    norm_num [lineB1, Line.midpoint, Point.midpoint_to]
  have hlenA : lineA2.length = 2 := by
    simp [lineA2, Line.length, distance_horizontal]
  have hlenB : lineB1.length = 1 := by
    simp [lineB1, Line.length, distance_horizontal]
  have hangA : lineA2.angle = 0 := by
    have : lineA2.angle = atan2 0 2 := by norm_num [lineA2, Line.angle]
    rw [this, atan2_zero_pos 2 (by norm_num)]
  have hangB : lineB1.angle = 0 := by
    have : lineB1.angle = atan2 0 1 := by norm_num [lineB1, Line.angle]
    rw [this, atan2_zero_pos 1 (by norm_num)]
  have hpos : SimilarityCalculator.position_similarity cfgUnit lineA2.midpoint
      lineB1.midpoint = 0.5 := by
    rw [hmidA, hmidB, SimilarityCalculator.position_similarity, distance_horizontal,
      show |(1:ℝ) - 0.5| = 0.5 by norm_num]
    norm_num [cfgUnit]
  have hlen : SimilarityCalculator.length_similarity cfgUnit lineA2.length
      lineB1.length = 0.5 := by
    rw [hlenA, hlenB]
    unfold SimilarityCalculator.length_similarity
    rw [show |(2:ℝ) - 1| = 1 by norm_num]
    norm_num [cfgUnit]
  have hang : SimilarityCalculator.angle_similarity cfgUnit lineA2.angle
      lineB1.angle = 1 := by
    rw [hangA, hangB, SimilarityCalculator.angle_similarity_self]
  have hend : SimilarityCalculator.endpoint_similarity cfgUnit lineA2 lineB1 = 0.5 := by
    unfold SimilarityCalculator.endpoint_similarity
    rw [show lineA2.start = (⟨0, 0⟩ : Point) from rfl,
      show lineA2.endp = (⟨2, 0⟩ : Point) from rfl,
      show lineB1.start = (⟨0, 0⟩ : Point) from rfl,
      show lineB1.endp = (⟨1, 0⟩ : Point) from rfl]
    unfold SimilarityCalculator.position_similarity
    rw [distance_horizontal, distance_horizontal, distance_horizontal,
      distance_horizontal, show |(0:ℝ) - 0| = 0 by norm_num,
      show |(2:ℝ) - 1| = 1 by norm_num, show |(0:ℝ) - 1| = 1 by norm_num,
      show |(2:ℝ) - 0| = 2 by norm_num]
    norm_num [cfgUnit]
  refine ⟨?_, ?_, by norm_num⟩
  · rw [SimilarityCalculator.line_geometric_similarity, calcWeights_eq,
      hpos, hlen, hang, hend]
    norm_num
  · rw [hpos, hlen, hang, hend]
    norm_num

/-! ## Claim C10: spatial index insert/query round trip -/

/-- A well-formed element has a well-formed bounding box. -/
theorem getBbox_wf (e : Elem) (he : WfElem e) :
    (getBbox e).x0 ≤ (getBbox e).x1 ∧ (getBbox e).y0 ≤ (getBbox e).y1 := by
  cases e with
  | line l => exact ⟨min_le_max, min_le_max⟩
  | circle c =>
    simp only [WfElem] at he
    constructor <;> simp [getBbox] <;> linarith
  | arc a =>
    obtain ⟨hr, _, _⟩ := he
    constructor <;> simp [getBbox] <;> linarith
  | text t =>
    obtain ⟨hh, _⟩ := he
    have hw : 0 ≤ t.width_estimate := by
      unfold Text.width_estimate
      positivity
    constructor <;> simp [getBbox] <;> linarith

/-- C10: after inserting an element, a `query_nearby` on the same element
with any non-negative tolerance returns the freshly inserted `(id, element)`
pair (its own box intersects its expanded box). -/
theorem C10_insert_then_query_nearby (s : SpatialIndex) (e : Elem) (t : ℝ)
    (he : WfElem e) (ht : 0 ≤ t) :
    ((s.insert e).1, e) ∈ (s.insert e).2.query_nearby e t := by
  unfold SpatialIndex.insert SpatialIndex.query_nearby
  simp only [List.mem_filter]
  constructor
  · exact List.mem_append_right _ (by simp)
  · have hwf := getBbox_wf e he
    refine decide_eq_true ?_
    unfold boxIntersect expandBbox
    refine ⟨?_, ?_, ?_, ?_⟩ <;> simp <;> linarith [hwf.1, hwf.2]

/-- C10 (witness): inserting a unit circle into the empty index and querying
with tolerance 1 returns it. -/
theorem C10_witness :
    WfElem (.circle circleO) ∧ (0 : ℝ) ≤ 1 ∧
    ((SpatialIndex.insert {} (.circle circleO)).1, Elem.circle circleO) ∈
      (SpatialIndex.insert {} (.circle circleO)).2.query_nearby (.circle circleO) 1 := by
  have hwf : WfElem (.circle circleO) := by
    simp [WfElem, circleO]
  exact ⟨hwf, by norm_num,
    C10_insert_then_query_nearby {} (.circle circleO) 1 hwf (by norm_num)⟩

/-! ## Stable sort facts -/

theorem mem_insertSorted {α : Type} (key : α → ℝ) (x y : α) (l : List α) :
    y ∈ insertSorted key x l ↔ y = x ∨ y ∈ l := by
  induction l with
  | nil => simp [insertSorted]
  | cons z zs ih =>
    unfold insertSorted
    split_ifs with h
    · simp [or_comm, or_assoc, or_left_comm]
    · simp [ih, or_comm, or_assoc, or_left_comm]

theorem mem_sortOnKey {α : Type} (key : α → ℝ) (y : α) (l : List α) :
    y ∈ sortOnKey key l ↔ y ∈ l := by
  induction l with
  | nil => simp [sortOnKey]
  | cons z zs ih =>
    unfold sortOnKey
    rw [mem_insertSorted]
    simp [ih]

theorem insertSorted_of_le {α : Type} (key : α → ℝ) (x : α) (l : List α)
    (h : ∀ y ∈ l, key x ≤ key y) : insertSorted key x l = x :: l := by
  cases l with
  | nil => rfl
  | cons z zs =>
    unfold insertSorted
    rw [if_pos (h z (by simp))]

/-- A head whose key is minimal stays in front of a stable sort. -/
theorem sortOnKey_cons_of_min {α : Type} (key : α → ℝ) (x : α) (l : List α)
    (h : ∀ y ∈ l, key x ≤ key y) :
    sortOnKey key (x :: l) = x :: sortOnKey key l := by
  show insertSorted key x (sortOnKey key l) = x :: sortOnKey key l
  exact insertSorted_of_le key x (sortOnKey key l)
    (fun y hy => h y ((mem_sortOnKey key y l).1 hy))

/-! ## Spatial index contents -/

theorem insert_batch_elements (B : List Elem) :
    ∀ s : SpatialIndex,
      (s.insert_batch B).elements = s.elements ++ List.enumFrom s.next_id B := by
  induction B with
  | nil => intro s; simp [SpatialIndex.insert_batch, List.enumFrom]
  | cons e rest ih =>
    intro s
    show ((s.insert e).2.insert_batch rest).elements = _
    rw [ih]
    simp [SpatialIndex.insert, List.enumFrom]

theorem insert_batch_elements_empty (B : List Elem) :
    (SpatialIndex.insert_batch {} B).elements = B.enum := by
  rw [insert_batch_elements]
  simp [List.enum]

/-! ## Matcher similarity: bridges to the calculator's identical helpers -/

namespace ElementMatcher

theorem position_similarity_eq (cfg : ToleranceConfig) (p q : Point) :
    position_similarity cfg p q = SimilarityCalculator.position_similarity cfg p q :=
  rfl

theorem length_similarity_eq (cfg : ToleranceConfig) (x y : ℝ) :
    length_similarity cfg x y = SimilarityCalculator.length_similarity cfg x y :=
  rfl

theorem angle_similarity_eq (cfg : ToleranceConfig) (x y : ℝ) :
    angle_similarity cfg x y = SimilarityCalculator.angle_similarity cfg x y :=
  rfl

theorem endpoint_similarity_eq (cfg : ToleranceConfig) (la lb : Line) :
    endpoint_similarity cfg la lb = SimilarityCalculator.endpoint_similarity cfg la lb :=
  rfl

/-- The matcher's text-content similarity is 1 on equal contents and always
lies in `[0, 1]`. -/
theorem matcher_text_content_self (s : String) :
    text_content_similarity s s = 1 := by
  simp [text_content_similarity]

theorem matcher_text_content_mem (sa sb : String) :
    0 ≤ text_content_similarity sa sb ∧ text_content_similarity sa sb ≤ 1 := by
  unfold text_content_similarity
  dsimp only
  split_ifs with h1 h2 h3 h4
  · norm_num
  · norm_num
  · norm_num
  · norm_num
  · constructor
    · positivity
    · have hsub : ((sa.trim.toLower.data.toFinset ∩ sb.trim.toLower.data.toFinset).card : ℝ) ≤
          ((sa.trim.toLower.data.toFinset ∪ sb.trim.toLower.data.toFinset).card : ℝ) := by
        exact_mod_cast Finset.card_le_card Finset.inter_subset_union
      rw [div_le_one (by exact_mod_cast Nat.pos_of_ne_zero h4)]
      exact hsub

/-- The matcher's per-type similarity of an element with itself is exactly 1
(positive tolerances keep the Python division defined). -/
theorem calc_similarity_self (cfg : ToleranceConfig) (hP : 0 < cfg.position)
    (e : Elem) : calc_similarity cfg e e = 1 := by
  cases e with
  | line l =>
    show line_similarity cfg l l = 1
    unfold line_similarity
    rw [position_similarity_eq, length_similarity_eq, angle_similarity_eq,
      endpoint_similarity_eq, SimilarityCalculator.position_similarity_self,
      SimilarityCalculator.length_similarity_self,
      SimilarityCalculator.angle_similarity_self,
      SimilarityCalculator.endpoint_similarity_self cfg hP.le]
    norm_num
  | circle c =>
    show circle_similarity cfg c c = 1
    unfold circle_similarity
    rw [position_similarity_eq, SimilarityCalculator.position_similarity_self]
    norm_num
  | arc a =>
    show arc_similarity cfg a a = 1
    unfold arc_similarity arc_angle_similarity
    rw [position_similarity_eq, SimilarityCalculator.position_similarity_self,
      length_similarity_eq, SimilarityCalculator.length_similarity_self,
      angle_similarity_eq, angle_similarity_eq,
      SimilarityCalculator.angle_similarity_self,
      SimilarityCalculator.angle_similarity_self]
    norm_num
  | text t =>
    show text_similarity cfg t t = 1
    unfold text_similarity
    rw [position_similarity_eq, SimilarityCalculator.position_similarity_self,
      matcher_text_content_self]
    norm_num

/-- The matcher's per-type similarity never exceeds 1 for well-formed
elements under positive tolerances. -/
theorem calc_similarity_le_one (cfg : ToleranceConfig) (hP : 0 < cfg.position)
    (hL : 0 < cfg.length_ratio) (hA : 0 < cfg.angle)
    (hR : 0 < cfg.radius_tolerance) (a b : Elem) (ha : WfElem a) (hb : WfElem b) :
    calc_similarity cfg a b ≤ 1 := by
  cases a with
  | line la =>
    cases b with
    | line lb =>
      show line_similarity cfg la lb ≤ 1
      unfold line_similarity
      rw [position_similarity_eq, length_similarity_eq, angle_similarity_eq,
        endpoint_similarity_eq]
      obtain ⟨p0, p1⟩ := SimilarityCalculator.position_similarity_mem cfg hP
        (element_center (.line la)) (element_center (.line lb))
      obtain ⟨l0, l1⟩ := SimilarityCalculator.length_similarity_mem cfg hL
        (show (0:ℝ) ≤ la.length from distance_nonneg _ _)
        (show (0:ℝ) ≤ lb.length from distance_nonneg _ _)
      obtain ⟨a0, a1⟩ := SimilarityCalculator.angle_similarity_mem cfg hA
        (show |la.angle - lb.angle| ≤ 2 * Real.pi from abs_atan2_sub_le _ _ _ _)
      obtain ⟨e0, e1⟩ := SimilarityCalculator.endpoint_similarity_mem cfg hP la lb
      nlinarith
    | circle _ => show (0:ℝ) ≤ 1; norm_num
    | arc _ => show (0:ℝ) ≤ 1; norm_num
    | text _ => show (0:ℝ) ≤ 1; norm_num
  | circle ca =>
    cases b with
    | circle cb =>
      show circle_similarity cfg ca cb ≤ 1
      unfold circle_similarity
      rw [position_similarity_eq]
      obtain ⟨p0, p1⟩ := SimilarityCalculator.position_similarity_mem cfg hP
        ca.center cb.center
      have hr0 : (0:ℝ) ≤ max 0 (1 - |ca.radius - cb.radius| / cfg.radius_tolerance) :=
        le_max_left _ _
      have hr1 : max 0 (1 - |ca.radius - cb.radius| / cfg.radius_tolerance) ≤ 1 :=
        falloff_le_one _ _ (abs_nonneg _) hR
      nlinarith
    | line _ => show (0:ℝ) ≤ 1; norm_num
    | arc _ => show (0:ℝ) ≤ 1; norm_num
    | text _ => show (0:ℝ) ≤ 1; norm_num
  | arc aa =>
    cases b with
    | arc ab =>
      show arc_similarity cfg aa ab ≤ 1
      unfold arc_similarity arc_angle_similarity
      rw [position_similarity_eq, length_similarity_eq, angle_similarity_eq,
        angle_similarity_eq]
      obtain ⟨p0, p1⟩ := SimilarityCalculator.position_similarity_mem cfg hP
        aa.center ab.center
      have hr0 : (0:ℝ) ≤ max 0 (1 - |aa.radius - ab.radius| / cfg.radius_tolerance) :=
        le_max_left _ _
      have hr1 : max 0 (1 - |aa.radius - ab.radius| / cfg.radius_tolerance) ≤ 1 :=
        falloff_le_one _ _ (abs_nonneg _) hR
      obtain ⟨l0, l1⟩ := SimilarityCalculator.length_similarity_mem cfg hL
        (arc_length_nonneg aa ha.1 ha.2.1 ha.2.2)
        (arc_length_nonneg ab hb.1 hb.2.1 hb.2.2)
      obtain ⟨s0, s1⟩ := SimilarityCalculator.angle_similarity_mem cfg hA
        (abs_sub_le_two_pi ha.2.1 hb.2.1)
      obtain ⟨e0, e1⟩ := SimilarityCalculator.angle_similarity_mem cfg hA
        (abs_sub_le_two_pi ha.2.2 hb.2.2)
      nlinarith
    | line _ => show (0:ℝ) ≤ 1; norm_num
    | circle _ => show (0:ℝ) ≤ 1; norm_num
    | text _ => show (0:ℝ) ≤ 1; norm_num
  | text ta =>
    cases b with
    | text tb =>
      show text_similarity cfg ta tb ≤ 1
      unfold text_similarity
      rw [position_similarity_eq]
      obtain ⟨p0, p1⟩ := SimilarityCalculator.position_similarity_mem cfg hP
        ta.position tb.position
      obtain ⟨c0, c1⟩ := matcher_text_content_mem ta.content tb.content
      have hh : 0 < ta.height * 0.2 := by
        have := ha.1
        nlinarith
      have ht0 : (0:ℝ) ≤ max 0 (1 - |ta.height - tb.height| / (ta.height * 0.2)) :=
        le_max_left _ _
      have ht1 : max 0 (1 - |ta.height - tb.height| / (ta.height * 0.2)) ≤ 1 :=
        falloff_le_one _ _ (abs_nonneg _) hh
      nlinarith
    | line _ => show (0:ℝ) ≤ 1; norm_num
    | circle _ => show (0:ℝ) ≤ 1; norm_num
    | arc _ => show (0:ℝ) ≤ 1; norm_num

end ElementMatcher

/-! ## Enumeration and counting toolkit -/

theorem enum_nodup {α : Type} (l : List α) : l.enum.Nodup := by
  have h : (l.enum.map Prod.fst).Nodup := by
    rw [List.enum_map_fst]
    exact List.nodup_range l.length
  exact h.of_map Prod.fst

theorem eq_of_mem_enum {α : Type} (l : List α) (p : ℕ × α) (hp : p ∈ l.enum) :
    ∃ h : p.1 < l.length, p = (p.1, l.get ⟨p.1, h⟩) := by
  obtain ⟨k, hk, hget⟩ := List.mem_iff_getElem.1 hp
  have hk2 : k < l.length := by simpa [List.enum_length] using hk
  rw [List.getElem_enum l k hk] at hget
  obtain rfl := hget.symm
  exact ⟨hk2, by rw [List.get_eq_getElem]⟩

theorem mem_enum_self {α : Type} (l : List α) (i : ℕ) (hi : i < l.length) :
    (i, l.get ⟨i, hi⟩) ∈ l.enum := by
  have h1 : i < l.enum.length := by simpa [List.enum_length] using hi
  have h3 : l.enum.get ⟨i, h1⟩ = (i, l.get ⟨i, hi⟩) := by
    simp [List.get_eq_getElem, List.getElem_enum]
  rw [← h3]
  exact List.get_mem _ _ _

theorem countP_congr_fun {α : Type} (p q : α → Bool) :
    ∀ l : List α, (∀ x ∈ l, p x = q x) → l.countP p = l.countP q := by
  intro l
  induction l with
  | nil => intro _; simp
  | cons x xs ih =>
    intro h
    rw [List.countP_cons, List.countP_cons,
      ih (fun y hy => h y (List.mem_cons_of_mem x hy)),
      h x (List.mem_cons_self x xs)]

theorem countP_eq_ite_of_nodup {α : Type} [DecidableEq α] (v : α) :
    ∀ l : List α, l.Nodup →
      l.countP (fun x => decide (x = v)) = if v ∈ l then 1 else 0 := by
  intro l
  induction l with
  | nil => intro _; simp
  | cons x xs ih =>
    intro hnd
    rw [List.countP_cons, ih hnd.of_cons]
    by_cases hv : x = v
    · subst hv
      have hx : x ∉ xs := (List.nodup_cons.1 hnd).1
      simp [hx]
    · have hvx : ¬ v = x := fun h => hv h.symm
      simp [hv, hvx]

theorem foldl_preserve {α β : Type} (f : β → α → β) (P : β → Prop) (Q : α → Prop)
    (hstep : ∀ acc x, P acc → Q x → P (f acc x)) :
    ∀ (l : List α) (acc : β), (∀ x ∈ l, Q x) → P acc → P (l.foldl f acc) := by
  intro l
  induction l with
  | nil => intro acc _ h; exact h
  | cons x xs ih =>
    intro acc hQ hP
    exact ih (f acc x) (fun y hy => hQ y (List.mem_cons_of_mem x hy))
      (hstep acc x hP (hQ x (List.mem_cons_self x xs)))

/-! ## The greedy matcher consumes indices exactly once -/

/-- Every candidate delivered by `_get_candidates` is one of `B`'s
enumerated entries whose index is still unconsumed. -/
theorem get_candidates_mem (cfg : ToleranceConfig) (a : Elem) (B : List Elem)
    (mb : Finset ℕ) (je : ℕ × Elem)
    (h : je ∈ ElementMatcher.get_candidates cfg a B mb) :
    je ∈ B.enum ∧ je.1 ∉ mb := by
  unfold ElementMatcher.get_candidates at h
  dsimp only at h
  have hTF : je ∈ ((SpatialIndex.insert_batch {} B).query_nearby a
      cfg.max_search_radius).filter
      (fun je => decide (sameType je.2 a) && decide (je.1 ∉ mb)) := by
    by_cases hc : cfg.max_candidates_per_element <
        (((SpatialIndex.insert_batch {} B).query_nearby a
          cfg.max_search_radius).filter
          (fun je => decide (sameType je.2 a) && decide (je.1 ∉ mb))).length
    · rw [if_pos hc] at h
      exact (mem_sortOnKey _ _ _).1 (List.mem_of_mem_take h)
    · rwa [if_neg hc] at h
  rw [List.mem_filter] at hTF
  obtain ⟨hq, hp⟩ := hTF
  rw [Bool.and_eq_true, decide_eq_true_eq, decide_eq_true_eq] at hp
  unfold SpatialIndex.query_nearby at hq
  dsimp only at hq
  rw [List.mem_filter] at hq
  obtain ⟨hq1, _⟩ := hq
  rw [insert_batch_elements_empty] at hq1
  exact ⟨hq1, hp.2⟩

/-- Every match returned by `_find_best_match` pairs the queried element with
a fresh enumerated entry of `B`. -/
theorem find_best_match_spec (cfg : ToleranceConfig) (i : ℕ) (a : Elem)
    (B : List Elem) (mb : Finset ℕ) (m : ElementMatcher.MatchResult)
    (h : ElementMatcher.find_best_match cfg i a B mb = some m) :
    m.element_a = (i, a) ∧ m.element_b ∈ B.enum ∧ m.element_b.1 ∉ mb := by
  unfold ElementMatcher.find_best_match at h
  dsimp only at h
  refine foldl_preserve _
    (fun acc : Option ElementMatcher.MatchResult × ℝ =>
      ∀ m0, acc.1 = some m0 →
      m0.element_a = (i, a) ∧ m0.element_b ∈ B.enum ∧ m0.element_b.1 ∉ mb)
    (fun je => je ∈ B.enum ∧ je.1 ∉ mb)
    ?_ _ _ (fun je hje => get_candidates_mem cfg a B mb je hje) ?_ m h
  · intro acc je hPacc hQje
    unfold ElementMatcher.fbmStep
    dsimp only
    intro m0 h0
    by_cases h1 : je.1 ∈ mb
    · rw [if_pos h1] at h0
      exact hPacc m0 h0
    · rw [if_neg h1] at h0
      by_cases h2 : acc.2 < ElementMatcher.calc_similarity cfg a je.2 ∧
          cfg.similarity_threshold ≤ ElementMatcher.calc_similarity cfg a je.2
      · rw [if_pos h2] at h0
        obtain rfl := Option.some.inj h0
        exact ⟨rfl, hQje.1, hQje.2⟩
      · rw [if_neg h2] at h0
        exact hPacc m0 h0
  · intro m0 h0
    exact Option.noConfusion h0

/-- Invariants of the greedy matching loop: the `A` sides of the produced
matches extend the accumulator by a sublist of the remaining work list, every
`B` side is an enumerated entry of `B`, and the consumed `B` indices stay
pairwise distinct. -/
theorem matchFold_spec (cfg : ToleranceConfig) (B : List Elem) :
    ∀ (l : List (ℕ × Elem)) (ms : List ElementMatcher.MatchResult)
      (mb : Finset ℕ),
      (∀ m ∈ ms, m.element_b ∈ B.enum ∧ m.element_b.1 ∈ mb) →
      (ms.map (fun m => m.element_b.1)).Nodup →
      (∃ S, (ElementMatcher.matchFold cfg B l ms mb).map (fun m => m.element_a) =
          ms.map (fun m => m.element_a) ++ S ∧ List.Sublist S l) ∧
      (∀ m ∈ ElementMatcher.matchFold cfg B l ms mb, m.element_b ∈ B.enum) ∧
      ((ElementMatcher.matchFold cfg B l ms mb).map
        (fun m => m.element_b.1)).Nodup := by
  intro l
  induction l with
  | nil =>
    intro ms mb hmsB hnd
    refine ⟨⟨[], by simp [ElementMatcher.matchFold], List.nil_sublist _⟩, ?_, ?_⟩
    · intro m hm
      exact (hmsB m hm).1
    · exact hnd
  | cons ia rest ih =>
    intro ms mb hmsB hnd
    cases hfb : ElementMatcher.find_best_match cfg ia.1 ia.2 B mb with
    | none =>
      have hstep : ElementMatcher.matchFold cfg B (ia :: rest) ms mb =
          ElementMatcher.matchFold cfg B rest ms mb := by
        simp [ElementMatcher.matchFold, hfb]
      rw [hstep]
      obtain ⟨⟨S, hS, hsub⟩, h2, h3⟩ := ih ms mb hmsB hnd
      exact ⟨⟨S, hS, hsub.cons ia⟩, h2, h3⟩
    | some best =>
      obtain ⟨hba, hbB, hbmb⟩ := find_best_match_spec cfg ia.1 ia.2 B mb best hfb
      by_cases hth : cfg.similarity_threshold ≤ best.similarity
      · have hstep : ElementMatcher.matchFold cfg B (ia :: rest) ms mb =
            ElementMatcher.matchFold cfg B rest (ms ++ [best])
              (insert best.element_b.1 mb) := by
          simp [ElementMatcher.matchFold, hfb, hth]
        rw [hstep]
        have hmsB2 : ∀ m ∈ ms ++ [best], m.element_b ∈ B.enum ∧
            m.element_b.1 ∈ insert best.element_b.1 mb := by
          intro m hm
          rcases List.mem_append.1 hm with hm | hm
          · exact ⟨(hmsB m hm).1, Finset.mem_insert_of_mem (hmsB m hm).2⟩
          · have hmb : m = best := by simpa using hm
            subst hmb
            exact ⟨hbB, Finset.mem_insert_self _ _⟩
        have hnd2 : ((ms ++ [best]).map (fun m => m.element_b.1)).Nodup := by
          rw [List.map_append]
          refine hnd.append (by simp) ?_
          intro x hx hx2
          have hxb : x = best.element_b.1 := by simpa using hx2
          subst hxb
          obtain ⟨m, hm, hm1⟩ := List.mem_map.1 hx
          exact hbmb (hm1 ▸ (hmsB m hm).2)
        obtain ⟨⟨S, hS, hsub⟩, h2, h3⟩ := ih (ms ++ [best])
          (insert best.element_b.1 mb) hmsB2 hnd2
        refine ⟨⟨ia :: S, ?_, hsub.cons₂ ia⟩, h2, h3⟩
        rw [hS, List.map_append]
        have hba2 : best.element_a = ia := hba.trans Prod.mk.eta
        simp [hba2]
      · have hstep : ElementMatcher.matchFold cfg B (ia :: rest) ms mb =
            ElementMatcher.matchFold cfg B rest ms mb := by
          simp [ElementMatcher.matchFold, hfb, hth]
        rw [hstep]
        obtain ⟨⟨S, hS, hsub⟩, h2, h3⟩ := ih ms mb hmsB hnd
        exact ⟨⟨S, hS, hsub.cons ia⟩, h2, h3⟩

/-- The matches of one `match_elements` run: the `A` sides form a sublist of
`A.enum`, the `B` sides are enumerated entries of `B` with pairwise distinct
indices. -/
theorem match_elements_core_spec (cfg : ToleranceConfig) (A B : List Elem) :
    List.Sublist ((ElementMatcher.match_elements_core cfg A B).map
        (fun m => m.element_a)) A.enum ∧
    (∀ m ∈ ElementMatcher.match_elements_core cfg A B, m.element_b ∈ B.enum) ∧
    ((ElementMatcher.match_elements_core cfg A B).map
      (fun m => m.element_b.1)).Nodup := by
  obtain ⟨⟨S, hS, hsub⟩, h2, h3⟩ := matchFold_spec cfg B A.enum [] ∅
    (by simp) (by simp)
  refine ⟨?_, h2, h3⟩
  show List.Sublist ((ElementMatcher.matchFold cfg B A.enum [] ∅).map
    (fun m => m.element_a)) A.enum
  rw [hS]
  simpa using hsub

/-- `_analyze_modification` reports the matched pair's `A` side unchanged. -/
theorem analyze_element_a (cfg : ToleranceConfig)
    (m : ElementMatcher.MatchResult) :
    (DiffDetector.analyze_modification cfg m).element_a = some m.element_a := by
  unfold DiffDetector.analyze_modification
  dsimp only
  split_ifs <;> rfl

/-- `_analyze_modification` reports the matched pair's `B` side unchanged. -/
theorem analyze_element_b (cfg : ToleranceConfig)
    (m : ElementMatcher.MatchResult) :
    (DiffDetector.analyze_modification cfg m).element_b = some m.element_b := by
  unfold DiffDetector.analyze_modification
  dsimp only
  split_ifs <;> rfl

/-- Matched plus deleted records mention each position of `A` exactly once. -/
theorem countA_matched_deleted (cfg : ToleranceConfig) (A : List Elem)
    (mlist : List ElementMatcher.MatchResult)
    (hsub : List.Sublist (mlist.map (fun m => m.element_a)) A.enum)
    (i : ℕ) (hi : i < A.length) :
    (mlist.map (DiffDetector.analyze_modification cfg)).countP
        (fun d => decide (d.element_a = some (i, A.get ⟨i, hi⟩))) +
      ((A.enum.filter (fun ia => decide (ia.1 ∉
          (mlist.map (fun m => m.element_a.1)).toFinset))).map
          DiffDetector.deletedDetail).countP
        (fun d => decide (d.element_a = some (i, A.get ⟨i, hi⟩))) = 1 := by
  have hndL : (mlist.map (fun m => m.element_a)).Nodup :=
    (enum_nodup A).sublist hsub
  have h1 : (mlist.map (DiffDetector.analyze_modification cfg)).countP
      (fun d => decide (d.element_a = some (i, A.get ⟨i, hi⟩))) =
      (mlist.map (fun m => m.element_a)).countP
        (fun x => decide (x = (i, A.get ⟨i, hi⟩))) := by
    rw [List.countP_map, List.countP_map]
    apply countP_congr_fun
    intro m _
    simp only [Function.comp_apply]
    rw [analyze_element_a]
    exact decide_eq_decide.2 (by simp)
  have h2 : ((A.enum.filter (fun ia => decide (ia.1 ∉
        (mlist.map (fun m => m.element_a.1)).toFinset))).map
        DiffDetector.deletedDetail).countP
      (fun d => decide (d.element_a = some (i, A.get ⟨i, hi⟩))) =
      A.enum.countP (fun x => decide (x = (i, A.get ⟨i, hi⟩)) &&
        decide (x.1 ∉ (mlist.map (fun m => m.element_a.1)).toFinset)) := by
    rw [List.countP_map, List.countP_filter]
    apply countP_congr_fun
    intro x _
    simp only [Function.comp_apply]
    congr 1
    rw [show (DiffDetector.deletedDetail x).element_a = some x from rfl]
    exact decide_eq_decide.2 (by simp)
  rw [h1, h2]
  by_cases hmem : i ∈ (mlist.map (fun m => m.element_a.1)).toFinset
  · have hvL : (i, A.get ⟨i, hi⟩) ∈ mlist.map (fun m => m.element_a) := by
      rw [List.mem_toFinset] at hmem
      obtain ⟨m, hm, hm1⟩ := List.mem_map.1 hmem
      have hx : m.element_a ∈ mlist.map (fun m => m.element_a) :=
        List.mem_map_of_mem _ hm
      obtain ⟨hlt, hxeq⟩ := eq_of_mem_enum A m.element_a (hsub.subset hx)
      subst hm1
      have hx2 : (m.element_a.1, A.get ⟨m.element_a.1, hi⟩) = m.element_a :=
        hxeq.symm
      rw [hx2]
      exact hx
    rw [countP_eq_ite_of_nodup _ _ hndL, if_pos hvL]
    have hz : A.enum.countP (fun x => decide (x = (i, A.get ⟨i, hi⟩)) &&
        decide (x.1 ∉ (mlist.map (fun m => m.element_a.1)).toFinset)) = 0 := by
      apply List.countP_eq_zero.2
      intro x _ hcontra
      rw [Bool.and_eq_true, decide_eq_true_eq, decide_eq_true_eq] at hcontra
      obtain ⟨hx1, hx2⟩ := hcontra
      apply hx2
      rw [hx1]
      exact hmem
    rw [hz]
  · have hvL : (i, A.get ⟨i, hi⟩) ∉ mlist.map (fun m => m.element_a) := by
      intro hv
      apply hmem
      rw [List.mem_toFinset]
      have hfst : ((i, A.get ⟨i, hi⟩) : ℕ × Elem).1 ∈
          (mlist.map (fun m => m.element_a)).map Prod.fst :=
        List.mem_map_of_mem Prod.fst hv
      rw [List.map_map] at hfst
      exact hfst
    rw [countP_eq_ite_of_nodup _ _ hndL, if_neg hvL]
    have hq : A.enum.countP (fun x => decide (x = (i, A.get ⟨i, hi⟩)) &&
        decide (x.1 ∉ (mlist.map (fun m => m.element_a.1)).toFinset)) =
        A.enum.countP (fun x => decide (x = (i, A.get ⟨i, hi⟩))) := by
      apply countP_congr_fun
      intro x _
      by_cases hx : x = (i, A.get ⟨i, hi⟩)
      · subst hx
        simp [hmem]
      · rw [decide_eq_false hx, Bool.false_and]
    rw [hq, countP_eq_ite_of_nodup _ _ (enum_nodup A),
      if_pos (mem_enum_self A i hi)]

/-- Matched plus added records mention each position of `B` exactly once. -/
theorem countB_matched_added (cfg : ToleranceConfig) (B : List Elem)
    (mlist : List ElementMatcher.MatchResult)
    (hmemB : ∀ m ∈ mlist, m.element_b ∈ B.enum)
    (hndB : (mlist.map (fun m => m.element_b.1)).Nodup)
    (j : ℕ) (hj : j < B.length) :
    (mlist.map (DiffDetector.analyze_modification cfg)).countP
        (fun d => decide (d.element_b = some (j, B.get ⟨j, hj⟩))) +
      ((B.enum.filter (fun ib => decide (ib.1 ∉
          (mlist.map (fun m => m.element_b.1)).toFinset))).map
          DiffDetector.addedDetail).countP
        (fun d => decide (d.element_b = some (j, B.get ⟨j, hj⟩))) = 1 := by
  have hndL : (mlist.map (fun m => m.element_b)).Nodup := by
    have h : ((mlist.map (fun m => m.element_b)).map Prod.fst).Nodup := by
      rw [List.map_map]
      exact hndB
    exact h.of_map Prod.fst
  have h1 : (mlist.map (DiffDetector.analyze_modification cfg)).countP
      (fun d => decide (d.element_b = some (j, B.get ⟨j, hj⟩))) =
      (mlist.map (fun m => m.element_b)).countP
        (fun x => decide (x = (j, B.get ⟨j, hj⟩))) := by
    rw [List.countP_map, List.countP_map]
    apply countP_congr_fun
    intro m _
    simp only [Function.comp_apply]
    rw [analyze_element_b]
    exact decide_eq_decide.2 (by simp)
  have h2 : ((B.enum.filter (fun ib => decide (ib.1 ∉
        (mlist.map (fun m => m.element_b.1)).toFinset))).map
        DiffDetector.addedDetail).countP
      (fun d => decide (d.element_b = some (j, B.get ⟨j, hj⟩))) =
      B.enum.countP (fun x => decide (x = (j, B.get ⟨j, hj⟩)) &&
        decide (x.1 ∉ (mlist.map (fun m => m.element_b.1)).toFinset)) := by
    rw [List.countP_map, List.countP_filter]
    apply countP_congr_fun
    intro x _
    simp only [Function.comp_apply]
    congr 1
    rw [show (DiffDetector.addedDetail x).element_b = some x from rfl]
    exact decide_eq_decide.2 (by simp)
  rw [h1, h2]
  by_cases hmem : j ∈ (mlist.map (fun m => m.element_b.1)).toFinset
  · have hvL : (j, B.get ⟨j, hj⟩) ∈ mlist.map (fun m => m.element_b) := by
      rw [List.mem_toFinset] at hmem
      obtain ⟨m, hm, hm1⟩ := List.mem_map.1 hmem
      have hx : m.element_b ∈ mlist.map (fun m => m.element_b) :=
        List.mem_map_of_mem _ hm
      obtain ⟨hlt, hxeq⟩ := eq_of_mem_enum B m.element_b (hmemB m hm)
      subst hm1
      have hx2 : (m.element_b.1, B.get ⟨m.element_b.1, hj⟩) = m.element_b :=
        hxeq.symm
      rw [hx2]
      exact hx
    rw [countP_eq_ite_of_nodup _ _ hndL, if_pos hvL]
    have hz : B.enum.countP (fun x => decide (x = (j, B.get ⟨j, hj⟩)) &&
        decide (x.1 ∉ (mlist.map (fun m => m.element_b.1)).toFinset)) = 0 := by
      apply List.countP_eq_zero.2
      intro x _ hcontra
      rw [Bool.and_eq_true, decide_eq_true_eq, decide_eq_true_eq] at hcontra
      obtain ⟨hx1, hx2⟩ := hcontra
      apply hx2
      rw [hx1]
      exact hmem
    rw [hz]
  · have hvL : (j, B.get ⟨j, hj⟩) ∉ mlist.map (fun m => m.element_b) := by
      intro hv
      apply hmem
      rw [List.mem_toFinset]
      have hfst : ((j, B.get ⟨j, hj⟩) : ℕ × Elem).1 ∈
          (mlist.map (fun m => m.element_b)).map Prod.fst :=
        List.mem_map_of_mem Prod.fst hv
      rw [List.map_map] at hfst
      exact hfst
    rw [countP_eq_ite_of_nodup _ _ hndL, if_neg hvL]
    have hq : B.enum.countP (fun x => decide (x = (j, B.get ⟨j, hj⟩)) &&
        decide (x.1 ∉ (mlist.map (fun m => m.element_b.1)).toFinset)) =
        B.enum.countP (fun x => decide (x = (j, B.get ⟨j, hj⟩))) := by
      apply countP_congr_fun
      intro x _
      by_cases hx : x = (j, B.get ⟨j, hj⟩)
      · subst hx
        simp [hmem]
      · rw [decide_eq_false hx, Bool.false_and]
    rw [hq, countP_eq_ite_of_nodup _ _ (enum_nodup B),
      if_pos (mem_enum_self B j hj)]

/-- C1: diff completeness.  For valid (positive) tolerances and well-formed
elements — the regime where the Python pipeline runs without a
`ZeroDivisionError` — every position of `A` is mentioned as `element_a` by
exactly one `DifferenceDetail` (a deleted record or one side of a
modified/unchanged record), and every position of `B` is mentioned as
`element_b` by exactly one record (added, or one side of
modified/unchanged). -/
theorem C1_diff_completeness (cfg : ToleranceConfig) (A B : List Elem)
    (t0 t1 : ℝ) (hP : 0 < cfg.position) (hL : 0 < cfg.length_ratio)
    (hA : 0 < cfg.angle) (hR : 0 < cfg.radius_tolerance)
    (hwfA : ∀ e ∈ A, WfElem e) (hwfB : ∀ e ∈ B, WfElem e) :
    (∀ i (hi : i < A.length),
      (DiffDetector.detect_differences cfg A B t0 t1).1.countP
        (fun d => decide (d.element_a = some (i, A.get ⟨i, hi⟩))) = 1) ∧
    (∀ j (hj : j < B.length),
      (DiffDetector.detect_differences cfg A B t0 t1).1.countP
        (fun d => decide (d.element_b = some (j, B.get ⟨j, hj⟩))) = 1) := by
  obtain ⟨hsubA, hmemB, hndB⟩ := match_elements_core_spec cfg A B
  have hfst : (DiffDetector.detect_differences cfg A B t0 t1).1 =
      (ElementMatcher.match_elements_core cfg A B).map
        (DiffDetector.analyze_modification cfg) ++
      (A.enum.filter (fun ia => decide (ia.1 ∉
        ((ElementMatcher.match_elements_core cfg A B).map
          (fun m => m.element_a.1)).toFinset))).map
        DiffDetector.deletedDetail ++
      (B.enum.filter (fun ib => decide (ib.1 ∉
        ((ElementMatcher.match_elements_core cfg A B).map
          (fun m => m.element_b.1)).toFinset))).map
        DiffDetector.addedDetail := rfl
  constructor
  · intro i hi
    rw [hfst, List.countP_append, List.countP_append]
    have h3 : ((B.enum.filter (fun ib => decide (ib.1 ∉
        ((ElementMatcher.match_elements_core cfg A B).map
          (fun m => m.element_b.1)).toFinset))).map
        DiffDetector.addedDetail).countP
        (fun d => decide (d.element_a = some (i, A.get ⟨i, hi⟩))) = 0 := by
      apply List.countP_eq_zero.2
      intro d hd
      obtain ⟨ib, _, rfl⟩ := List.mem_map.1 hd
      simp [DiffDetector.addedDetail]
    rw [h3, Nat.add_zero]
    exact countA_matched_deleted cfg A
      (ElementMatcher.match_elements_core cfg A B) hsubA i hi
  · intro j hj
    rw [hfst, List.countP_append, List.countP_append]
    have h2 : ((A.enum.filter (fun ia => decide (ia.1 ∉
        ((ElementMatcher.match_elements_core cfg A B).map
          (fun m => m.element_a.1)).toFinset))).map
        DiffDetector.deletedDetail).countP
        (fun d => decide (d.element_b = some (j, B.get ⟨j, hj⟩))) = 0 := by
      apply List.countP_eq_zero.2
      intro d hd
      obtain ⟨ia, _, rfl⟩ := List.mem_map.1 hd
      simp [DiffDetector.deletedDetail]
    rw [h2, Nat.add_zero]
    exact countB_matched_added cfg B
      (ElementMatcher.match_elements_core cfg A B) hmemB hndB j hj

/-- C1 witness: with unit tolerances, `A` a single segment and `B` empty, the
single position of `A` is mentioned exactly once as `element_a`. -/
theorem C1_witness :
    (0 : ℝ) < cfgUnit.position ∧
    (DiffDetector.detect_differences cfgUnit [Elem.line lineB1] [] 0 0).1.countP
      (fun d => decide (d.element_a = some (0, Elem.line lineB1))) = 1 := by
  constructor
  · norm_num [cfgUnit]
  · have h := (C1_diff_completeness cfgUnit [Elem.line lineB1] [] 0 0
      (by norm_num [cfgUnit]) (by norm_num [cfgUnit]) (by norm_num [cfgUnit])
      (by norm_num [cfgUnit])
      (by
        intro e he
        have he2 : e = Elem.line lineB1 := by simpa using he
        subst he2
        trivial)
      (by intro e he; simp at he)).1 0 (by norm_num)
    simpa using h

/-! ## The aligned run: matching a list against itself -/

theorem foldl_frozen {α β : Type} (f : β → α → β) (Q : α → Prop) (acc0 : β)
    (hstep : ∀ x, Q x → f acc0 x = acc0) :
    ∀ T : List α, (∀ x ∈ T, Q x) → T.foldl f acc0 = acc0 := by
  intro T
  induction T with
  | nil => intro _; rfl
  | cons x xs ih =>
    intro hQ
    rw [List.foldl_cons, hstep x (hQ x (List.mem_cons_self x xs))]
    exact ih (fun y hy => hQ y (List.mem_cons_of_mem x hy))

/-- Querying element `k` of `L` against the index of `L` itself with the
first `k` indices consumed: the head candidate is `(k, L[k])` (its index is
the smallest unconsumed one, its distance key `0` is minimal, and the
truncation keeps at least one candidate). -/
theorem get_candidates_self_head (cfg : ToleranceConfig) (L : List Elem)
    (hmsr : 0 ≤ cfg.max_search_radius)
    (hmc : 1 ≤ cfg.max_candidates_per_element)
    (hwf : ∀ e ∈ L, WfElem e) (k : ℕ) (hk : k < L.length) :
    ∃ T : List (ℕ × Elem),
      ElementMatcher.get_candidates cfg (L.get ⟨k, hk⟩) L (Finset.range k) =
        (k, L.get ⟨k, hk⟩) :: T ∧ ∀ t ∈ T, t ∈ L.enum := by
  have hk2 : k < L.enum.length := by simpa [List.enum_length] using hk
  have hdropk : L.enum.drop k = (k, L.get ⟨k, hk⟩) :: L.enum.drop (k + 1) := by
    rw [List.drop_eq_getElem_cons hk2]
    congr 1
    rw [List.getElem_enum]
    rw [List.get_eq_getElem]
  have hcombk : ((decide (sameType ((k, L.get ⟨k, hk⟩) : ℕ × Elem).2
        (L.get ⟨k, hk⟩)) &&
      decide (((k, L.get ⟨k, hk⟩) : ℕ × Elem).1 ∉ Finset.range k)) &&
      decide (boxIntersect
        (expandBbox (getBbox (L.get ⟨k, hk⟩)) cfg.max_search_radius)
        (getBbox ((k, L.get ⟨k, hk⟩) : ℕ × Elem).2))) = true := by
    simp only [Bool.and_eq_true, decide_eq_true_eq]
    refine ⟨⟨?_, ?_⟩, ?_⟩
    · cases L.get ⟨k, hk⟩ <;> simp [sameType]
    · exact Finset.not_mem_range_self
    · obtain ⟨hx, hy⟩ := getBbox_wf (L.get ⟨k, hk⟩) (hwf _ (List.get_mem L k hk))
      unfold boxIntersect expandBbox
      dsimp only
      refine ⟨by linarith, by linarith, by linarith, by linarith⟩
  have htf : ((SpatialIndex.insert_batch {} L).query_nearby (L.get ⟨k, hk⟩)
      cfg.max_search_radius).filter
      (fun je => decide (sameType je.2 (L.get ⟨k, hk⟩)) &&
        decide (je.1 ∉ Finset.range k)) =
      (k, L.get ⟨k, hk⟩) :: (L.enum.drop (k + 1)).filter
        (fun je => (decide (sameType je.2 (L.get ⟨k, hk⟩)) &&
          decide (je.1 ∉ Finset.range k)) &&
          decide (boxIntersect
            (expandBbox (getBbox (L.get ⟨k, hk⟩)) cfg.max_search_radius)
            (getBbox je.2))) := by
    unfold SpatialIndex.query_nearby
    dsimp only
    rw [insert_batch_elements_empty, List.filter_filter]
    conv_lhs => rw [← List.take_append_drop k L.enum]
    rw [List.filter_append]
    have hpre : (L.enum.take k).filter
        (fun je => (decide (sameType je.2 (L.get ⟨k, hk⟩)) &&
          decide (je.1 ∉ Finset.range k)) &&
          decide (boxIntersect
            (expandBbox (getBbox (L.get ⟨k, hk⟩)) cfg.max_search_radius)
            (getBbox je.2))) = [] := by
      rw [List.filter_eq_nil]
      intro p hp
      have hfstp : p.1 < k := by
        obtain ⟨idx, hidx, hgetp⟩ := List.mem_iff_getElem.1 hp
        have hidx2 : idx < k := lt_of_lt_of_le hidx
          (by rw [List.length_take]; exact min_le_left _ _)
        rw [List.getElem_take] at hgetp
        rw [List.getElem_enum] at hgetp
        rw [← hgetp]
        exact hidx2
      simp only [Bool.and_eq_true, decide_eq_true_eq]
      intro hc
      exact hc.1.2 (Finset.mem_range.2 hfstp)
    rw [hpre, List.nil_append, hdropk, List.filter_cons, if_pos hcombk]
  unfold ElementMatcher.get_candidates
  dsimp only
  rw [htf]
  by_cases hc : cfg.max_candidates_per_element <
      ((k, L.get ⟨k, hk⟩) :: (L.enum.drop (k + 1)).filter
        (fun je => (decide (sameType je.2 (L.get ⟨k, hk⟩)) &&
          decide (je.1 ∉ Finset.range k)) &&
          decide (boxIntersect
            (expandBbox (getBbox (L.get ⟨k, hk⟩)) cfg.max_search_radius)
            (getBbox je.2)))).length
  · rw [if_pos hc]
    have hsort : sortOnKey
        (fun je => (ElementMatcher.element_center je.2).distance_to
          (ElementMatcher.element_center (L.get ⟨k, hk⟩)))
        ((k, L.get ⟨k, hk⟩) :: (L.enum.drop (k + 1)).filter
          (fun je => (decide (sameType je.2 (L.get ⟨k, hk⟩)) &&
            decide (je.1 ∉ Finset.range k)) &&
            decide (boxIntersect
              (expandBbox (getBbox (L.get ⟨k, hk⟩)) cfg.max_search_radius)
              (getBbox je.2)))) =
        (k, L.get ⟨k, hk⟩) :: sortOnKey
          (fun je => (ElementMatcher.element_center je.2).distance_to
            (ElementMatcher.element_center (L.get ⟨k, hk⟩)))
          ((L.enum.drop (k + 1)).filter
            (fun je => (decide (sameType je.2 (L.get ⟨k, hk⟩)) &&
              decide (je.1 ∉ Finset.range k)) &&
              decide (boxIntersect
                (expandBbox (getBbox (L.get ⟨k, hk⟩)) cfg.max_search_radius)
                (getBbox je.2)))) := by
      apply sortOnKey_cons_of_min
      intro y _
      have h0 : (ElementMatcher.element_center
          ((k, L.get ⟨k, hk⟩) : ℕ × Elem).2).distance_to
          (ElementMatcher.element_center (L.get ⟨k, hk⟩)) = 0 := distance_self _
      rw [h0]
      exact distance_nonneg _ _
    rw [hsort]
    obtain ⟨mc, hmc2⟩ : ∃ mc, cfg.max_candidates_per_element = mc + 1 :=
      ⟨cfg.max_candidates_per_element - 1, by omega⟩
    rw [hmc2, List.take_succ_cons]
    refine ⟨_, rfl, ?_⟩
    intro t ht
    have ht2 := (mem_sortOnKey _ _ _).1 (List.mem_of_mem_take ht)
    exact List.mem_of_mem_drop (List.mem_of_mem_filter ht2)
  · rw [if_neg hc]
    refine ⟨_, rfl, ?_⟩
    intro t ht
    exact List.mem_of_mem_drop (List.mem_of_mem_filter ht)

/-- In the aligned run, `_find_best_match` at position `k` returns the exact
self match `(k, L[k]) ↔ (k, L[k])` with similarity `1`. -/
theorem find_best_match_self (cfg : ToleranceConfig) (L : List Elem)
    (hP : 0 < cfg.position) (hL : 0 < cfg.length_ratio) (hA : 0 < cfg.angle)
    (hR : 0 < cfg.radius_tolerance) (hmsr : 0 ≤ cfg.max_search_radius)
    (hth : cfg.similarity_threshold ≤ 1)
    (hmc : 1 ≤ cfg.max_candidates_per_element)
    (hwf : ∀ e ∈ L, WfElem e) (k : ℕ) (hk : k < L.length) :
    ∃ m : ElementMatcher.MatchResult,
      ElementMatcher.find_best_match cfg k (L.get ⟨k, hk⟩) L
        (Finset.range k) = some m ∧
      m.element_a = (k, L.get ⟨k, hk⟩) ∧ m.element_b = (k, L.get ⟨k, hk⟩) ∧
      m.similarity = 1 := by
  obtain ⟨T, hgc, hT⟩ := get_candidates_self_head cfg L hmsr hmc hwf k hk
  have hsim : ElementMatcher.calc_similarity cfg (L.get ⟨k, hk⟩)
      (L.get ⟨k, hk⟩) = 1 :=
    ElementMatcher.calc_similarity_self cfg hP (L.get ⟨k, hk⟩)
  have hacc1 : ElementMatcher.fbmStep cfg k (L.get ⟨k, hk⟩) (Finset.range k)
      (none, 0.0) (k, L.get ⟨k, hk⟩) =
      (some ⟨(k, L.get ⟨k, hk⟩), (k, L.get ⟨k, hk⟩),
          ElementMatcher.calc_similarity cfg (L.get ⟨k, hk⟩) (L.get ⟨k, hk⟩),
          ElementMatcher.determine_match_type cfg
            (ElementMatcher.calc_similarity cfg (L.get ⟨k, hk⟩)
              (L.get ⟨k, hk⟩)),
          ElementMatcher.match_confidence (L.get ⟨k, hk⟩)
            (ElementMatcher.calc_similarity cfg (L.get ⟨k, hk⟩)
              (L.get ⟨k, hk⟩)),
          ElementMatcher.geometric_distance (L.get ⟨k, hk⟩) (L.get ⟨k, hk⟩),
          ElementMatcher.feature_differences (L.get ⟨k, hk⟩)
            (L.get ⟨k, hk⟩)⟩,
        ElementMatcher.calc_similarity cfg (L.get ⟨k, hk⟩) (L.get ⟨k, hk⟩)) := by
    unfold ElementMatcher.fbmStep
    dsimp only
    rw [if_neg (by simpa using Finset.not_mem_range_self)]
    rw [if_pos ⟨by rw [hsim]; norm_num, by rw [hsim]; exact hth⟩]
  have hboundQ : ∀ je : ℕ × Elem, je ∈ L.enum →
      ElementMatcher.calc_similarity cfg (L.get ⟨k, hk⟩) je.2 ≤ 1 := by
    intro je hje
    obtain ⟨hlt, hjeq⟩ := eq_of_mem_enum L je hje
    refine ElementMatcher.calc_similarity_le_one cfg hP hL hA hR _ _
      (hwf _ (List.get_mem L k hk)) ?_
    have hje2 : je.2 ∈ L := by
      rw [hjeq]
      exact List.get_mem L je.1 hlt
    exact hwf _ hje2
  unfold ElementMatcher.find_best_match
  dsimp only
  rw [hgc, List.foldl_cons, hacc1]
  rw [foldl_frozen _ (fun je : ℕ × Elem => je ∈ L.enum) _ ?_ T hT]
  · exact ⟨_, rfl, rfl, rfl, hsim⟩
  · intro je hje
    unfold ElementMatcher.fbmStep
    dsimp only
    by_cases h1 : je.1 ∈ Finset.range k
    · rw [if_pos h1]
    · rw [if_neg h1]
      have hle : ElementMatcher.calc_similarity cfg (L.get ⟨k, hk⟩) je.2 ≤
          ElementMatcher.calc_similarity cfg (L.get ⟨k, hk⟩) (L.get ⟨k, hk⟩) := by
        rw [hsim]
        exact hboundQ je hje
      rw [if_neg (fun hc => absurd hc.1 (not_lt.2 hle))]

/-- The aligned greedy loop: starting at suffix `k` with the first `k`
indices consumed, every remaining element matches itself with similarity
`1`. -/
theorem matchFold_self (cfg : ToleranceConfig) (L : List Elem)
    (hP : 0 < cfg.position) (hL : 0 < cfg.length_ratio) (hA : 0 < cfg.angle)
    (hR : 0 < cfg.radius_tolerance) (hmsr : 0 ≤ cfg.max_search_radius)
    (hth : cfg.similarity_threshold ≤ 1)
    (hmc : 1 ≤ cfg.max_candidates_per_element)
    (hwf : ∀ e ∈ L, WfElem e) :
    ∀ (l : List (ℕ × Elem)) (k : ℕ), l = L.enum.drop k →
      ∀ ms : List ElementMatcher.MatchResult,
      (ElementMatcher.matchFold cfg L l ms (Finset.range k)).map
          (fun m => m.element_a) = ms.map (fun m => m.element_a) ++ l ∧
      (ElementMatcher.matchFold cfg L l ms (Finset.range k)).map
          (fun m => m.element_b) = ms.map (fun m => m.element_b) ++ l ∧
      ∀ m ∈ ElementMatcher.matchFold cfg L l ms (Finset.range k),
        m ∈ ms ∨ m.similarity = 1 := by
  intro l
  induction l with
  | nil =>
    intro k _ ms
    exact ⟨by simp [ElementMatcher.matchFold],
      by simp [ElementMatcher.matchFold], fun m hm => Or.inl hm⟩
  | cons ia rest ih =>
    intro k hl ms
    have hk : k < L.length := by
      by_contra hge
      push_neg at hge
      have hnil : L.enum.drop k = [] :=
        List.drop_eq_nil_of_le (by simpa [List.enum_length] using hge)
      exact absurd (hl.trans hnil) (by simp)
    have hk2 : k < L.enum.length := by simpa [List.enum_length] using hk
    have hdropk : L.enum.drop k = (k, L.get ⟨k, hk⟩) :: L.enum.drop (k + 1) := by
      rw [List.drop_eq_getElem_cons hk2]
      congr 1
      rw [List.getElem_enum]
      rw [List.get_eq_getElem]
    have hsplit := hl.trans hdropk
    have hia1 : ia = (k, L.get ⟨k, hk⟩) := (List.cons.injEq _ _ _ _ ▸ hsplit).1
    have hrest : rest = L.enum.drop (k + 1) := (List.cons.injEq _ _ _ _ ▸ hsplit).2
    subst hia1
    subst hrest
    obtain ⟨m, hfbm, hma, hmb, hms⟩ := find_best_match_self cfg L hP hL hA hR
      hmsr hth hmc hwf k hk
    rw [List.get_eq_getElem] at hfbm
    have hins : insert m.element_b.1 (Finset.range k) = Finset.range (k + 1) := by
      rw [hmb, Finset.range_succ]
    have hth2 : cfg.similarity_threshold ≤ m.similarity := by
      rw [hms]
      exact hth
    have hstep : ElementMatcher.matchFold cfg L
        ((k, L.get ⟨k, hk⟩) :: L.enum.drop (k + 1)) ms (Finset.range k) =
        ElementMatcher.matchFold cfg L (L.enum.drop (k + 1)) (ms ++ [m])
          (Finset.range (k + 1)) := by
      simp [ElementMatcher.matchFold, hfbm, hth2, hins]
    rw [hstep]
    obtain ⟨ih1, ih2, ih3⟩ := ih (k + 1) rfl (ms ++ [m])
    refine ⟨?_, ?_, ?_⟩
    · rw [ih1, List.map_append]
      simp [hma]
    · rw [ih2, List.map_append]
      simp [hmb]
    · intro m0 hm0
      rcases ih3 m0 hm0 with hin | hsim1
      · rcases List.mem_append.1 hin with h | h
        · exact Or.inl h
        · right
          have hm0m : m0 = m := by simpa using h
          rw [hm0m, hms]
      · exact Or.inr hsim1

/-- Matching a list of well-formed elements against itself pairs every
position with itself at similarity `1`. -/
theorem match_core_self (cfg : ToleranceConfig) (L : List Elem)
    (hP : 0 < cfg.position) (hL : 0 < cfg.length_ratio) (hA : 0 < cfg.angle)
    (hR : 0 < cfg.radius_tolerance) (hmsr : 0 ≤ cfg.max_search_radius)
    (hth : cfg.similarity_threshold ≤ 1)
    (hmc : 1 ≤ cfg.max_candidates_per_element)
    (hwf : ∀ e ∈ L, WfElem e) :
    (ElementMatcher.match_elements_core cfg L L).map
        (fun m => m.element_a) = L.enum ∧
    (ElementMatcher.match_elements_core cfg L L).map
        (fun m => m.element_b) = L.enum ∧
    ∀ m ∈ ElementMatcher.match_elements_core cfg L L, m.similarity = 1 := by
  have h := matchFold_self cfg L hP hL hA hR hmsr hth hmc hwf L.enum 0
    (List.drop_zero _).symm []
  rw [Finset.range_zero] at h
  obtain ⟨h1, h2, h3⟩ := h
  refine ⟨by simpa using h1, by simpa using h2, ?_⟩
  intro m hm
  rcases h3 m hm with h | h
  · exact absurd h (by simp)
  · exact h

/-- C2: change-rate bounds.  What holds: the change rate is non-negative,
it equals `(added + deleted + modified) / max(|A|, |B|, 1)`, and it is `0`
when the two inputs are identical (for valid positive tolerances, a
threshold at most `1`, at least one candidate slot, and well-formed
elements).  The claimed upper bound `change_rate ≤ 1` is false: the
denominator is `max(|A|, |B|)` rather than `|A| + |B|`, so disjoint inputs
drive the rate up to `2`. -/
theorem C2_change_rate_bounds (cfg : ToleranceConfig) (A B : List Elem)
    (t0 t1 : ℝ) (hP : 0 < cfg.position) (hL : 0 < cfg.length_ratio)
    (hA : 0 < cfg.angle) (hR : 0 < cfg.radius_tolerance)
    (hmsr : 0 ≤ cfg.max_search_radius) (hth : cfg.similarity_threshold ≤ 1)
    (hmc : 1 ≤ cfg.max_candidates_per_element)
    (hwfA : ∀ e ∈ A, WfElem e) :
    0 ≤ (DiffDetector.detect_differences cfg A B t0 t1).2.change_rate ∧
    (DiffDetector.detect_differences cfg A B t0 t1).2.change_rate =
      (((DiffDetector.detect_differences cfg A B t0 t1).2.added_count +
        (DiffDetector.detect_differences cfg A B t0 t1).2.deleted_count +
        (DiffDetector.detect_differences cfg A B t0 t1).2.modified_count : ℕ) : ℝ) /
        ((max (max A.length B.length) 1 : ℕ) : ℝ) ∧
    (A = B → (DiffDetector.detect_differences cfg A B t0 t1).2.change_rate = 0) := by
  have hstats : (DiffDetector.detect_differences cfg A B t0 t1).2 =
      DiffDetector.calc_statistics A B
        ((DiffDetector.detect_differences cfg A B t0 t1).1) (t1 - t0) := rfl
  refine ⟨?_, ?_, ?_⟩
  · rw [hstats]
    unfold DiffDetector.calc_statistics
    dsimp only
    split_ifs with h
    · positivity
    · norm_num
  · by_cases h : 0 < max A.length B.length
    · rw [hstats]
      unfold DiffDetector.calc_statistics
      dsimp only
      rw [if_pos h, max_eq_left h]
    · obtain ⟨hA0, hB0⟩ := Nat.max_eq_zero_iff.1 (Nat.eq_zero_of_not_pos h)
      have hAnil : A = [] := List.length_eq_zero.1 hA0
      have hBnil : B = [] := List.length_eq_zero.1 hB0
      subst hAnil
      subst hBnil
      have hD : (DiffDetector.detect_differences cfg [] [] t0 t1).1 = [] := rfl
      rw [hstats]
      unfold DiffDetector.calc_statistics
      dsimp only
      rw [hD]
      simp
      norm_num
  · intro hAB
    subst hAB
    obtain ⟨hea, heb, hsim⟩ := match_core_self cfg A hP hL hA hR hmsr hth
      hmc hwfA
    have hfa : A.enum.filter (fun ia => decide (ia.1 ∉
        ((ElementMatcher.match_elements_core cfg A A).map
          (fun m => m.element_a.1)).toFinset)) = [] := by
      rw [List.filter_eq_nil]
      intro ia hia
      simp only [decide_eq_true_eq, not_not]
      rw [List.mem_toFinset]
      have h2 : ia.1 ∈ ((ElementMatcher.match_elements_core cfg A A).map
          (fun m => m.element_a)).map Prod.fst := by
        rw [hea]
        exact List.mem_map_of_mem Prod.fst hia
      rw [List.map_map] at h2
      exact h2
    have hfb : A.enum.filter (fun ib => decide (ib.1 ∉
        ((ElementMatcher.match_elements_core cfg A A).map
          (fun m => m.element_b.1)).toFinset)) = [] := by
      rw [List.filter_eq_nil]
      intro ib hib
      simp only [decide_eq_true_eq, not_not]
      rw [List.mem_toFinset]
      have h2 : ib.1 ∈ ((ElementMatcher.match_elements_core cfg A A).map
          (fun m => m.element_b)).map Prod.fst := by
        rw [heb]
        exact List.mem_map_of_mem Prod.fst hib
      rw [List.map_map] at h2
      exact h2
    have hunch : ∀ d ∈ (DiffDetector.detect_differences cfg A A t0 t1).1,
        d.diff_type = DifferenceType.unchanged := by
      have hfstA : (DiffDetector.detect_differences cfg A A t0 t1).1 =
          (ElementMatcher.match_elements_core cfg A A).map
            (DiffDetector.analyze_modification cfg) ++
          (A.enum.filter (fun ia => decide (ia.1 ∉
            ((ElementMatcher.match_elements_core cfg A A).map
              (fun m => m.element_a.1)).toFinset))).map
            DiffDetector.deletedDetail ++
          (A.enum.filter (fun ib => decide (ib.1 ∉
            ((ElementMatcher.match_elements_core cfg A A).map
              (fun m => m.element_b.1)).toFinset))).map
            DiffDetector.addedDetail := rfl
      rw [hfstA, hfa, hfb]
      simp only [List.map_nil, List.append_nil]
      intro d hd
      obtain ⟨m, hm, rfl⟩ := List.mem_map.1 hd
      unfold DiffDetector.analyze_modification
      dsimp only
      rw [if_pos (by rw [hsim m hm]; norm_num)]
    have hcA2 : List.countP
        (fun d => decide (d.diff_type = DifferenceType.added))
        ((DiffDetector.detect_differences cfg A A t0 t1).1) = 0 :=
      List.countP_eq_zero.2 (fun d hd => by simp [hunch d hd])
    have hcD2 : List.countP
        (fun d => decide (d.diff_type = DifferenceType.deleted))
        ((DiffDetector.detect_differences cfg A A t0 t1).1) = 0 :=
      List.countP_eq_zero.2 (fun d hd => by simp [hunch d hd])
    have hcM2 : List.countP
        (fun d => decide (d.diff_type = DifferenceType.modified))
        ((DiffDetector.detect_differences cfg A A t0 t1).1) = 0 :=
      List.countP_eq_zero.2 (fun d hd => by simp [hunch d hd])
    rw [hstats]
    unfold DiffDetector.calc_statistics
    dsimp only
    rw [hcA2, hcD2, hcM2]
    split_ifs <;> norm_num

/-- C2 counterexample: a one-line `A` against a one-circle `B` (a valid
configuration, well-formed elements) yields one deleted and one added
record, so `change_rate = 2/max(1,1) = 2 > 1`. -/
theorem C2_counterexample :
    ¬ (DiffDetector.detect_differences cfgUnit [Elem.line lineB1]
        [Elem.circle circleO] 0 0).2.change_rate ≤ 1 := by
  have hgc0 : ElementMatcher.get_candidates cfgUnit (Elem.line lineB1)
      [Elem.circle circleO] ∅ = [] := by
    unfold ElementMatcher.get_candidates
    dsimp only
    have htf0 : (((SpatialIndex.insert_batch {} [Elem.circle circleO]).query_nearby
        (Elem.line lineB1) cfgUnit.max_search_radius).filter
        (fun je => decide (sameType je.2 (Elem.line lineB1)) &&
          decide (je.1 ∉ (∅ : Finset ℕ)))) = [] := by
      rw [List.filter_eq_nil]
      intro x hx
      unfold SpatialIndex.query_nearby at hx
      dsimp only at hx
      rw [List.mem_filter] at hx
      have hx1 := hx.1
      rw [insert_batch_elements_empty] at hx1
      have hx2 : x = (0, Elem.circle circleO) := by simpa using hx1
      subst hx2
      simp [sameType]
    rw [htf0]
    simp
  have hfbm0 : ElementMatcher.find_best_match cfgUnit 0 (Elem.line lineB1)
      [Elem.circle circleO] ∅ = none := by
    unfold ElementMatcher.find_best_match
    dsimp only
    rw [hgc0]
    rfl
  have hcore0 : ElementMatcher.match_elements_core cfgUnit [Elem.line lineB1]
      [Elem.circle circleO] = [] := by
    unfold ElementMatcher.match_elements_core
    have henum : ([Elem.line lineB1] : List Elem).enum =
        [(0, Elem.line lineB1)] := rfl
    rw [henum]
    simp [ElementMatcher.matchFold, hfbm0]
  have hD0 : (DiffDetector.detect_differences cfgUnit [Elem.line lineB1]
      [Elem.circle circleO] 0 0).1 =
      [DiffDetector.deletedDetail (0, Elem.line lineB1),
       DiffDetector.addedDetail (0, Elem.circle circleO)] := by
    have hfst0 : (DiffDetector.detect_differences cfgUnit [Elem.line lineB1]
        [Elem.circle circleO] 0 0).1 =
        (ElementMatcher.match_elements_core cfgUnit [Elem.line lineB1]
          [Elem.circle circleO]).map
          (DiffDetector.analyze_modification cfgUnit) ++
        (([Elem.line lineB1] : List Elem).enum.filter (fun ia =>
          decide (ia.1 ∉ ((ElementMatcher.match_elements_core cfgUnit
            [Elem.line lineB1] [Elem.circle circleO]).map
            (fun m => m.element_a.1)).toFinset))).map
          DiffDetector.deletedDetail ++
        (([Elem.circle circleO] : List Elem).enum.filter (fun ib =>
          decide (ib.1 ∉ ((ElementMatcher.match_elements_core cfgUnit
            [Elem.line lineB1] [Elem.circle circleO]).map
            (fun m => m.element_b.1)).toFinset))).map
          DiffDetector.addedDetail := rfl
    rw [hfst0, hcore0]
    simp [List.enum, List.enumFrom]
  have hstats0 : (DiffDetector.detect_differences cfgUnit [Elem.line lineB1]
      [Elem.circle circleO] 0 0).2 =
      DiffDetector.calc_statistics [Elem.line lineB1] [Elem.circle circleO]
        ((DiffDetector.detect_differences cfgUnit [Elem.line lineB1]
          [Elem.circle circleO] 0 0).1) ((0 : ℝ) - 0) := rfl
  have hcr0 : (DiffDetector.detect_differences cfgUnit [Elem.line lineB1]
      [Elem.circle circleO] 0 0).2.change_rate = 2 := by
    rw [hstats0, hD0]
    unfold DiffDetector.calc_statistics
    dsimp only
    norm_num [List.countP_cons, List.countP_nil, DiffDetector.deletedDetail,
      DiffDetector.addedDetail]
    simp
    norm_num
  rw [hcr0]
  norm_num

/-- C2 witness: the amended theorem applies to the (identical, empty) input
pair under the unit configuration, and the change rate is `0` there. -/
theorem C2_witness :
    (0 : ℝ) < cfgUnit.position ∧
    (DiffDetector.detect_differences cfgUnit [] [] 0 0).2.change_rate = 0 := by
  constructor
  · norm_num [cfgUnit]
  · exact (C2_change_rate_bounds cfgUnit [] [] 0 0
      (by norm_num [cfgUnit]) (by norm_num [cfgUnit]) (by norm_num [cfgUnit])
      (by norm_num [cfgUnit]) (by norm_num [cfgUnit]) (by norm_num [cfgUnit])
      (by norm_num [cfgUnit]) (by intro e he; simp at he)).2.2 rfl

/-- C8: the determinism claim is wrong as stated — `processing_time` is a
wall-clock measurement (`time.time()` twice), so two runs on identical inputs
give different `DifferenceStatistics`; every other component of the output of
`detect_differences` is a pure function of the inputs and the configuration,
hence identical across runs. -/
theorem C8_clock_only_in_processing_time (cfg : ToleranceConfig)
    (A B : List Elem) (t0 t1 t2 t3 : ℝ) :
    (DiffDetector.detect_differences cfg A B t0 t1).1 =
      (DiffDetector.detect_differences cfg A B t2 t3).1 ∧
    (DiffDetector.detect_differences cfg A B t0 t1).2.total_elements_a =
      (DiffDetector.detect_differences cfg A B t2 t3).2.total_elements_a ∧
    (DiffDetector.detect_differences cfg A B t0 t1).2.total_elements_b =
      (DiffDetector.detect_differences cfg A B t2 t3).2.total_elements_b ∧
    (DiffDetector.detect_differences cfg A B t0 t1).2.added_count =
      (DiffDetector.detect_differences cfg A B t2 t3).2.added_count ∧
    (DiffDetector.detect_differences cfg A B t0 t1).2.deleted_count =
      (DiffDetector.detect_differences cfg A B t2 t3).2.deleted_count ∧
    (DiffDetector.detect_differences cfg A B t0 t1).2.modified_count =
      (DiffDetector.detect_differences cfg A B t2 t3).2.modified_count ∧
    (DiffDetector.detect_differences cfg A B t0 t1).2.unchanged_count =
      (DiffDetector.detect_differences cfg A B t2 t3).2.unchanged_count ∧
    (DiffDetector.detect_differences cfg A B t0 t1).2.position_changes =
      (DiffDetector.detect_differences cfg A B t2 t3).2.position_changes ∧
    (DiffDetector.detect_differences cfg A B t0 t1).2.size_changes =
      (DiffDetector.detect_differences cfg A B t2 t3).2.size_changes ∧
    (DiffDetector.detect_differences cfg A B t0 t1).2.shape_changes =
      (DiffDetector.detect_differences cfg A B t2 t3).2.shape_changes ∧
    (DiffDetector.detect_differences cfg A B t0 t1).2.attribute_changes =
      (DiffDetector.detect_differences cfg A B t2 t3).2.attribute_changes ∧
    (DiffDetector.detect_differences cfg A B t0 t1).2.orientation_changes =
      (DiffDetector.detect_differences cfg A B t2 t3).2.orientation_changes ∧
    (DiffDetector.detect_differences cfg A B t0 t1).2.total_differences =
      (DiffDetector.detect_differences cfg A B t2 t3).2.total_differences ∧
    (DiffDetector.detect_differences cfg A B t0 t1).2.change_rate =
      (DiffDetector.detect_differences cfg A B t2 t3).2.change_rate ∧
    (DiffDetector.detect_differences cfg A B t0 t1).2.type_statistics =
      (DiffDetector.detect_differences cfg A B t2 t3).2.type_statistics :=
  ⟨rfl, rfl, rfl, rfl, rfl, rfl, rfl, rfl, rfl, rfl, rfl, rfl, rfl, rfl, rfl⟩

/-- C8 counterexample: two runs of `detect_differences` on the same (empty)
inputs whose wall-clock readings differ return different
`DifferenceStatistics` (the `processing_time` fields are `0` and `1`). -/
theorem C8_counterexample :
    DiffDetector.detect_differences cfgUnit [] [] 0 0 ≠
      DiffDetector.detect_differences cfgUnit [] [] 0 1 := by
  intro h
  have h2 := congrArg (fun p => p.2.processing_time) h
  have h3 : (0 : ℝ) - 0 = 1 - 0 := h2
  norm_num at h3

end

end PC
